import Mathlib

/-!
# kdl: `kdl::sema::new_resource::parse`

A shallow embedding of `src/parser/sema/new_resource.cpp`, the routine that reads one
`new (...) { field = value; ... }` declaration from the lexeme cursor and issues the
`write_*` calls that encode it, followed by theorems about that routine.

Layout of the embedding:

* the lexemes and the cursor (`peek`, `expect`, `ensure`, `read`, `advance`);
* the registry records the routine reads (`field`, `field_value`, `container`);
* the calls made on `resource_data`: every step yields the calls it made, in order;
* `parse`, cut into one definition per branch of the source, each carrying the
  line range it embeds.

`new_resource.cpp` is the translation unit embedded here. What it uses from other
translation units is either a parameter (`Decls`: the numeric codes of `kdl::type`,
`type_size`, `lexeme::value<T>`; `Container` and `Target`: the registry and the file
access) or a definition whose doc comment starts with "Modelled from the spec".

The two `while` loops of the source are recursive functions with an iteration budget; the
budget they are run with is one more than the number of lexemes left, and running out of
it is a failure of its own, `out_of_fuel`, which no statement below counts as a rejection
by the source.
-/

namespace kdl

/-! ## Lexemes -/

/-- The lexeme kinds named by `new_resource.cpp`; `other` stands for every kind the file
does not name, `eof` for the lexeme the cursor yields once the input is exhausted. -/
inductive LexType
  | identifier | integer | string | res_id
  | l_paren | r_paren | l_brace | r_brace
  | comma | equals | semi | pipe
  | eof
  | other (code : Nat)
deriving DecidableEq, Repr

/-- A lexeme: its kind and its text (`lexeme::is`, `lexeme::text`). -/
structure Lexeme where
  type : LexType
  text : String
deriving DecidableEq, Repr

/-- The method `lexeme::is(type)`. -/
def Lexeme.is (lx : Lexeme) (ty : LexType) : Bool := decide (lx.type = ty)

/-- The C++ arithmetic types at which the source instantiates `lexeme::value<T>`. -/
inductive CType
  | int8 | int16 | int32 | int64 | uint8 | uint16 | uint32 | uint64
deriving DecidableEq, Repr

/-- Width in bits. -/
def CType.bits : CType → Nat
  | .int8 | .uint8 => 8
  | .int16 | .uint16 => 16
  | .int32 | .uint32 => 32
  | .int64 | .uint64 => 64

/-- Signedness. -/
def CType.signed : CType → Bool
  | .int8 | .int16 | .int32 | .int64 => true
  | .uint8 | .uint16 | .uint32 | .uint64 => false

/-- Reduction of an integer into the range of the machine type `T` (two's complement for
the signed types): the value an object of type `T` holds. -/
def CType.cast (T : CType) (x : Int) : Int :=
  if T.signed then (x + 2 ^ (T.bits - 1)) % 2 ^ T.bits - 2 ^ (T.bits - 1)
  else x % 2 ^ T.bits

/-- What `new_resource.cpp` depends on and does not fix itself: the numeric codes of the
enumeration `kdl::type`, the function `type_size` and the template `lexeme::value<T>`
(declared in headers that are not available), and the order in which the compiler
evaluates the arguments of a call, which C++ leaves unspecified (it matters at lines
373-377 only). The fourteen codes are the case labels of the `switch` at lines 271-388,
which compiles only if they are pairwise different. -/
structure Decls where
  NONE : Nat
  DBYT : Nat
  DWRD : Nat
  DLNG : Nat
  DQAD : Nat
  HBYT : Nat
  HWRD : Nat
  HLNG : Nat
  HQAD : Nat
  PSTR : Nat
  CSTR : Nat
  Cxxx : Nat
  RECT : Nat
  HEXD : Nat
  type_size : Nat → Nat
  value : CType → Lexeme → Int
  args_left_to_right : Bool
  distinct : [NONE, DBYT, DWRD, DLNG, DQAD, HBYT, HWRD, HLNG, HQAD,
              PSTR, CSTR, Cxxx, RECT, HEXD].Nodup

/-- The call `lx.value<T>()`: the conversion is `Decls.value`; its result is an object of
type `T`, so it lies in the range of `T`. -/
def Lexeme.value (D : Decls) (T : CType) (lx : Lexeme) : Int := T.cast (D.value T lx)

/-- The call `lx.value<uint64_t>()` as a natural number below `2^64`. -/
def Lexeme.value_u64 (D : Decls) (lx : Lexeme) : Nat := (lx.value D .uint64).toNat

/-! ## Registry records -/

/-- A value slot of a field (`kdl::field_value`): the lexeme naming it, under which the
registry stores its backing type, and its symbol table. -/
structure FieldValue where
  name_lexeme : Lexeme
  symbols : List (String × Lexeme)
deriving DecidableEq, Repr

/-- A field of a type definition (`kdl::field`): the optional explicit type, a pair of the
type name and the is-reference flag, and the ordered value slots. -/
structure Field where
  type : Option (String × Bool)
  values : List FieldValue
deriving DecidableEq, Repr

/-- The method `field::value_count()`. -/
def Field.value_count (f : Field) : Nat := f.values.length

/-- The type registry (`kdl::container`) as far as `parse` reads it: `field_named` looks a
field up by its name lexeme and has no result for an unknown name;
`template_field_named(name)` yields a tuple whose component 1 is the backing type code. -/
structure Container where
  field_named : Lexeme → Option Field
  template_field_named : Lexeme → Nat

/-- The build target (`kdl::target`) together with the file loader: `resolve_src_path`, and
`kdl::file(path).contents()`, which has no result for a file that cannot be read. -/
structure Target where
  resolve_src_path : String → String
  contents : String → Option String

/-! ## Calls on `resource_data` -/

/-- One call on `resource_data` (a `kdl::resource`), with its arguments. -/
inductive WriteOp
  | write_signed_byte (value : FieldValue) (v : Int)
  | write_signed_short (value : FieldValue) (v : Int)
  | write_signed_long (value : FieldValue) (v : Int)
  | write_signed_quad (value : FieldValue) (v : Int)
  | write_byte (value : FieldValue) (v : Nat)
  | write_short (value : FieldValue) (v : Nat)
  | write_long (value : FieldValue) (v : Nat)
  | write_quad (value : FieldValue) (v : Nat)
  | write_pstr (value : FieldValue) (s : String)
  | write_cstr (value : FieldValue) (s : String) (size : Option Nat)
  | write_data (value : FieldValue) (s : String)
  | write_rect (value : FieldValue) (a b c d : Int)
deriving DecidableEq, Repr

/-! ## Failures, outcomes, and the monad of the routine -/

/-- The ways the routine stops without a result. -/
inductive Failure
  /-- The call `log::fatal_error(lx, code, msg)`. -/
  | fatal_error (lx : Lexeme) (code : Nat) (msg : String)
  /-- The statement `throw std::logic_error(msg)`. -/
  | logic_error (msg : String)
  /-- The call `parser.ensure` met a lexeme that is not the expected one. -/
  | ensure_failed (lx : Lexeme)
  /-- The call `type_container.field_named` does not know the field. -/
  | unknown_field (name : Lexeme)
  /-- The call `field.value_at(i)` with `i` beyond the slots of the field. -/
  | no_such_value (i : Nat)
  /-- The call `std::stoll` rejected its argument. -/
  | stoll_failed (text : String)
  /-- The file loader could not read the file. -/
  | file_unreadable (path : String)
  /-- The iteration budget of a loop of the embedding ran out (no counterpart in C++). -/
  | out_of_fuel
deriving DecidableEq, Repr

/-- The human-readable message of a failure, where it has one. -/
def Failure.message : Failure → String
  | .fatal_error _ _ msg => msg
  | .logic_error msg => msg
  | _ => ""

/-- Outcome of a step started at some position of the cursor: a result or a failure,
together with the lexemes that are left from the cursor on and the calls the step made on
`resource_data`, oldest first. `parse` only ever adds calls to `resource_data` and reads it
once, in the final `assemble()`. -/
inductive Res (α : Type)
  | ok (a : α) (lexemes : List Lexeme) (writes : List WriteOp)
  | fail (e : Failure) (lexemes : List Lexeme) (writes : List WriteOp)
deriving Repr

/-- The same outcome, after the calls `before` were made first. -/
def Res.after {α : Type} (before : List WriteOp) : Res α → Res α
  | .ok a lexemes writes => .ok a lexemes (before ++ writes)
  | .fail e lexemes writes => .fail e lexemes (before ++ writes)

/-- A step of the routine, run from the lexemes at the cursor. -/
def M (α : Type) : Type := List Lexeme → Res α

/-- Sequencing: the second step starts where the first stopped, and a failure ends the
run. -/
def M.bind {α β : Type} (m : M α) (f : α → M β) : M β := fun lexemes =>
  match m lexemes with
  | .ok a rest writes => (f a rest).after writes
  | .fail e rest writes => .fail e rest writes

instance : Monad M where
  pure a := fun lexemes => .ok a lexemes []
  bind := M.bind

/-- Stop with the failure `e`. -/
def M.fail {α : Type} (e : Failure) : M α := fun lexemes => .fail e lexemes []

/-- The call `log::fatal_error(lx, code, msg)`: it does not return. -/
def fatal_error {α : Type} (lx : Lexeme) (code : Nat) (msg : String) : M α :=
  M.fail (.fatal_error lx code msg)

/-- A call on `resource_data`. -/
def emit (w : WriteOp) : M Unit := fun lexemes => .ok () lexemes [w]

/-! ## The lexeme cursor -/

/-- An expectation `expectation(type)` or `expectation(type, text)`, closed by `.be_true()`
or `.be_false()`. -/
structure Expectation where
  type : LexType
  text : Option String
  truth : Bool
deriving DecidableEq, Repr

/-- The term `expectation(ty)`, before `.be_true()` or `.be_false()`. -/
def expectation (ty : LexType) (text : Option String := none) : Expectation :=
  { type := ty, text := text, truth := true }

/-- The method `.be_true()`. -/
def Expectation.be_true (e : Expectation) : Expectation := { e with truth := true }

/-- The method `.be_false()`. -/
def Expectation.be_false (e : Expectation) : Expectation := { e with truth := false }

/-- Whether a lexeme meets an expectation. -/
def Expectation.test (e : Expectation) (lx : Lexeme) : Bool :=
  let hit := lx.is e.type && (match e.text with
    | none => true
    | some t => decide (lx.text = t))
  hit == e.truth

/-- Modelled from the spec: the end of the lexeme stream, which the token cursor of section 6
(`kdl::sema::parser`, not available) yields once the lexemes run out. -/
def eof : Lexeme := { type := .eof, text := "" }

/-- Modelled from the spec: the lexeme at `offset` from the cursor (`peek() → Token` of the
token cursor of section 6). -/
def peek_at (lexemes : List Lexeme) (offset : Nat) : Lexeme := lexemes.getD offset eof

/-- Modelled from the spec: `expect(pattern) → bool`, a non-consuming lookahead over one or
more expected token shapes: expectation number `i` is tested on the lexeme at offset `i`. -/
def expect_from (lexemes : List Lexeme) : List Expectation → Bool
  | [] => true
  | e :: es => e.test (peek_at lexemes 0) && expect_from lexemes.tail es

/-- The call `parser.expect({...})`. -/
def expect (es : List Expectation) : M Bool := fun lexemes => .ok (expect_from lexemes es) lexemes []

/-- Modelled from the spec: `peek() → Token`, the lexeme under the cursor, not consumed. -/
def peek : M Lexeme := fun lexemes => .ok (peek_at lexemes 0) lexemes []

/-- Modelled from the spec: `read() → Token`, the lexeme under the cursor, consumed. -/
def read : M Lexeme := fun lexemes => .ok (peek_at lexemes 0) lexemes.tail []

/-- Modelled from the spec: `advance()`, which moves the cursor over one lexeme. -/
def advance : M Unit := fun lexemes => .ok () lexemes.tail []

/-- Modelled from the spec: `ensure(pattern)`, consume-or-fail: each expectation in turn
consumes one lexeme, and the run fails at the first lexeme that does not meet it. -/
def ensure : List Expectation → M Unit
  | [] => pure ()
  | e :: es => do
    let lx ← read
    if e.test lx then ensure es else M.fail (.ensure_failed lx)

/-! ## Collaborators of `parse` that are not in `new_resource.cpp` -/

/-- Modelled from the spec: `field.value_at(i)` (`kdl::field`, not available), slot `i` of
the ordered value slots of a field template; the run fails when the field has no such
slot. -/
def value_at (field : Field) (i : Nat) : M FieldValue :=
  match field.values.get? i with
  | some value => pure value
  | none => M.fail (.no_such_value i)

/-- Modelled from the spec: `value.value_for(symbol)` (`kdl::field_value`, not available),
the resolution of an identifier against the symbol table of the slot; an undefined symbol
is fatal with the text of the symbol in the message. -/
def value_for (value : FieldValue) (symbol : Lexeme) : M Lexeme :=
  match value.symbols.lookup symbol.text with
  | some literal => pure literal
  | none => fatal_error symbol 1 ("Undefined symbol '" ++ symbol.text ++ "'.")

/-- The call `type_container.field_named(field_name)`. -/
def field_named (type_container : Container) (field_name : Lexeme) : M Field :=
  match type_container.field_named field_name with
  | some field => pure field
  | none => M.fail (.unknown_field field_name)

/-- The expression `kdl::file(path).contents()`. -/
def contents (t : Target) (path : String) : M String :=
  match t.contents path with
  | some text => pure text
  | none => M.fail (.file_unreadable path)

/-- The digits at the head of a character list, as a number, and how many there are. -/
def stoll_digits : List Char → Nat → Nat → Nat × Nat
  | [], acc, n => (acc, n)
  | c :: cs, acc, n =>
    if 48 ≤ c.toNat ∧ c.toNat ≤ 57 then stoll_digits cs (acc * 10 + (c.toNat - 48)) (n + 1)
    else (acc, n)

/-- The standard function `std::stoll` in base 10: leading blanks are skipped, a sign is
optional, the longest run of digits is converted; there is no result when no digit is
found or when the number does not fit `long long`. -/
def stoll (text : String) : Option Int :=
  let cs := text.toList.dropWhile (fun c => c = ' ' ∨ (9 ≤ c.toNat ∧ c.toNat ≤ 13))
  let (neg, ds) := match cs with
    | '-' :: r => (true, r)
    | '+' :: r => (false, r)
    | r => (false, r)
  let (n, k) := stoll_digits ds 0 0
  let v : Int := if neg then -(n : Int) else (n : Int)
  if k = 0 then none
  else if v < -(2 : Int) ^ 63 ∨ (2 : Int) ^ 63 ≤ v then none
  else some v

/-- The call `std::stoll(text)`, which throws when it has no result. -/
def std_stoll (text : String) : M Int :=
  match stoll text with
  | some n => pure n
  | none => M.fail (.stoll_failed text)

/-- The constant `INT64_MIN`. -/
def INT64_MIN : Int := -(2 : Int) ^ 63

/-! ## `kdl::sema::new_resource` -/

namespace sema.new_resource

/-- Source lines 26-31: `test`. -/
def test : M Bool :=
  expect [(expectation .identifier (some "new")).be_true]

/-- Source lines 41-69: the head `new ( [id , name | id | name] )` of a declaration. The
result is the pair of the locals `resource_id` and `resource_name`. -/
def parse_header (D : Decls) : M (Int × String) := do
  ensure [(expectation .identifier (some "new")).be_true, (expectation .l_paren).be_true]
  let mut resource_id : Int := INT64_MIN
  let mut resource_name : String := ""
  if (← expect [(expectation .res_id).be_true, (expectation .comma).be_true,
      (expectation .string).be_true]) then
    resource_id ← std_stoll (← read).text
    advance
    resource_name := (← read).text
  else if (← expect [(expectation .res_id).be_true]) then
    resource_id := (← read).value D .int64
  else if (← expect [(expectation .string).be_true]) then
    resource_name := (← read).text
  ensure [(expectation .r_paren).be_true]
  pure (resource_id, resource_name)

/-- Source lines 93-118: the value of a field whose explicit type is a reference. -/
def reference_field (D : Decls) (type_container : Container) (field_name : Lexeme)
    (field : Field) : M Unit := do
  if !(← expect [(expectation .res_id).be_true]) then
    let lx ← peek
    fatal_error lx 1 ("The field '" ++ field_name.text ++ "' expects a resource id.")
  let id ← read
  let value ← value_at field 0
  let value_type := type_container.template_field_named value.name_lexeme
  if value_type = D.DWRD then
    emit (.write_signed_short value (id.value D .int16))
  else if value_type = D.DQAD then
    emit (.write_signed_quad value (id.value D .int64))
  else
    fatal_error field_name 1
      "Resource Reference field should be backed by either a DWRD or DQAD value."

/-- Source lines 139-170: the text of a `File` field is written to slot 0 of the field,
according to `value_type & 0xF000`. -/
def file_write (D : Decls) (type_container : Container) (field_name : Lexeme)
    (field : Field) (string_value : String) : M Unit := do
  let value ← value_at field 0
  let value_type := type_container.template_field_named value.name_lexeme
  let kind := value_type &&& 0xF000
  if kind = D.PSTR then
    if string_value.utf8ByteSize > 255 then
      fatal_error field_name 1 "String too large for value type."
    emit (.write_pstr value string_value)
  else if kind = D.CSTR then
    emit (.write_cstr value string_value none)
  else if kind = D.HEXD then
    emit (.write_data value string_value)
  else if kind = D.Cxxx then
    let size := D.type_size value_type
    if string_value.utf8ByteSize > size then
      fatal_error field_name 1 "String too large for value type."
    emit (.write_cstr value string_value (some size))
  else
    fatal_error field_name 1
      ("Unsupported value type for field '" ++ field_name.text ++ "' with a type 'File'.")

/-- Source lines 119-171: the value of a field whose explicit type is `File`. -/
def file_field (D : Decls) (type_container : Container) (t : Target) (field_name : Lexeme)
    (field : Field) : M Unit := do
  let mut import_file := false
  if (← expect [(expectation .identifier (some "import")).be_true]) then
    advance
    import_file := true
  if !(← expect [(expectation .string).be_true]) then
    let lx ← peek
    fatal_error lx 1 "Fields with the 'File' type expect a string value."
  let mut string_value := (← read).text
  if import_file then
    let path := t.resolve_src_path string_value
    string_value ← contents t path
  file_write D type_container field_name field string_value

/-- Source lines 172-183: the value of a field whose explicit type is `Picture`. -/
def picture_field : M Unit := do
  if !(← expect [(expectation .string).be_true]) then
    let lx ← peek
    fatal_error lx 1 "Fields with the 'Picture' type expect a string value."
  let file_path ← read
  fatal_error file_path 1 "Picture types are not currently supported."

/-- Source lines 184-186: the value of a field whose explicit type is `Sprite`. -/
def sprite_field : M Unit := do
  fatal_error (← peek) 1 "Sprite types are not currently supported."

/-- Source lines 187-198: the value of a field whose explicit type is `ColorIcon`. -/
def coloricon_field : M Unit := do
  if !(← expect [(expectation .string).be_true]) then
    let lx ← peek
    fatal_error lx 1 "Fields with the 'ColorIcon' type expect a string value."
  let file_path ← read
  fatal_error file_path 1 "ColorIcon types are not currently supported."

/-- Source lines 214-232: one term of a bitmask is merged into `mask`. -/
def bitmask_term (D : Decls) (value : FieldValue) (mask : Nat) : M Nat := do
  if (← expect [(expectation .integer).be_true]) then
    pure (mask ||| (← read).value_u64 D)
  else if (← expect [(expectation .identifier).be_true]) then
    let symbol ← read
    let symbol_value ← value_for value symbol
    if !symbol_value.is .integer then
      fatal_error symbol 1 ("Type mismatch for '" ++ symbol.text ++ "' in bitmask.")
    pure (mask ||| symbol_value.value_u64 D)
  else
    let lx ← peek
    fatal_error lx 1 ("Unexpected lexeme encountered in bitmask: '" ++ lx.text ++ "'")

/-- Source lines 213-237: the loop `while (parser.expect({ semi.be_false() }))` over the
terms of a bitmask; the result is the final `mask`. The first argument bounds the number
of iterations. -/
def bitmask_loop (D : Decls) (value : FieldValue) : Nat → Nat → M Nat
  | 0, _ => M.fail .out_of_fuel
  | fuel + 1, mask => do
    if (← expect [(expectation .semi).be_false]) then
      let mask ← bitmask_term D value mask
      if !(← expect [(expectation .semi).be_true]) then
        ensure [(expectation .pipe).be_true]
      bitmask_loop D value fuel mask
    else
      pure mask

/-- The number of lexemes from the cursor to the end of the input. -/
def remaining : M Nat := fun lexemes => .ok lexemes.length lexemes []

/-- Source lines 199-260: the value of a field whose explicit type is `Bitmask`. Every
iteration of the loop that does not fail consumes a lexeme, and the loop runs with one
iteration more than there are lexemes. -/
def bitmask_field (D : Decls) (type_container : Container) (field_name : Lexeme)
    (field : Field) : M Unit := do
  if field.value_count ≠ 1 then
    fatal_error field_name 1 ("The field '" ++ field_name.text ++
      "' should have only one value due to it being a 'Bitmask'.")
  let value ← value_at field 0
  let value_type := type_container.template_field_named value.name_lexeme
  if value_type ≠ D.HBYT ∧ value_type ≠ D.HWRD ∧ value_type ≠ D.HLNG ∧ value_type ≠ D.HQAD then
    fatal_error field_name 1 ("The field '" ++ field_name.text ++
      "' must be backed by either a HBYT, HWRD, HLNG or HQAD value.")
  let mask ← bitmask_loop D value ((← remaining) + 1) 0
  if value_type = D.HBYT then
    emit (.write_byte value ((mask &&& 0xFF) % 2 ^ 8))
  else if value_type = D.HWRD then
    emit (.write_short value ((mask &&& 0xFFFF) % 2 ^ 16))
  else if value_type = D.HLNG then
    emit (.write_long value ((mask &&& 0xFFFFFFFF) % 2 ^ 32))
  else if value_type = D.HQAD then
    emit (.write_quad value mask)
  else
    M.fail (.logic_error "Unexpected bitmask type encountered.")

/-- Source lines 273-276, repeated at each of the eight integer cases (281, 289, 297, 305,
313, 321, 329): the next lexeme has to be an integer literal. -/
def expect_integer (field_name : Lexeme) : M Unit := do
  if !(← expect [(expectation .integer).be_true]) then
    let lx ← peek
    fatal_error lx 1 ("Expected an integer literal for field '" ++ field_name.text ++ "'.")

/-- Source lines 338-341, repeated at the three string cases (346, 355): the next lexeme
has to be a string literal. -/
def expect_string (field_name : Lexeme) : M Unit := do
  if !(← expect [(expectation .string).be_true]) then
    let lx ← peek
    fatal_error lx 1 ("Expected an string literal for field '" ++ field_name.text ++ "'.")

/-- Source lines 268-388: the body of the loop over the slots of a field without explicit
type, a `switch` on the backing type of the slot. The `switch` has no `default`: a type
code that is none of the fourteen labels leaves the statement without doing anything. -/
def infer_value (D : Decls) (type_container : Container) (field_name : Lexeme)
    (value : FieldValue) : M Unit := do
  let symbol := type_container.template_field_named value.name_lexeme
  if symbol = D.DBYT then
    expect_integer field_name
    emit (.write_signed_byte value ((← read).value D .int8))
  else if symbol = D.DWRD then
    expect_integer field_name
    emit (.write_signed_short value ((← read).value D .int16))
  else if symbol = D.DLNG then
    expect_integer field_name
    emit (.write_signed_long value ((← read).value D .int32))
  else if symbol = D.DQAD then
    expect_integer field_name
    emit (.write_signed_quad value ((← read).value D .int64))
  else if symbol = D.HBYT then
    expect_integer field_name
    emit (.write_byte value ((← read).value D .uint8).toNat)
  else if symbol = D.HWRD then
    expect_integer field_name
    emit (.write_short value ((← read).value D .uint16).toNat)
  else if symbol = D.HLNG then
    expect_integer field_name
    emit (.write_long value ((← read).value D .uint32).toNat)
  else if symbol = D.HQAD then
    expect_integer field_name
    emit (.write_quad value ((← read).value D .uint64).toNat)
  else if symbol = D.PSTR then
    expect_string field_name
    emit (.write_pstr value (← read).text)
  else if symbol = D.CSTR then
    expect_string field_name
    emit (.write_cstr value (← read).text none)
  else if symbol = D.Cxxx then
    expect_string field_name
    emit (.write_cstr value (← read).text (some (D.type_size symbol)))
  else if symbol = D.RECT then
    if !(← expect [(expectation .integer).be_true, (expectation .integer).be_true,
        (expectation .integer).be_true, (expectation .integer).be_true]) then
      let lx ← peek
      fatal_error lx 1 ("Expected 4 integer literals for field '" ++ field_name.text ++ "'.")
    let r1 := (← read).value D .int16
    let r2 := (← read).value D .int16
    let r3 := (← read).value D .int16
    let r4 := (← read).value D .int16
    if D.args_left_to_right then
      emit (.write_rect value r1 r2 r3 r4)
    else
      emit (.write_rect value r4 r3 r2 r1)
  else if symbol = D.HEXD then
    fatal_error (← peek) 1
      ("The 'HEXD' type is not directly supported '" ++ field_name.text ++ "'.")
  else if symbol = D.NONE then
    fatal_error (← peek) 1 ("Unknown type encountered in field '" ++ field_name.text ++ "'.")
  else
    pure ()

/-- Source lines 267-389: the loop `for (i = 0; i < field.value_count(); ++i)` over the
slots `field.value_at(i)`, in order. -/
def infer_values (D : Decls) (type_container : Container) (field_name : Lexeme) :
    List FieldValue → M Unit
  | [] => pure ()
  | value :: values => do
    infer_value D type_container field_name value
    infer_values D type_container field_name values

/-- Source lines 88-390: the value of a field, from the lexeme after `=` up to, and not
including, the closing `;`. -/
def parse_value (D : Decls) (type_container : Container) (t : Target) (field_name : Lexeme)
    (field : Field) : M Unit := do
  match field.type with
  | some type =>
    if type.2 then
      reference_field D type_container field_name field
    else if type.1 = "File" then
      file_field D type_container t field_name field
    else if type.1 = "Picture" then
      picture_field
    else if type.1 = "Sprite" then
      sprite_field
    else if type.1 = "ColorIcon" then
      coloricon_field
    else if type.1 = "Bitmask" then
      bitmask_field D type_container field_name field
    else
      fatal_error (← peek) 1 ("Unknown field type: '" ++ type.1 ++ "'")
  | none =>
    infer_values D type_container field_name field.values

/-- Source lines 77-392: the body of the field loop, one `name = value ;`. -/
def parse_field (D : Decls) (type_container : Container) (t : Target) : M Unit := do
  if !(← expect [(expectation .identifier).be_true]) then
    let lx ← peek
    fatal_error lx 1 "Expected an identifier for the field name."
  let field_name ← read
  let field ← field_named type_container field_name
  ensure [(expectation .equals).be_true]
  parse_value D type_container t field_name field
  ensure [(expectation .semi).be_true]

/-- Source lines 75-393: the loop `while (parser.expect({ r_brace.be_false() }))` over the
fields. The first argument bounds the number of iterations. -/
def parse_fields (D : Decls) (type_container : Container) (t : Target) : Nat → M Unit
  | 0 => M.fail .out_of_fuel
  | fuel + 1 => do
    if (← expect [(expectation .r_brace).be_false]) then
      parse_field D type_container t
      parse_fields D type_container t fuel
    else
      pure ()

end sema.new_resource

/-! ## The encoder behind `resource_data` -/

/-- The two byte orders an integer can be laid out in. -/
inductive ByteOrder
  | big | little
deriving DecidableEq, Repr

/-- Modelled from the spec: the primitive codec of section 4.3 for integers (`kdl::resource`,
not available): the two's complement encoding of `v` on `width` bytes. The spec does not
fix the byte order, which is a parameter. -/
def int_bytes (order : ByteOrder) (width : Nat) (v : Int) : List Nat :=
  let n := (v % 2 ^ (8 * width)).toNat
  let low_first := (List.range width).map (fun i => n / 256 ^ i % 256)
  match order with
  | .little => low_first
  | .big => low_first.reverse

/-- The bytes of a text (UTF-8). -/
def string_bytes (s : String) : List Nat :=
  (s.toList.flatMap String.utf8EncodeChar).map UInt8.toNat

/-- Modelled from the spec: the primitive codec of section 4.3 (`kdl::resource`, not
available), the bytes one `write_*` call puts into the buffer: integers on 1, 2, 4 or 8
bytes, a Pascal string (length byte, then the text), a null-terminated string, a
fixed-width null-padded string of the given size, a raw blob without terminator, and a
rectangle of four signed 16-bit integers. -/
def WriteOp.bytes (order : ByteOrder) : WriteOp → List Nat
  | .write_signed_byte _ v => int_bytes order 1 v
  | .write_signed_short _ v => int_bytes order 2 v
  | .write_signed_long _ v => int_bytes order 4 v
  | .write_signed_quad _ v => int_bytes order 8 v
  | .write_byte _ v => int_bytes order 1 v
  | .write_short _ v => int_bytes order 2 v
  | .write_long _ v => int_bytes order 4 v
  | .write_quad _ v => int_bytes order 8 v
  | .write_pstr _ s => (string_bytes s).length % 256 :: string_bytes s
  | .write_cstr _ s none => string_bytes s ++ [0]
  | .write_cstr _ s (some size) =>
    (string_bytes s ++ List.replicate (size - (string_bytes s).length) 0).take size
  | .write_data _ s => string_bytes s
  | .write_rect _ a b c d =>
    int_bytes order 2 a ++ int_bytes order 2 b ++ int_bytes order 2 c ++ int_bytes order 2 d

/-- Modelled from the spec: `resource_data.assemble()` (`kdl::resource`, not available). The
encoder is a growing buffer that every write appends to (section 2), and `assemble`
hands the buffer over: the bytes of the calls, in the order of the calls. -/
def assemble (order : ByteOrder) (writes : List WriteOp) : List Nat :=
  writes.flatMap (WriteOp.bytes order)

namespace sema.new_resource

/-- Source lines 41-73: everything before the field loop, the head of the declaration and
the opening brace. The call `instantiate_resource()` of line 72 makes `resource_data`, on
which no call has been made yet. -/
def open_declaration (D : Decls) : M (Int × String) := do
  let header ← parse_header D
  ensure [(expectation .l_brace).be_true]
  pure header

/-- Source lines 41-395: `parse` up to the closing brace, for a live target `t`. Every
iteration of the field loop that does not fail consumes a lexeme, and the loop runs with
one iteration more than there are lexemes. -/
def parse_declaration (D : Decls) (type_container : Container) (t : Target) : M Unit := do
  let _header ← open_declaration D
  parse_fields D type_container t ((← remaining) + 1)
  ensure [(expectation .r_brace).be_true]

/-- Source lines 33-398: `parse`. The argument `target` is `none` for an expired target.
The last statement assembles the bytes from the calls made on `resource_data`; the source
leaves them in the local `data`, here they are the result. -/
def parse (D : Decls) (type_container : Container) (target : Option Target)
    (order : ByteOrder) : M (List Nat) := fun lexemes =>
  match target with
  | none => .fail (.logic_error "KDL Target is expired, and thus can not continue.") lexemes []
  | some t =>
    match parse_declaration D type_container t lexemes with
    | .ok _ rest writes => .ok (assemble order writes) rest writes
    | .fail e rest writes => .fail e rest writes

end sema.new_resource

/-! ## Definitions used in the statements -/

/-- The message of a failed run (empty for a run that did not fail). -/
def Res.message {α : Type} : Res α → String
  | .ok _ _ _ => ""
  | .fail e _ _ => e.message

/-- The calls a run made. -/
def Res.writes {α : Type} : Res α → List WriteOp
  | .ok _ _ w => w
  | .fail _ _ w => w

/-- A run is rejected: it stops with a failure of the source (not with the iteration budget
of the embedding), having written nothing. -/
def Rejected {α : Type} (r : Res α) : Prop :=
  ∃ e rest, r = .fail e rest [] ∧ e ≠ .out_of_fuel

/-- The text `text` occurs in the message `msg`. -/
def Mentions (msg text : String) : Prop := ∃ a b, msg = a ++ text ++ b

/-- A step never moves the cursor backwards: what is left after it is no longer than what
it started from. -/
def NoGrowth {α : Type} (m : M α) : Prop :=
  ∀ ls a rest w, m ls = .ok a rest w → rest.length ≤ ls.length

/-- A successful step moves the cursor forward. -/
def Consumes {α : Type} (m : M α) : Prop :=
  ∀ ls a rest w, m ls = .ok a rest w → rest.length < ls.length

/-- A step makes no call on `resource_data`. -/
def Silent {α : Type} (m : M α) : Prop := ∀ ls, (m ls).writes = []

/-- The value a bitmask term stands for. -/
def term_value (D : Decls) (value : FieldValue) (lx : Lexeme) : Option Nat :=
  if lx.type = .integer then some (lx.value_u64 D)
  else if lx.type = .identifier then
    match value.symbols.lookup lx.text with
    | some literal => if literal.type = .integer then some (literal.value_u64 D) else none
    | none => none
  else none

/-- The call the `switch` at lines 239-259 makes for a final `mask`. -/
def mask_write (D : Decls) (value_type : Nat) (value : FieldValue) (mask : Nat) : WriteOp :=
  if value_type = D.HBYT then .write_byte value ((mask &&& 0xFF) % 2 ^ 8)
  else if value_type = D.HWRD then .write_short value ((mask &&& 0xFFFF) % 2 ^ 16)
  else if value_type = D.HLNG then .write_long value ((mask &&& 0xFFFFFFFF) % 2 ^ 32)
  else .write_quad value mask

/-- The field is a `Bitmask` over the single slot `value`, which is backed by one of the four
unsigned types. -/
def BitmaskOver (D : Decls) (type_container : Container) (field : Field)
    (value : FieldValue) : Prop :=
  field.type = some ("Bitmask", false) ∧ field.values = [value] ∧
  (type_container.template_field_named value.name_lexeme = D.HBYT ∨
   type_container.template_field_named value.name_lexeme = D.HWRD ∨
   type_container.template_field_named value.name_lexeme = D.HLNG ∨
   type_container.template_field_named value.name_lexeme = D.HQAD)

namespace sema.new_resource

/-- The field loop as a relation: from the lexemes `ls`, the fields up to the first `}` are
read one after the other, field number `i` makes the calls `chunks[i]`, and the cursor ends
at `rest`, in front of the closing brace. -/
inductive FieldsRun (D : Decls) (type_container : Container) (t : Target) :
    List Lexeme → List (List WriteOp) → List Lexeme → Prop
  | done (ls : List Lexeme) :
      expect_from ls [(expectation .r_brace).be_false] = false → FieldsRun D type_container t ls [] ls
  | field (ls mid rest : List Lexeme) (w : List WriteOp) (chunks : List (List WriteOp)) :
      expect_from ls [(expectation .r_brace).be_false] = true →
      parse_field D type_container t ls = .ok () mid w →
      FieldsRun D type_container t mid chunks rest →
      FieldsRun D type_container t ls (w :: chunks) rest

end sema.new_resource

/-- The slot a call writes to. -/
def WriteOp.slot : WriteOp → FieldValue
  | .write_signed_byte value _ => value
  | .write_signed_short value _ => value
  | .write_signed_long value _ => value
  | .write_signed_quad value _ => value
  | .write_byte value _ => value
  | .write_short value _ => value
  | .write_long value _ => value
  | .write_quad value _ => value
  | .write_pstr value _ => value
  | .write_cstr value _ _ => value
  | .write_data value _ => value
  | .write_rect value _ _ _ _ => value

/-- The type code of the integer slot whose values have the machine type `T`. -/
def Decls.int_code (D : Decls) : CType → Nat
  | .int8 => D.DBYT
  | .int16 => D.DWRD
  | .int32 => D.DLNG
  | .int64 => D.DQAD
  | .uint8 => D.HBYT
  | .uint16 => D.HWRD
  | .uint32 => D.HLNG
  | .uint64 => D.HQAD

/-- The call that writes an integer of the machine type `T` (lines 277, 285, 293, 301, 309,
317, 325, 333). -/
def int_write (T : CType) (value : FieldValue) (v : Int) : WriteOp :=
  match T with
  | .int8 => .write_signed_byte value v
  | .int16 => .write_signed_short value v
  | .int32 => .write_signed_long value v
  | .int64 => .write_signed_quad value v
  | .uint8 => .write_byte value v.toNat
  | .uint16 => .write_short value v.toNat
  | .uint32 => .write_long value v.toNat
  | .uint64 => .write_quad value v.toNat

/-- The least value of the machine type `T`. -/
def CType.least (T : CType) : Int := if T.signed then -(2 : Int) ^ (T.bits - 1) else 0

/-- The greatest value of the machine type `T`. -/
def CType.greatest (T : CType) : Int :=
  if T.signed then (2 : Int) ^ (T.bits - 1) - 1 else (2 : Int) ^ T.bits - 1

/-- Modelled from the spec: the decoding of the test harness of section 8 (not available),
for an unsigned integer: the number whose digits in base 256 are `bytes`, in the given byte
order. -/
def decode_unsigned (order : ByteOrder) (bytes : List Nat) : Nat :=
  match order with
  | .little => bytes.foldr (fun b acc => b + 256 * acc) 0
  | .big => bytes.foldl (fun acc b => 256 * acc + b) 0

/-- Modelled from the spec: the decoding of the test harness of section 8 (not available),
for an integer of the machine type `T`; a signed integer is read in two's complement. -/
def decode (order : ByteOrder) (T : CType) (bytes : List Nat) : Int :=
  let n : Int := decode_unsigned order bytes
  if T.signed ∧ (2 : Int) ^ (T.bits - 1) ≤ n then n - 2 ^ T.bits else n

/-- The type codes for which the `switch` at lines 271-388 has a case that writes. -/
def Decls.written_types (D : Decls) : List Nat :=
  [D.DBYT, D.DWRD, D.DLNG, D.DQAD, D.HBYT, D.HWRD, D.HLNG, D.HQAD, D.PSTR, D.CSTR, D.Cxxx,
    D.RECT]

namespace sema.new_resource

/-- The fields read so far: from the lexemes `ls`, some fields are read one after the
other, field number `i` makes the calls `chunks[i]`, and the cursor is at `rest`. -/
inductive FieldsSoFar (D : Decls) (type_container : Container) (t : Target) :
    List Lexeme → List (List WriteOp) → List Lexeme → Prop
  | start (ls : List Lexeme) : FieldsSoFar D type_container t ls [] ls
  | field (ls mid rest : List Lexeme) (w : List WriteOp) (chunks : List (List WriteOp)) :
      expect_from ls [(expectation .r_brace).be_false] = true →
      parse_field D type_container t ls = .ok () mid w →
      FieldsSoFar D type_container t mid chunks rest →
      FieldsSoFar D type_container t ls (w :: chunks) rest

end sema.new_resource

/-- A run stopped because the iteration budget of the embedding ran out. -/
def Res.timed_out {α : Type} : Res α → Bool
  | .fail .out_of_fuel _ _ => true
  | _ => false

/-- A step that never runs out of iterations: on every input it ends with a result or with
a failure of the source. -/
structure Terminates {α : Type} (m : M α) : Prop where
  ends : ∀ ls, (m ls).timed_out = false

/-- One round of a loop on the lexemes `ls`, the loop being given with its iteration budget
as first argument and the value it carries from round to round as second: whatever budget is
left, the loop is over at once without consuming anything, or the round fails with a
failure of the source, or the round consumes at least one lexeme and the loop goes on from
the shorter input. -/
def LoopRound {σ α : Type} (loop : Nat → σ → M α) (s : σ) (ls : List Lexeme) : Prop :=
  (∃ a, ∀ k, loop (k + 1) s ls = .ok a ls []) ∨
  (∃ e rest w, e ≠ .out_of_fuel ∧ ∀ k, loop (k + 1) s ls = .fail e rest w) ∨
  (∃ s2 rest w, rest.length < ls.length ∧
    ∀ k, loop (k + 1) s ls = (loop k s2 rest).after w)

/-- The value expressions of a `Bitmask` field: terms (integer literals, and identifiers
that the slot binds to an integer) delimited by single `|`, the last term being followed by
the closing `;` or by one `|` and the closing `;`. `BitmaskExpression D value ls vals rest`
reads: the lexemes `ls` start with such an expression, `vals` are the values of its terms
in order, and `rest` is what is left of `ls` from the closing `;` on. The three rules are:
no term is left, at the closing `;` (at the start, or right after a `|`); a last term
followed by the closing `;`; a term followed by a single `|` and the remainder of the
expression. -/
inductive BitmaskExpression (D : Decls) (value : FieldValue) :
    List Lexeme → List Nat → List Lexeme → Prop
  | done (sc : Lexeme) (rest : List Lexeme) (hsc : sc.type = .semi) :
    BitmaskExpression D value (sc :: rest) [] (sc :: rest)
  | last (t : Lexeme) (v : Nat) (sc : Lexeme) (rest : List Lexeme)
    (ht : term_value D value t = some v) (hsc : sc.type = .semi) :
    BitmaskExpression D value (t :: sc :: rest) [v] (sc :: rest)
  | more (t : Lexeme) (v : Nat) (bar : Lexeme) (ls : List Lexeme) (vals : List Nat)
    (rest : List Lexeme) (ht : term_value D value t = some v) (hbar : bar.type = .pipe)
    (hmore : BitmaskExpression D value ls vals rest) :
    BitmaskExpression D value (t :: bar :: ls) (v :: vals) rest

/-! ## A sample registry, for the concrete instances -/

namespace sample

/-- An instance of the declarations: string kinds in the top nibble, the size of a `Cxxx` in
the low twelve bits, decimal literals. -/
def decls : Decls where
  NONE := 0x0000
  DBYT := 0x0001
  DWRD := 0x0002
  DLNG := 0x0003
  DQAD := 0x0004
  HBYT := 0x0011
  HWRD := 0x0012
  HLNG := 0x0013
  HQAD := 0x0014
  RECT := 0x0100
  PSTR := 0x1000
  CSTR := 0x2000
  Cxxx := 0x3000
  HEXD := 0x4000
  type_size := fun ty => ty &&& 0x0FFF
  value := fun _ lx => (stoll lx.text).getD 0
  args_left_to_right := true
  distinct := by decide

/-- A slot named `count`, without symbols. -/
def count_value : FieldValue := ⟨⟨.identifier, "count"⟩, []⟩

/-- A slot named `flags`, with the symbols `a = 1`, `b = 2` and a symbol `s` bound to a
string. -/
def flags_value : FieldValue :=
  ⟨⟨.identifier, "flags"⟩, [("a", ⟨.integer, "1"⟩), ("b", ⟨.integer, "2"⟩), ("s", ⟨.string, "x"⟩)]⟩

/-- A slot named `owner`. -/
def owner_value : FieldValue := ⟨⟨.identifier, "owner"⟩, []⟩

/-- A slot named `big_owner`. -/
def big_owner_value : FieldValue := ⟨⟨.identifier, "big_owner"⟩, []⟩

/-- A slot named `title`. -/
def title_value : FieldValue := ⟨⟨.identifier, "title"⟩, []⟩

/-- A slot named `code`. -/
def code_value : FieldValue := ⟨⟨.identifier, "code"⟩, []⟩

/-- A registry with the fields `count` (no explicit type, slot `count`) and `flags` (a
`Bitmask`, slot `flags`), in which the slots `count` and `owner` are backed by `DWRD`,
`flags` by `HBYT`, `big_owner` by `DQAD`, `title` by `PSTR` and `code` by `Cxxx` of size
8. -/
def container : Container where
  field_named := fun name =>
    if name.text = "count" then some ⟨none, [count_value]⟩
    else if name.text = "flags" then some ⟨some ("Bitmask", false), [flags_value]⟩
    else none
  template_field_named := fun name =>
    if name.text = "count" then decls.DWRD
    else if name.text = "flags" then decls.HBYT
    else if name.text = "owner" then decls.DWRD
    else if name.text = "big_owner" then decls.DQAD
    else if name.text = "title" then decls.PSTR
    else if name.text = "code" then decls.Cxxx ||| 8
    else decls.NONE

/-- A target under `/src/` with one readable file, `/src/a.txt`, holding `hello`. -/
def target : Target where
  resolve_src_path := fun path => "/src/" ++ path
  contents := fun path => if path = "/src/a.txt" then some "hello" else none

/-- The lexemes of `new(128, "Test") { count = 3; flags = 1 | 2; }`. -/
def declaration : List Lexeme :=
  [⟨.identifier, "new"⟩, ⟨.l_paren, "("⟩, ⟨.res_id, "128"⟩, ⟨.comma, ","⟩, ⟨.string, "Test"⟩,
   ⟨.r_paren, ")"⟩, ⟨.l_brace, "\x7b"⟩,
   ⟨.identifier, "count"⟩, ⟨.equals, "="⟩, ⟨.integer, "3"⟩, ⟨.semi, ";"⟩,
   ⟨.identifier, "flags"⟩, ⟨.equals, "="⟩, ⟨.integer, "1"⟩, ⟨.pipe, "|"⟩, ⟨.integer, "2"⟩,
   ⟨.semi, ";"⟩, ⟨.r_brace, "\x7d"⟩]

end sample

namespace sample

/-- A slot named `small`. -/
def small_value : FieldValue := ⟨⟨.identifier, "small"⟩, []⟩

/-- A slot named `bounds`. -/
def bounds_value : FieldValue := ⟨⟨.identifier, "bounds"⟩, []⟩

/-- A slot named `blob`. -/
def blob_value : FieldValue := ⟨⟨.identifier, "blob"⟩, []⟩

/-- A registry of slot types: `count` and `owner` are backed by `DWRD`, `flags` by `HBYT`,
`small` by `DBYT`, `title` by `PSTR`, `code` by `Cxxx` of size 8, `bounds` by `RECT` and
`blob` by `HEXD`. It knows no field. -/
def slots : Container where
  field_named := fun _ => none
  template_field_named := fun name =>
    if name.text = "count" then decls.DWRD
    else if name.text = "owner" then decls.DWRD
    else if name.text = "flags" then decls.HBYT
    else if name.text = "small" then decls.DBYT
    else if name.text = "title" then decls.PSTR
    else if name.text = "code" then decls.Cxxx ||| 8
    else if name.text = "bounds" then decls.RECT
    else if name.text = "blob" then decls.HEXD
    else decls.NONE

/-- The sample declarations, built by a compiler that evaluates the arguments of a call
from right to left. -/
def decls_right_to_left : Decls := { decls with args_left_to_right := false }

/-- The lexemes of `new(128, "Test") { count = 3; bogus = 1; }`. -/
def bogus_declaration : List Lexeme :=
  [⟨.identifier, "new"⟩, ⟨.l_paren, "("⟩, ⟨.res_id, "128"⟩, ⟨.comma, ","⟩, ⟨.string, "Test"⟩,
   ⟨.r_paren, ")"⟩, ⟨.l_brace, "\x7b"⟩,
   ⟨.identifier, "count"⟩, ⟨.equals, "="⟩, ⟨.integer, "3"⟩, ⟨.semi, ";"⟩,
   ⟨.identifier, "bogus"⟩, ⟨.equals, "="⟩, ⟨.integer, "1"⟩, ⟨.semi, ";"⟩, ⟨.r_brace, "\x7d"⟩]

end sample

namespace sample

/-- The lexemes of `new(128, "Test") { count = 3; flags = a |`, a declaration that breaks
off in the middle of a `Bitmask` expression: the field loop starts at offset 7, the term
loop of `flags` at offset 13. -/
def unfinished_declaration : List Lexeme :=
  [⟨.identifier, "new"⟩, ⟨.l_paren, "("⟩, ⟨.res_id, "128"⟩, ⟨.comma, ","⟩, ⟨.string, "Test"⟩,
   ⟨.r_paren, ")"⟩, ⟨.l_brace, "\x7b"⟩,
   ⟨.identifier, "count"⟩, ⟨.equals, "="⟩, ⟨.integer, "3"⟩, ⟨.semi, ";"⟩,
   ⟨.identifier, "flags"⟩, ⟨.equals, "="⟩, ⟨.identifier, "a"⟩, ⟨.pipe, "|"⟩]

end sample

namespace sample

/-- A target under `/src/` with one readable file, `/src/long.txt`, holding the nine bytes
`123456789`. -/
def long_target : Target where
  resolve_src_path := fun path => "/src/" ++ path
  contents := fun path => if path = "/src/long.txt" then some "123456789" else none

end sample

/-! ## Running the primitive steps -/

/-- Unfolding of sequencing. -/
@[simp]
theorem M.bind_run {α β : Type} (m : M α) (f : α → M β) (ls : List Lexeme) :
    (m >>= f) ls = match m ls with
      | .ok a rest w => (f a rest).after w
      | .fail e rest w => .fail e rest w := rfl

@[simp]
theorem M.pure_run {α : Type} (a : α) (ls : List Lexeme) :
    (pure a : M α) ls = .ok a ls [] := rfl

@[simp]
theorem Res.after_ok {α : Type} (b : List WriteOp) (a : α) (ls : List Lexeme)
    (w : List WriteOp) : (Res.ok a ls w).after b = .ok a ls (b ++ w) := rfl

@[simp]
theorem Res.after_fail {α : Type} (b : List WriteOp) (e : Failure) (ls : List Lexeme)
    (w : List WriteOp) : (Res.fail e ls w : Res α).after b = .fail e ls (b ++ w) := rfl

@[simp]
theorem Res.after_nil {α : Type} (r : Res α) : r.after [] = r := by
  cases r <;> rfl

@[simp]
theorem expect_run (es : List Expectation) (ls : List Lexeme) :
    expect es ls = .ok (expect_from ls es) ls [] := rfl

@[simp]
theorem read_run (ls : List Lexeme) : read ls = .ok (peek_at ls 0) ls.tail [] := rfl

@[simp]
theorem peek_run (ls : List Lexeme) : peek ls = .ok (peek_at ls 0) ls [] := rfl

@[simp]
theorem advance_run (ls : List Lexeme) : advance ls = .ok () ls.tail [] := rfl

@[simp]
theorem fatal_error_run {α : Type} (lx : Lexeme) (c : Nat) (msg : String)
    (ls : List Lexeme) :
    (fatal_error lx c msg : M α) ls = .fail (.fatal_error lx c msg) ls [] := rfl

@[simp]
theorem fail_run {α : Type} (e : Failure) (ls : List Lexeme) :
    (M.fail e : M α) ls = .fail e ls [] := rfl

@[simp]
theorem emit_run (w : WriteOp) (ls : List Lexeme) : emit w ls = .ok () ls [w] := rfl

@[simp]
theorem remaining_run (ls : List Lexeme) :
    sema.new_resource.remaining ls = .ok ls.length ls [] := rfl

@[simp]
theorem value_for_run (value : FieldValue) (symbol : Lexeme) (ls : List Lexeme) :
    value_for value symbol ls = match value.symbols.lookup symbol.text with
      | some literal => .ok literal ls []
      | none => .fail (.fatal_error symbol 1 ("Undefined symbol '" ++ symbol.text ++ "'.")) ls [] := by
  unfold value_for
  cases value.symbols.lookup symbol.text <;> rfl

@[simp]
theorem value_at_run (field : Field) (i : Nat) (ls : List Lexeme) :
    value_at field i ls = match field.values.get? i with
      | some value => .ok value ls []
      | none => .fail (.no_such_value i) ls [] := by
  unfold value_at
  cases field.values.get? i <;> rfl

/-! ## Arithmetic and the type codes -/

/-- Masking with `2^k - 1` and then truncating to `k` bits is truncating to `k` bits. -/
theorem and_low_bits_mod (a k : Nat) : (a &&& (2 ^ k - 1)) % 2 ^ k = a % 2 ^ k := by
  rw [Nat.and_pow_two_sub_one_eq_mod, Nat.mod_mod]

/-- Two different labels of the `switch` at lines 271-388 have different codes. -/
theorem code_ne (D : Decls) (i j : Fin 14) (h : i ≠ j) :
    [D.NONE, D.DBYT, D.DWRD, D.DLNG, D.DQAD, D.HBYT, D.HWRD, D.HLNG, D.HQAD,
      D.PSTR, D.CSTR, D.Cxxx, D.RECT, D.HEXD].get i ≠
    [D.NONE, D.DBYT, D.DWRD, D.DLNG, D.DQAD, D.HBYT, D.HWRD, D.HLNG, D.HQAD,
      D.PSTR, D.CSTR, D.Cxxx, D.RECT, D.HEXD].get j :=
  fun he => h ((List.Nodup.get_inj_iff D.distinct).1 he)

/-- A `uint64_t` is below `2^64`. -/
theorem value_u64_lt (D : Decls) (lx : Lexeme) : lx.value_u64 D < 2 ^ 64 := by
  unfold Lexeme.value_u64 Lexeme.value CType.cast
  simp only [CType.signed, CType.bits]
  norm_num
  omega

/-- An `int16_t` lies in the signed 16-bit range. -/
theorem cast_int16_range (x : Int) :
    -(2 : Int) ^ 15 ≤ CType.cast .int16 x ∧ CType.cast .int16 x < (2 : Int) ^ 15 := by
  unfold CType.cast
  simp only [CType.signed, CType.bits]
  norm_num
  omega

/-- An `int64_t` lies in the signed 64-bit range. -/
theorem cast_int64_range (x : Int) :
    -(2 : Int) ^ 63 ≤ CType.cast .int64 x ∧ CType.cast .int64 x < (2 : Int) ^ 63 := by
  unfold CType.cast
  simp only [CType.signed, CType.bits]
  norm_num
  omega

/-! ## The cursor only moves forward -/

theorem noGrowth_pure {α : Type} (a : α) : NoGrowth (pure a : M α) := by
  intro ls a rest w h
  simp at h
  rw [h.2.1]

theorem noGrowth_fail {α : Type} (e : Failure) : NoGrowth (M.fail e : M α) := by
  intro ls a rest w h
  simp at h

theorem noGrowth_fatal_error {α : Type} (lx : Lexeme) (c : Nat) (msg : String) :
    NoGrowth (fatal_error lx c msg : M α) := by
  intro ls a rest w h
  simp at h

/-- Sequencing keeps the cursor from moving backwards. -/
theorem noGrowth_bind {α β : Type} {m : M α} {f : α → M β} (hm : NoGrowth m)
    (hf : ∀ a, NoGrowth (f a)) : NoGrowth (m >>= f) := by
  intro ls b rest w h
  simp only [M.bind_run] at h
  cases hr : m ls with
  | fail e r1 w1 => simp [hr] at h
  | ok a r1 w1 =>
    simp only [hr] at h
    have h1 := hm ls a r1 w1 hr
    cases hr2 : f a r1 with
    | fail e r2 w2 => simp [hr2] at h
    | ok b2 r2 w2 =>
      simp only [hr2, Res.after_ok, Res.ok.injEq] at h
      have h2 := hf a r1 b2 r2 w2 hr2
      rw [← h.2.1]
      omega

theorem noGrowth_ite {α : Type} {c : Prop} [Decidable c] {m1 m2 : M α} (h1 : NoGrowth m1)
    (h2 : NoGrowth m2) : NoGrowth (if c then m1 else m2) := by
  split_ifs
  · exact h1
  · exact h2

theorem noGrowth_expect (es : List Expectation) : NoGrowth (expect es) := by
  intro ls a rest w h
  simp at h
  rw [h.2.1]

theorem noGrowth_peek : NoGrowth peek := by
  intro ls a rest w h
  simp at h
  rw [h.2.1]

theorem noGrowth_read : NoGrowth read := by
  intro ls a rest w h
  simp at h
  rw [← h.2.1]
  simp

theorem noGrowth_advance : NoGrowth advance := by
  intro ls a rest w h
  simp at h
  rw [← h.1]
  simp

theorem noGrowth_emit (x : WriteOp) : NoGrowth (emit x) := by
  intro ls a rest w h
  simp at h
  rw [h.1]

theorem noGrowth_remaining : NoGrowth sema.new_resource.remaining := by
  intro ls a rest w h
  simp at h
  rw [h.2.1]

theorem noGrowth_value_at (field : Field) (i : Nat) : NoGrowth (value_at field i) := by
  unfold value_at
  split
  · exact noGrowth_pure _
  · exact noGrowth_fail _

theorem noGrowth_value_for (value : FieldValue) (symbol : Lexeme) :
    NoGrowth (value_for value symbol) := by
  unfold value_for
  split
  · exact noGrowth_pure _
  · exact noGrowth_fatal_error _ _ _

theorem noGrowth_field_named (c : Container) (name : Lexeme) :
    NoGrowth (field_named c name) := by
  unfold field_named
  split
  · exact noGrowth_pure _
  · exact noGrowth_fail _

theorem noGrowth_contents (t : Target) (path : String) : NoGrowth (contents t path) := by
  unfold contents
  split
  · exact noGrowth_pure _
  · exact noGrowth_fail _

theorem noGrowth_ensure : ∀ es : List Expectation, NoGrowth (ensure es)
  | [] => noGrowth_pure _
  | e :: es => by
    unfold kdl.ensure
    exact noGrowth_bind noGrowth_read (fun lx => noGrowth_ite (noGrowth_ensure es) (noGrowth_fail _))

namespace sema.new_resource

theorem noGrowth_reference_field (D : Decls) (c : Container) (name : Lexeme) (field : Field) :
    NoGrowth (reference_field D c name field) := by
  unfold reference_field
  repeat' first
    | exact noGrowth_pure _
    | exact noGrowth_fail _
    | exact noGrowth_fatal_error _ _ _
    | exact noGrowth_expect _
    | exact noGrowth_peek
    | exact noGrowth_read
    | exact noGrowth_advance
    | exact noGrowth_emit _
    | exact noGrowth_remaining
    | exact noGrowth_value_at _ _
    | exact noGrowth_value_for _ _
    | exact noGrowth_field_named _ _
    | exact noGrowth_contents _ _
    | exact noGrowth_ensure _
    | apply noGrowth_bind
    | apply noGrowth_ite
    | intro _

theorem noGrowth_file_write (D : Decls) (c : Container) (name : Lexeme) (field : Field) (text : String) :
    NoGrowth (file_write D c name field text) := by
  unfold file_write
  repeat' first
    | exact noGrowth_pure _
    | exact noGrowth_fail _
    | exact noGrowth_fatal_error _ _ _
    | exact noGrowth_expect _
    | exact noGrowth_peek
    | exact noGrowth_read
    | exact noGrowth_advance
    | exact noGrowth_emit _
    | exact noGrowth_remaining
    | exact noGrowth_value_at _ _
    | exact noGrowth_value_for _ _
    | exact noGrowth_field_named _ _
    | exact noGrowth_contents _ _
    | exact noGrowth_ensure _
    | apply noGrowth_bind
    | apply noGrowth_ite
    | intro _

theorem noGrowth_file_field (D : Decls) (c : Container) (t : Target) (name : Lexeme) (field : Field) :
    NoGrowth (file_field D c t name field) := by
  unfold file_field
  repeat' first
    | exact noGrowth_file_write _ _ _ _ _
    | exact noGrowth_pure _
    | exact noGrowth_fail _
    | exact noGrowth_fatal_error _ _ _
    | exact noGrowth_expect _
    | exact noGrowth_peek
    | exact noGrowth_read
    | exact noGrowth_advance
    | exact noGrowth_emit _
    | exact noGrowth_remaining
    | exact noGrowth_value_at _ _
    | exact noGrowth_value_for _ _
    | exact noGrowth_field_named _ _
    | exact noGrowth_contents _ _
    | exact noGrowth_ensure _
    | apply noGrowth_bind
    | apply noGrowth_ite
    | intro _

theorem noGrowth_picture_field  :
    NoGrowth (picture_field) := by
  unfold picture_field
  repeat' first
    | exact noGrowth_pure _
    | exact noGrowth_fail _
    | exact noGrowth_fatal_error _ _ _
    | exact noGrowth_expect _
    | exact noGrowth_peek
    | exact noGrowth_read
    | exact noGrowth_advance
    | exact noGrowth_emit _
    | exact noGrowth_remaining
    | exact noGrowth_value_at _ _
    | exact noGrowth_value_for _ _
    | exact noGrowth_field_named _ _
    | exact noGrowth_contents _ _
    | exact noGrowth_ensure _
    | apply noGrowth_bind
    | apply noGrowth_ite
    | intro _

theorem noGrowth_sprite_field  :
    NoGrowth (sprite_field) := by
  unfold sprite_field
  repeat' first
    | exact noGrowth_pure _
    | exact noGrowth_fail _
    | exact noGrowth_fatal_error _ _ _
    | exact noGrowth_expect _
    | exact noGrowth_peek
    | exact noGrowth_read
    | exact noGrowth_advance
    | exact noGrowth_emit _
    | exact noGrowth_remaining
    | exact noGrowth_value_at _ _
    | exact noGrowth_value_for _ _
    | exact noGrowth_field_named _ _
    | exact noGrowth_contents _ _
    | exact noGrowth_ensure _
    | apply noGrowth_bind
    | apply noGrowth_ite
    | intro _

theorem noGrowth_coloricon_field  :
    NoGrowth (coloricon_field) := by
  unfold coloricon_field
  repeat' first
    | exact noGrowth_pure _
    | exact noGrowth_fail _
    | exact noGrowth_fatal_error _ _ _
    | exact noGrowth_expect _
    | exact noGrowth_peek
    | exact noGrowth_read
    | exact noGrowth_advance
    | exact noGrowth_emit _
    | exact noGrowth_remaining
    | exact noGrowth_value_at _ _
    | exact noGrowth_value_for _ _
    | exact noGrowth_field_named _ _
    | exact noGrowth_contents _ _
    | exact noGrowth_ensure _
    | apply noGrowth_bind
    | apply noGrowth_ite
    | intro _

theorem noGrowth_bitmask_term (D : Decls) (value : FieldValue) (mask : Nat) :
    NoGrowth (bitmask_term D value mask) := by
  unfold bitmask_term
  repeat' first
    | exact noGrowth_pure _
    | exact noGrowth_fail _
    | exact noGrowth_fatal_error _ _ _
    | exact noGrowth_expect _
    | exact noGrowth_peek
    | exact noGrowth_read
    | exact noGrowth_advance
    | exact noGrowth_emit _
    | exact noGrowth_remaining
    | exact noGrowth_value_at _ _
    | exact noGrowth_value_for _ _
    | exact noGrowth_field_named _ _
    | exact noGrowth_contents _ _
    | exact noGrowth_ensure _
    | apply noGrowth_bind
    | apply noGrowth_ite
    | intro _

theorem noGrowth_bitmask_loop (D : Decls) (value : FieldValue) :
    ∀ fuel mask : Nat, NoGrowth (bitmask_loop D value fuel mask)
  | 0, _ => noGrowth_fail _
  | fuel + 1, mask => by
    unfold bitmask_loop
    repeat' first
      | exact noGrowth_bitmask_loop D value fuel _
      | exact noGrowth_bitmask_term _ _ _
      | exact noGrowth_pure _
      | exact noGrowth_fail _
      | exact noGrowth_fatal_error _ _ _
      | exact noGrowth_expect _
      | exact noGrowth_peek
      | exact noGrowth_read
      | exact noGrowth_advance
      | exact noGrowth_emit _
      | exact noGrowth_remaining
      | exact noGrowth_value_at _ _
      | exact noGrowth_value_for _ _
      | exact noGrowth_field_named _ _
      | exact noGrowth_contents _ _
      | exact noGrowth_ensure _
      | apply noGrowth_bind
      | apply noGrowth_ite
      | intro _

theorem noGrowth_bitmask_field (D : Decls) (c : Container) (name : Lexeme) (field : Field) :
    NoGrowth (bitmask_field D c name field) := by
  unfold bitmask_field
  repeat' first
    | exact noGrowth_bitmask_loop _ _ _ _
    | exact noGrowth_pure _
    | exact noGrowth_fail _
    | exact noGrowth_fatal_error _ _ _
    | exact noGrowth_expect _
    | exact noGrowth_peek
    | exact noGrowth_read
    | exact noGrowth_advance
    | exact noGrowth_emit _
    | exact noGrowth_remaining
    | exact noGrowth_value_at _ _
    | exact noGrowth_value_for _ _
    | exact noGrowth_field_named _ _
    | exact noGrowth_contents _ _
    | exact noGrowth_ensure _
    | apply noGrowth_bind
    | apply noGrowth_ite
    | intro _

theorem noGrowth_expect_integer (name : Lexeme) :
    NoGrowth (expect_integer name) := by
  unfold expect_integer
  repeat' first
    | exact noGrowth_pure _
    | exact noGrowth_fail _
    | exact noGrowth_fatal_error _ _ _
    | exact noGrowth_expect _
    | exact noGrowth_peek
    | exact noGrowth_read
    | exact noGrowth_advance
    | exact noGrowth_emit _
    | exact noGrowth_remaining
    | exact noGrowth_value_at _ _
    | exact noGrowth_value_for _ _
    | exact noGrowth_field_named _ _
    | exact noGrowth_contents _ _
    | exact noGrowth_ensure _
    | apply noGrowth_bind
    | apply noGrowth_ite
    | intro _

theorem noGrowth_expect_string (name : Lexeme) :
    NoGrowth (expect_string name) := by
  unfold expect_string
  repeat' first
    | exact noGrowth_pure _
    | exact noGrowth_fail _
    | exact noGrowth_fatal_error _ _ _
    | exact noGrowth_expect _
    | exact noGrowth_peek
    | exact noGrowth_read
    | exact noGrowth_advance
    | exact noGrowth_emit _
    | exact noGrowth_remaining
    | exact noGrowth_value_at _ _
    | exact noGrowth_value_for _ _
    | exact noGrowth_field_named _ _
    | exact noGrowth_contents _ _
    | exact noGrowth_ensure _
    | apply noGrowth_bind
    | apply noGrowth_ite
    | intro _

theorem noGrowth_infer_value (D : Decls) (c : Container) (name : Lexeme) (value : FieldValue) :
    NoGrowth (infer_value D c name value) := by
  unfold infer_value
  repeat' first
    | exact noGrowth_expect_integer _
    | exact noGrowth_expect_string _
    | exact noGrowth_pure _
    | exact noGrowth_fail _
    | exact noGrowth_fatal_error _ _ _
    | exact noGrowth_expect _
    | exact noGrowth_peek
    | exact noGrowth_read
    | exact noGrowth_advance
    | exact noGrowth_emit _
    | exact noGrowth_remaining
    | exact noGrowth_value_at _ _
    | exact noGrowth_value_for _ _
    | exact noGrowth_field_named _ _
    | exact noGrowth_contents _ _
    | exact noGrowth_ensure _
    | apply noGrowth_bind
    | apply noGrowth_ite
    | intro _

theorem noGrowth_infer_values (D : Decls) (c : Container) (name : Lexeme) :
    ∀ values : List FieldValue, NoGrowth (infer_values D c name values)
  | [] => noGrowth_pure _
  | value :: values => by
    unfold infer_values
    exact noGrowth_bind (noGrowth_infer_value D c name value)
      (fun _ => noGrowth_infer_values D c name values)

theorem noGrowth_parse_value (D : Decls) (c : Container) (t : Target) (name : Lexeme)
    (field : Field) : NoGrowth (parse_value D c t name field) := by
  unfold parse_value
  split
  · repeat' first
      | exact noGrowth_reference_field _ _ _ _
      | exact noGrowth_file_field _ _ _ _ _
      | exact noGrowth_picture_field
      | exact noGrowth_sprite_field
      | exact noGrowth_coloricon_field
      | exact noGrowth_bitmask_field _ _ _ _
      | exact noGrowth_pure _
      | exact noGrowth_fail _
      | exact noGrowth_fatal_error _ _ _
      | exact noGrowth_expect _
      | exact noGrowth_peek
      | exact noGrowth_read
      | exact noGrowth_advance
      | exact noGrowth_emit _
      | exact noGrowth_remaining
      | exact noGrowth_value_at _ _
      | exact noGrowth_value_for _ _
      | exact noGrowth_field_named _ _
      | exact noGrowth_contents _ _
      | exact noGrowth_ensure _
      | apply noGrowth_bind
      | apply noGrowth_ite
      | intro _
  · exact noGrowth_infer_values _ _ _ _

end sema.new_resource

/-- A step that consumes, run after one that does not move backwards, consumes. -/
theorem consumes_bind_right {α β : Type} {m : M α} {f : α → M β} (hm : NoGrowth m)
    (hf : ∀ a, Consumes (f a)) : Consumes (m >>= f) := by
  intro ls b rest w h
  simp only [M.bind_run] at h
  cases hr : m ls with
  | fail e r1 w1 => simp [hr] at h
  | ok a r1 w1 =>
    simp only [hr] at h
    have h1 := hm ls a r1 w1 hr
    cases hr2 : f a r1 with
    | fail e r2 w2 => simp [hr2] at h
    | ok b2 r2 w2 =>
      simp only [hr2, Res.after_ok, Res.ok.injEq] at h
      have h2 := hf a r1 b2 r2 w2 hr2
      rw [← h.2.1]
      omega

theorem consumes_ite {α : Type} {c : Prop} [Decidable c] {m1 m2 : M α} (h1 : Consumes m1)
    (h2 : Consumes m2) : Consumes (if c then m1 else m2) := by
  split_ifs
  · exact h1
  · exact h2

/-- The call `ensure({ semi })` consumes a lexeme when it succeeds. -/
theorem consumes_ensure_semi : Consumes (ensure [(expectation .semi).be_true]) := by
  intro ls a rest w h
  cases ls with
  | nil =>
    simp [ensure, peek_at, eof, Expectation.test, expectation, Expectation.be_true, Lexeme.is] at h
  | cons x xs =>
    simp only [ensure, M.bind_run, read_run, List.tail_cons, Res.after_nil] at h
    split_ifs at h
    · simp only [M.pure_run, Res.ok.injEq] at h
      rw [← h.2.1]
      simp
    · simp at h

namespace sema.new_resource

/-- A field that is read successfully consumes at least one lexeme. -/
theorem consumes_parse_field (D : Decls) (c : Container) (t : Target) :
    Consumes (parse_field D c t) := by
  unfold parse_field
  repeat' first
    | exact consumes_ensure_semi
    | exact noGrowth_pure _
    | exact noGrowth_fail _
    | exact noGrowth_fatal_error _ _ _
    | exact noGrowth_expect _
    | exact noGrowth_peek
    | exact noGrowth_read
    | exact noGrowth_field_named _ _
    | exact noGrowth_ensure _
    | exact noGrowth_parse_value _ _ _ _ _
    | apply consumes_bind_right
    | apply consumes_ite
    | intro _

end sema.new_resource

/-! ## The head of a declaration makes no call -/

theorem silent_pure {α : Type} (a : α) : Silent (pure a : M α) := fun _ => rfl

theorem silent_fail {α : Type} (e : Failure) : Silent (M.fail e : M α) := fun _ => rfl

theorem silent_expect (es : List Expectation) : Silent (expect es) := fun _ => rfl

theorem silent_read : Silent read := fun _ => rfl

theorem silent_advance : Silent advance := fun _ => rfl

theorem silent_bind {α β : Type} {m : M α} {f : α → M β} (hm : Silent m)
    (hf : ∀ a, Silent (f a)) : Silent (m >>= f) := by
  intro ls
  have h1 := hm ls
  simp only [M.bind_run]
  cases hr : m ls with
  | fail e r1 w1 =>
    rw [hr] at h1
    exact h1
  | ok a r1 w1 =>
    rw [hr] at h1
    have h2 := hf a r1
    simp only [Res.writes] at h1
    subst h1
    simpa using h2

theorem silent_ite {α : Type} {c : Prop} [Decidable c] {m1 m2 : M α} (h1 : Silent m1)
    (h2 : Silent m2) : Silent (if c then m1 else m2) := by
  split_ifs
  · exact h1
  · exact h2

theorem silent_ensure : ∀ es : List Expectation, Silent (ensure es)
  | [] => silent_pure _
  | e :: es => by
    unfold kdl.ensure
    exact silent_bind silent_read (fun lx => silent_ite (silent_ensure es) (silent_fail _))

theorem silent_std_stoll (text : String) : Silent (std_stoll text) := by
  unfold std_stoll
  split
  · exact silent_pure _
  · exact silent_fail _

namespace sema.new_resource

/-- Nothing is written before the field loop. -/
theorem silent_open_declaration (D : Decls) : Silent (open_declaration D) := by
  unfold open_declaration parse_header
  repeat' first
    | exact silent_pure _
    | exact silent_fail _
    | exact silent_expect _
    | exact silent_read
    | exact silent_advance
    | exact silent_ensure _
    | exact silent_std_stoll _
    | apply silent_bind
    | apply silent_ite
    | intro _

end sema.new_resource

/-! ## C1: the output is the bytes of the fields, in source order -/

/-- The bytes of two runs of calls are the bytes of the first followed by those of the second. -/
theorem assemble_append (order : ByteOrder) (a b : List WriteOp) :
    assemble order (a ++ b) = assemble order a ++ assemble order b := by
  simp [assemble]

/-- The bytes of consecutive runs of calls, run by run. -/
theorem assemble_flatten (order : ByteOrder) (chunks : List (List WriteOp)) :
    assemble order chunks.flatten = (chunks.map (assemble order)).flatten := by
  induction chunks with
  | nil => rfl
  | cons c cs ih => simp [assemble_append, ih]

namespace sema.new_resource

/-- With more iterations than lexemes, the field loop follows a run of the fields. -/
theorem parse_fields_of_run (D : Decls) (c : Container) (t : Target) (ls rest : List Lexeme)
    (chunks : List (List WriteOp)) (h : FieldsRun D c t ls chunks rest) :
    ∀ fuel, ls.length < fuel → parse_fields D c t fuel ls = .ok () rest chunks.flatten := by
  induction h with
  | done ls hb =>
    intro fuel hf
    cases fuel with
    | zero => simp at hf
    | succ f => simp [parse_fields, hb]
  | field ls mid rest w chunks hb hp _ ih =>
    intro fuel hf
    cases fuel with
    | zero => simp at hf
    | succ f =>
      have hlt := consumes_parse_field D c t ls () mid w hp
      simp [parse_fields, hb, hp, ih f (by omega)]

/-- A successful field loop is a run of the fields. -/
theorem run_of_parse_fields (D : Decls) (c : Container) (t : Target) :
    ∀ (fuel : Nat) (ls rest : List Lexeme) (w : List WriteOp),
      parse_fields D c t fuel ls = .ok () rest w →
      ∃ chunks, FieldsRun D c t ls chunks rest ∧ w = chunks.flatten := by
  intro fuel
  induction fuel with
  | zero => intro ls rest w h; simp [parse_fields] at h
  | succ f ih =>
    intro ls rest w h
    by_cases hb : expect_from ls [(expectation .r_brace).be_false] = true
    · simp only [parse_fields, M.bind_run, expect_run, hb, Res.after_nil, if_true] at h
      cases hp : parse_field D c t ls with
      | fail e r1 w1 => simp [hp] at h
      | ok a mid w1 =>
        simp only [hp] at h
        cases hr : parse_fields D c t f mid with
        | fail e r2 w2 => simp [hr] at h
        | ok b r2 w2 =>
          simp only [hr, Res.after_ok, Res.ok.injEq, true_and] at h
          obtain ⟨chunks, hrun, hw⟩ := ih mid r2 w2 hr
          refine ⟨w1 :: chunks, ?_, ?_⟩
          · rw [← h.1]
            exact FieldsRun.field ls mid r2 w1 chunks hb hp hrun
          · rw [← h.2, hw]
            simp
    · simp only [Bool.not_eq_true] at hb
      simp [parse_fields, hb] at h
      refine ⟨[], ?_, by simp [h.2]⟩
      rw [← h.1]
      exact FieldsRun.done ls hb

/-- A run of the fields ends in front of a closing brace, which `ensure` then consumes. -/
theorem fieldsRun_ends_at_brace (D : Decls) (c : Container) (t : Target) (ls final : List Lexeme)
    (chunks : List (List WriteOp)) (h : FieldsRun D c t ls chunks final) :
    ensure [(expectation .r_brace).be_true] final = .ok () final.tail [] := by
  induction h with
  | done ls hb =>
    simp [expect_from, Expectation.test, expectation, Expectation.be_false, Lexeme.is] at hb
    simp [ensure, Expectation.test, expectation, Expectation.be_true, Lexeme.is, hb]
  | field ls mid rest w chunks _ _ _ ih => exact ih

/-- The declaration, from the lexemes after `{`, in terms of the run of its fields. -/
theorem parse_declaration_run (D : Decls) (c : Container) (t : Target)
    (ls body : List Lexeme) (header : Int × String) (w0 : List WriteOp)
    (hopen : open_declaration D ls = .ok header body w0) :
    w0 = [] ∧
    (∀ chunks final, FieldsRun D c t body chunks final →
      parse_declaration D c t ls = .ok () final.tail chunks.flatten) ∧
    (∀ rest writes, parse_declaration D c t ls = .ok () rest writes →
      ∃ chunks final, FieldsRun D c t body chunks final ∧ rest = final.tail ∧
        writes = chunks.flatten) := by
  have hw0 : w0 = [] := by
    have := silent_open_declaration D ls
    rw [hopen] at this
    exact this
  subst hw0
  refine ⟨rfl, ?_, ?_⟩
  · intro chunks final hrun
    have h1 := parse_fields_of_run D c t body final chunks hrun (body.length + 1) (by omega)
    have h2 := fieldsRun_ends_at_brace D c t body final chunks hrun
    simp [parse_declaration, hopen, h1, h2]
  · intro rest writes h
    simp only [parse_declaration, M.bind_run, hopen, remaining_run, Res.after_nil] at h
    cases hf : parse_fields D c t (body.length + 1) body with
    | fail e r1 w1 => simp [hf] at h
    | ok a final w1 =>
      obtain ⟨chunks, hrun, hw⟩ := run_of_parse_fields D c t _ body final w1 hf
      have h2 := fieldsRun_ends_at_brace D c t body final chunks hrun
      simp [hf, h2] at h
      exact ⟨chunks, final, hrun, h.1.symm, by rw [← h.2, hw]⟩

/-- C1. End to end: the lexemes of `new(128, "Test") { count = 3; flags = 1 | 2; }`, with
`count` a field without explicit type over one `DWRD` slot and `flags` a `Bitmask` over one
`HBYT` slot, parse; the calls are `write_signed_short(count, 3)` and then
`write_byte(flags, 3)`, and the assembled output has exactly three bytes, the two bytes of
the 16-bit encoding of 3 followed by `0x03`, in either byte order. In general: the head of
a declaration and its `{` make no call; if from there the fields run one after the other
up to the closing brace, field `i` making the calls `chunks[i]`, then `parse` succeeds and
its output is the concatenation, in source order, of the bytes of `chunks[0]`,
`chunks[1]`, ...; and every successful `parse` is of this form. -/
theorem parse_output_is_fields_in_order :
    (∀ order : ByteOrder,
      parse sample.decls sample.container (some sample.target) order sample.declaration =
        .ok (int_bytes order 2 3 ++ [0x03]) []
          [.write_signed_short sample.count_value 3, .write_byte sample.flags_value 3] ∧
      (int_bytes order 2 3 ++ [0x03]).length = 3) ∧
    (∀ (D : Decls) (type_container : Container) (t : Target) (order : ByteOrder)
        (ls body : List Lexeme) (header : Int × String) (w0 : List WriteOp),
      open_declaration D ls = .ok header body w0 →
      w0 = [] ∧
      (∀ chunks final, FieldsRun D type_container t body chunks final →
        parse D type_container (some t) order ls =
          .ok ((chunks.map (assemble order)).flatten) final.tail chunks.flatten) ∧
      (∀ data rest writes, parse D type_container (some t) order ls = .ok data rest writes →
        ∃ chunks final, FieldsRun D type_container t body chunks final ∧ rest = final.tail ∧
          writes = chunks.flatten ∧ data = (chunks.map (assemble order)).flatten)) := by
  constructor
  · intro order
    cases order <;> exact ⟨rfl, rfl⟩
  · intro D c t order ls body header w0 hopen
    obtain ⟨hw0, hfwd, hbwd⟩ := parse_declaration_run D c t ls body header w0 hopen
    refine ⟨hw0, ?_, ?_⟩
    · intro chunks final hrun
      simp [parse, hfwd chunks final hrun, assemble_flatten]
    · intro data rest writes h
      simp only [parse] at h
      cases hd : parse_declaration D c t ls with
      | fail e r1 w1 => simp [hd] at h
      | ok a r1 w1 =>
        simp only [hd, Res.ok.injEq] at h
        obtain ⟨chunks, final, hrun, hrest, hw⟩ := hbwd r1 w1 hd
        refine ⟨chunks, final, hrun, ?_, ?_, ?_⟩
        · rw [← h.2.1, hrest]
        · rw [← h.2.2, hw]
        · rw [← h.1, hw, assemble_flatten]

/-- The general part of C1 at the sample declaration: its two fields run in turn, and the
output in big-endian order is `00 03 03`. -/
theorem parse_output_is_fields_in_order_witness :
    open_declaration sample.decls sample.declaration =
      .ok (128, "Test") (sample.declaration.drop 7) [] ∧
    parse sample.decls sample.container (some sample.target) .big sample.declaration =
      .ok [0x00, 0x03, 0x03] []
        [.write_signed_short sample.count_value 3, .write_byte sample.flags_value 3] :=
  ⟨rfl,
   ((parse_output_is_fields_in_order.2 sample.decls sample.container sample.target .big
      sample.declaration (sample.declaration.drop 7) (128, "Test") [] rfl).2.1
      [[.write_signed_short sample.count_value 3], [.write_byte sample.flags_value 3]]
      [⟨.r_brace, "\x7d"⟩]
      (FieldsRun.field _ (sample.declaration.drop 11) _ _ _ rfl rfl
        (FieldsRun.field _ [⟨.r_brace, "\x7d"⟩] _ _ _ rfl rfl (FieldsRun.done _ rfl))))⟩

end sema.new_resource

/-! ## The terms of a bitmask -/

/-- The value of a term is below `2^64`. -/
theorem term_value_lt (D : Decls) (value : FieldValue) (t : Lexeme) (v : Nat)
    (h : term_value D value t = some v) : v < 2 ^ 64 := by
  unfold term_value at h
  split_ifs at h with h1 h2
  · simp at h; rw [← h]; exact value_u64_lt D t
  · split at h
    · split_ifs at h
      simp at h; rw [← h]; exact value_u64_lt D _
    · simp at h

/-- A term with a value is an integer literal or an identifier. -/
theorem term_value_type (D : Decls) (value : FieldValue) (t : Lexeme) (v : Nat)
    (h : term_value D value t = some v) : t.type = .integer ∨ t.type = .identifier := by
  unfold term_value at h
  by_cases h1 : t.type = .integer
  · exact Or.inl h1
  · by_cases h2 : t.type = .identifier
    · exact Or.inr h2
    · simp [h1, h2] at h

/-- The OR of values below `2^64` is below `2^64`. -/
theorem foldl_or_lt (D : Decls) (value : FieldValue) :
    ∀ (terms : List Lexeme) (vals : List Nat) (mask : Nat),
      terms.map (term_value D value) = vals.map some → mask < 2 ^ 64 →
      vals.foldl (· ||| ·) mask < 2 ^ 64 := by
  intro terms
  induction terms with
  | nil =>
    intro vals mask h hm
    cases vals with
    | nil => simpa using hm
    | cons v vs => simp at h
  | cons t ts ih =>
    intro vals mask h hm
    cases vals with
    | nil => simp at h
    | cons v vs =>
      simp only [List.map_cons, List.cons.injEq] at h
      simp only [List.foldl_cons]
      exact ih vs _ h.2 (Nat.or_lt_two_pow hm (term_value_lt D value t v h.1))

/-- Separators do not shorten a list. -/
theorem length_le_intersperse (bar : Lexeme) :
    ∀ terms : List Lexeme, terms.length ≤ (terms.intersperse bar).length
  | [] => by simp
  | [_] => by simp
  | t :: t2 :: ts => by
    have := length_le_intersperse bar (t2 :: ts)
    simp only [List.intersperse, List.length_cons] at this ⊢
    omega

/-- Terms each followed by a separator: two lexemes per term. -/
theorem length_flatMap_pair (bar : Lexeme) (terms : List Lexeme) :
    (terms.flatMap (fun t => [t, bar])).length = 2 * terms.length := by
  induction terms with
  | nil => rfl
  | cons t ts ih => simp only [List.flatMap_cons, List.length_append, List.length_cons,
      List.length_nil, ih]; omega

namespace sema.new_resource

/-- A term with a value is merged into the mask, and exactly its lexeme is consumed. -/
theorem bitmask_term_ok (D : Decls) (value : FieldValue) (mask : Nat) (t : Lexeme) (v : Nat)
    (rest : List Lexeme) (h : term_value D value t = some v) :
    bitmask_term D value mask (t :: rest) = .ok (mask ||| v) rest [] := by
  unfold term_value at h
  unfold bitmask_term
  by_cases h1 : t.type = .integer
  · simp [h1] at h
    simp [expect_from, peek_at, Expectation.test, expectation, Expectation.be_true, Lexeme.is, h1, h]
  · by_cases h2 : t.type = .identifier
    · simp only [h1, h2, if_false, if_true] at h
      cases hl : value.symbols.lookup t.text with
      | none => simp [hl] at h
      | some literal =>
        simp only [hl] at h
        by_cases h3 : literal.type = .integer
        · simp [h3] at h
          simp [expect_from, peek_at, Expectation.test, expectation, Expectation.be_true,
            Lexeme.is, h1, h2, hl, h3, h]
        · simp [h3] at h
    · simp [h1, h2] at h

/-- A term either is merged, consuming exactly its lexeme, or is fatal; nothing is written. -/
theorem bitmask_term_cases (D : Decls) (value : FieldValue) (mask : Nat) (a : Lexeme)
    (r : List Lexeme) :
    (∃ m, bitmask_term D value mask (a :: r) = .ok m r []) ∨
    (∃ lx msg rest, bitmask_term D value mask (a :: r) = .fail (.fatal_error lx 1 msg) rest []) := by
  unfold bitmask_term
  by_cases h1 : a.type = .integer
  · left
    simp [expect_from, peek_at, Expectation.test, expectation, Expectation.be_true, Lexeme.is, h1]
  · by_cases h2 : a.type = .identifier
    · cases hl : value.symbols.lookup a.text with
      | none =>
        right
        refine ⟨a, "Undefined symbol '" ++ a.text ++ "'.", r, ?_⟩
        simp [expect_from, peek_at, Expectation.test, expectation, Expectation.be_true,
          Lexeme.is, h1, h2, hl]
      | some literal =>
        by_cases h3 : literal.type = .integer
        · left
          simp [expect_from, peek_at, Expectation.test, expectation, Expectation.be_true,
            Lexeme.is, h1, h2, hl, h3]
        · right
          refine ⟨a, "Type mismatch for '" ++ a.text ++ "' in bitmask.", r, ?_⟩
          simp [expect_from, peek_at, Expectation.test, expectation, Expectation.be_true,
            Lexeme.is, h1, h2, hl, h3]
    · right
      refine ⟨a, "Unexpected lexeme encountered in bitmask: '" ++ a.text ++ "'", a :: r, ?_⟩
      simp [expect_from, peek_at, Expectation.test, expectation, Expectation.be_true,
        Lexeme.is, h1, h2]

/-- The loop over `t1 | ... | tn ;` ends on the `;` with the OR of the values. -/
theorem bitmask_loop_terms (D : Decls) (value : FieldValue) (bar sc : Lexeme)
    (hbar : bar.type = .pipe) (hsc : sc.type = .semi) (rest : List Lexeme) :
    ∀ (terms : List Lexeme) (vals : List Nat) (fuel mask : Nat),
      terms.map (term_value D value) = vals.map some → terms.length < fuel →
      bitmask_loop D value fuel mask (terms.intersperse bar ++ sc :: rest)
        = .ok (vals.foldl (· ||| ·) mask) (sc :: rest) [] := by
  intro terms
  induction terms with
  | nil =>
    intro vals fuel mask h hf
    cases vals with
    | cons v vs => simp at h
    | nil =>
      cases fuel with
      | zero => simp at hf
      | succ f =>
        simp [bitmask_loop, expect_from, peek_at, Expectation.test, expectation,
          Expectation.be_false, Lexeme.is, hsc]
  | cons t ts ih =>
    intro vals fuel mask h hf
    cases vals with
    | nil => simp at h
    | cons v vs =>
      cases fuel with
      | zero => simp at hf
      | succ f =>
        simp only [List.map_cons, List.cons.injEq] at h
        have hty := term_value_type D value t v h.1
        have hns : t.type ≠ .semi := by
          rcases hty with h1 | h1 <;> simp [h1]
        have hf2 : ts.length < f := by simpa using hf
        have hrec := ih vs f (mask ||| v) h.2 hf2
        cases ts with
        | nil =>
          simp only [List.intersperse, List.nil_append] at hrec
          simp [bitmask_loop, expect_from, peek_at, Expectation.test, expectation,
            Expectation.be_false, Expectation.be_true, Lexeme.is, hns, hsc,
            bitmask_term_ok D value mask t v _ h.1, hrec]
        | cons t2 ts2 =>
          simp [bitmask_loop, expect_from, peek_at, Expectation.test, expectation,
            Expectation.be_false, Expectation.be_true, Lexeme.is, hns, hbar, ensure,
            bitmask_term_ok D value mask t v _ h.1, hrec]

/-- The loop over `t1 | ... | tk |` followed by `tail` continues at `tail` with the OR of the values. -/
theorem bitmask_loop_pairs (D : Decls) (value : FieldValue) (bar : Lexeme)
    (hbar : bar.type = .pipe) (tail : List Lexeme) :
    ∀ (terms : List Lexeme) (vals : List Nat) (fuel mask : Nat),
      terms.map (term_value D value) = vals.map some → terms.length ≤ fuel →
      bitmask_loop D value fuel mask (terms.flatMap (fun t => [t, bar]) ++ tail)
        = bitmask_loop D value (fuel - terms.length) (vals.foldl (· ||| ·) mask) tail := by
  intro terms
  induction terms with
  | nil =>
    intro vals fuel mask h _
    cases vals with
    | cons v vs => simp at h
    | nil => simp
  | cons t ts ih =>
    intro vals fuel mask h hf
    cases vals with
    | nil => simp at h
    | cons v vs =>
      cases fuel with
      | zero => simp at hf
      | succ f =>
        simp only [List.map_cons, List.cons.injEq] at h
        have hty := term_value_type D value t v h.1
        have hns : t.type ≠ .semi := by
          rcases hty with h1 | h1 <;> simp [h1]
        have hrec := ih vs f (mask ||| v) h.2 (by simpa using hf)
        simp [bitmask_loop, expect_from, peek_at, Expectation.test, expectation,
          Expectation.be_false, Expectation.be_true, Lexeme.is, hns, hbar, ensure,
          bitmask_term_ok D value mask t v _ h.1, hrec]

/-- The loop at a closing `;`. -/
theorem bitmask_loop_semi (D : Decls) (value : FieldValue) (sc : Lexeme)
    (hsc : sc.type = .semi) (rest : List Lexeme) (fuel mask : Nat) :
    bitmask_loop D value (fuel + 1) mask (sc :: rest) = .ok mask (sc :: rest) [] := by
  simp [bitmask_loop, expect_from, peek_at, Expectation.test, expectation,
    Expectation.be_false, Lexeme.is, hsc]

/-- The loop at a term followed by a lexeme that is neither `;` nor `|`. -/
theorem bitmask_loop_stray (D : Decls) (value : FieldValue) (last x : Lexeme) (v : Nat)
    (hlast : term_value D value last = some v)
    (hx1 : x.type ≠ .semi) (hx2 : x.type ≠ .pipe) (rest : List Lexeme) (fuel mask : Nat) :
    bitmask_loop D value (fuel + 1) mask (last :: x :: rest) = .fail (.ensure_failed x) rest [] := by
  have hns : last.type ≠ .semi := by
    rcases term_value_type D value last v hlast with h1 | h1 <;> simp [h1]
  simp [bitmask_loop, expect_from, peek_at, Expectation.test, expectation,
    Expectation.be_false, Expectation.be_true, Lexeme.is, hns, hx1, hx2, ensure,
    bitmask_term_ok D value mask last v _ hlast]

/-- The loop at an identifier that the symbol table does not resolve to an integer. -/
theorem bitmask_loop_bad_symbol (D : Decls) (value : FieldValue) (sym : Lexeme)
    (hsym : sym.type = .identifier) (rest : List Lexeme) (fuel mask : Nat) :
    (value.symbols.lookup sym.text = none →
      bitmask_loop D value (fuel + 1) mask (sym :: rest) =
        .fail (.fatal_error sym 1 ("Undefined symbol '" ++ sym.text ++ "'.")) rest []) ∧
    (∀ literal, value.symbols.lookup sym.text = some literal → literal.type ≠ .integer →
      bitmask_loop D value (fuel + 1) mask (sym :: rest) =
        .fail (.fatal_error sym 1 ("Type mismatch for '" ++ sym.text ++ "' in bitmask.")) rest []) := by
  constructor
  · intro hl
    simp [bitmask_loop, bitmask_term, expect_from, peek_at, Expectation.test, expectation,
      Expectation.be_false, Expectation.be_true, Lexeme.is, hsym, hl]
  · intro literal hl hty
    simp [bitmask_loop, bitmask_term, expect_from, peek_at, Expectation.test, expectation,
      Expectation.be_false, Expectation.be_true, Lexeme.is, hsym, hl, hty]

/-- The loop fails when two terms are adjacent before the first `;`. -/
theorem bitmask_loop_adjacent (D : Decls) (value : FieldValue) (t1 t2 : Lexeme)
    (rest : List Lexeme)
    (h1 : t1.type = .integer ∨ t1.type = .identifier)
    (h2 : t2.type = .integer ∨ t2.type = .identifier) :
    ∀ (fuel mask : Nat) (pre : List Lexeme), (∀ lx ∈ pre, lx.type ≠ .semi) →
      pre.length < fuel →
      Rejected (bitmask_loop D value fuel mask (pre ++ t1 :: t2 :: rest)) := by
  have n1 : t1.type ≠ .semi ∧ t1.type ≠ .pipe := by rcases h1 with h | h <;> simp [h]
  have n2 : t2.type ≠ .semi ∧ t2.type ≠ .pipe := by rcases h2 with h | h <;> simp [h]
  intro fuel
  induction fuel with
  | zero => intro mask pre _ hf; simp at hf
  | succ f ih =>
    intro mask pre hpre hf
    match pre, hpre, hf with
    | [], _, _ =>
      rcases bitmask_term_cases D value mask t1 (t2 :: rest) with ⟨m, hm⟩ | ⟨lx, msg, r1, hm⟩
      · refine ⟨.ensure_failed t2, rest, ?_, by simp⟩
        simp [bitmask_loop, expect_from, peek_at, Expectation.test, expectation,
          Expectation.be_false, Expectation.be_true, Lexeme.is, n1, n2, hm, ensure]
      · refine ⟨.fatal_error lx 1 msg, r1, ?_, by simp⟩
        simp [bitmask_loop, expect_from, peek_at, Expectation.test, expectation,
          Expectation.be_false, Expectation.be_true, Lexeme.is, n1, hm]
    | [a], hpre, _ =>
      have na : a.type ≠ .semi := hpre a (by simp)
      rcases bitmask_term_cases D value mask a (t1 :: t2 :: rest) with
        ⟨m, hm⟩ | ⟨lx, msg, r1, hm⟩
      · refine ⟨.ensure_failed t1, t2 :: rest, ?_, by simp⟩
        simp [bitmask_loop, expect_from, peek_at, Expectation.test, expectation,
          Expectation.be_false, Expectation.be_true, Lexeme.is, na, n1, hm, ensure]
      · refine ⟨.fatal_error lx 1 msg, r1, ?_, by simp⟩
        simp [bitmask_loop, expect_from, peek_at, Expectation.test, expectation,
          Expectation.be_false, Expectation.be_true, Lexeme.is, na, hm]
    | a :: b :: pre2, hpre, hf =>
      have na : a.type ≠ .semi := hpre a (by simp)
      have nb : b.type ≠ .semi := hpre b (by simp)
      rcases bitmask_term_cases D value mask a (b :: (pre2 ++ t1 :: t2 :: rest)) with
        ⟨m, hm⟩ | ⟨lx, msg, r1, hm⟩
      · by_cases hb : b.type = .pipe
        · have hrec := ih m pre2 (fun lx hlx => hpre lx (by simp [hlx]))
            (by simp at hf; omega)
          obtain ⟨e, r1, he, hne⟩ := hrec
          refine ⟨e, r1, ?_, hne⟩
          simp [bitmask_loop, expect_from, peek_at, Expectation.test, expectation,
            Expectation.be_false, Expectation.be_true, Lexeme.is, na, nb, hb, hm, ensure, he]
        · refine ⟨.ensure_failed b, pre2 ++ t1 :: t2 :: rest, ?_, by simp⟩
          simp [bitmask_loop, expect_from, peek_at, Expectation.test, expectation,
            Expectation.be_false, Expectation.be_true, Lexeme.is, na, nb, hb, hm, ensure]
      · refine ⟨.fatal_error lx 1 msg, r1, ?_, by simp⟩
        simp [bitmask_loop, expect_from, peek_at, Expectation.test, expectation,
          Expectation.be_false, Expectation.be_true, Lexeme.is, na, hm]

/-- A well-formed `Bitmask` field whose loop succeeds writes the final mask. -/
theorem bitmask_field_of_loop_ok (D : Decls) (type_container : Container) (t : Target)
    (field_name : Lexeme) (field : Field) (value : FieldValue)
    (hf : BitmaskOver D type_container field value)
    (ls rest : List Lexeme) (m : Nat)
    (hloop : bitmask_loop D value (ls.length + 1) 0 ls = .ok m rest []) :
    parse_value D type_container t field_name field ls = .ok () rest
      [mask_write D (type_container.template_field_named value.name_lexeme) value m] := by
  obtain ⟨htype, hvalues, hback⟩ := hf
  rcases hback with h | h | h | h <;>
    simp [parse_value, htype, bitmask_field, Field.value_count, hvalues, h, hloop, mask_write]
  all_goals split_ifs <;> rfl

/-- A well-formed `Bitmask` field whose loop fails, fails in the same way. -/
theorem bitmask_field_of_loop_fail (D : Decls) (type_container : Container) (t : Target)
    (field_name : Lexeme) (field : Field) (value : FieldValue)
    (hf : BitmaskOver D type_container field value)
    (ls rest : List Lexeme) (e : Failure)
    (hloop : bitmask_loop D value (ls.length + 1) 0 ls = .fail e rest []) :
    parse_value D type_container t field_name field ls = .fail e rest [] := by
  obtain ⟨htype, hvalues, hback⟩ := hf
  rcases hback with h | h | h | h <;>
    simp [parse_value, htype, bitmask_field, Field.value_count, hvalues, h, hloop]

/-- The iteration budget of `bitmask_field` is not used up by `k` terms. -/
theorem bitmask_fuel (bar : Lexeme) (terms tail : List Lexeme) :
    ∃ k, (terms.flatMap (fun t => [t, bar]) ++ tail).length + 1 - terms.length = k + 1 := by
  refine ⟨(terms.flatMap (fun t => [t, bar]) ++ tail).length - terms.length, ?_⟩
  have := length_flatMap_pair bar terms
  simp only [List.length_append]
  omega

/-- The iteration budget of `bitmask_field` covers `k` terms. -/
theorem bitmask_fuel_le (bar : Lexeme) (terms tail : List Lexeme) :
    terms.length ≤ (terms.flatMap (fun t => [t, bar]) ++ tail).length + 1 := by
  have := length_flatMap_pair bar terms
  simp only [List.length_append]
  omega

end sema.new_resource

/-! ## C2: a bitmask writes the OR of its terms, cut to the width of the slot -/

namespace sema.new_resource

/-- C2. For a `Bitmask` field over one slot and lexemes `t1 | t2 | ... | tn ;` in which each
term is an integer literal or an identifier that the symbol table of the slot resolves to
an integer literal, with `vals` the 64-bit unsigned values of the terms: the field makes
exactly one call, which writes `(v1 ||| ... ||| vn) % 2^(8*w)` to the slot, with
`write_byte` and `w = 1` for `HBYT`, `write_short` and `w = 2` for `HWRD`, `write_long`
and `w = 4` for `HLNG`, `write_quad` and `w = 8` for `HQAD`; the cursor is left on the
`;`. -/
theorem bitmask_writes_or_of_terms (D : Decls) (type_container : Container) (t : Target)
    (field_name : Lexeme) (field : Field) (value : FieldValue) (bar sc : Lexeme)
    (terms : List Lexeme) (vals : List Nat) (rest : List Lexeme)
    (htype : field.type = some ("Bitmask", false)) (hvalues : field.values = [value])
    (hbar : bar.type = .pipe) (hsc : sc.type = .semi)
    (hterms : terms.map (term_value D value) = vals.map some) :
    (type_container.template_field_named value.name_lexeme = D.HBYT →
      parse_value D type_container t field_name field (terms.intersperse bar ++ sc :: rest)
        = .ok () (sc :: rest) [.write_byte value (vals.foldl (· ||| ·) 0 % 2 ^ (8 * 1))]) ∧
    (type_container.template_field_named value.name_lexeme = D.HWRD →
      parse_value D type_container t field_name field (terms.intersperse bar ++ sc :: rest)
        = .ok () (sc :: rest) [.write_short value (vals.foldl (· ||| ·) 0 % 2 ^ (8 * 2))]) ∧
    (type_container.template_field_named value.name_lexeme = D.HLNG →
      parse_value D type_container t field_name field (terms.intersperse bar ++ sc :: rest)
        = .ok () (sc :: rest) [.write_long value (vals.foldl (· ||| ·) 0 % 2 ^ (8 * 4))]) ∧
    (type_container.template_field_named value.name_lexeme = D.HQAD →
      parse_value D type_container t field_name field (terms.intersperse bar ++ sc :: rest)
        = .ok () (sc :: rest) [.write_quad value (vals.foldl (· ||| ·) 0 % 2 ^ (8 * 8))]) := by
  have hlen := length_le_intersperse bar terms
  have hloop : bitmask_loop D value ((terms.intersperse bar).length + (rest.length + 1) + 1) 0
      (terms.intersperse bar ++ sc :: rest) = .ok (vals.foldl (· ||| ·) 0) (sc :: rest) [] :=
    bitmask_loop_terms D value bar sc hbar hsc rest terms vals _ 0 hterms (by omega)
  have hlt := foldl_or_lt D value terms vals 0 hterms (by norm_num)
  have hWB : D.HWRD ≠ D.HBYT := code_ne D 6 5 (by decide)
  have hLB : D.HLNG ≠ D.HBYT := code_ne D 7 5 (by decide)
  have hLW : D.HLNG ≠ D.HWRD := code_ne D 7 6 (by decide)
  have hQB : D.HQAD ≠ D.HBYT := code_ne D 8 5 (by decide)
  have hQW : D.HQAD ≠ D.HWRD := code_ne D 8 6 (by decide)
  have hQL : D.HQAD ≠ D.HLNG := code_ne D 8 7 (by decide)
  refine ⟨?_, ?_, ?_, ?_⟩ <;> intro hvt
  · simp [parse_value, htype, bitmask_field, Field.value_count, hvalues, hvt, hloop]
    exact and_low_bits_mod _ 8
  · simp [parse_value, htype, bitmask_field, Field.value_count, hvalues, hvt, hloop, hWB]
    exact and_low_bits_mod _ 16
  · simp [parse_value, htype, bitmask_field, Field.value_count, hvalues, hvt, hloop, hLB, hLW]
    exact and_low_bits_mod _ 32
  · simp [parse_value, htype, bitmask_field, Field.value_count, hvalues, hvt, hloop, hQB, hQW, hQL]
    exact (Nat.mod_eq_of_lt hlt).symm

/-- The instance of C2 named in the specification: `a | b | 4` with `a = 0x01`, `b = 0x02`
over `HBYT` writes the byte `0x07`. -/
theorem bitmask_writes_or_of_terms_witness :
    parse_value sample.decls sample.container sample.target ⟨.identifier, "flags"⟩
        ⟨some ("Bitmask", false), [sample.flags_value]⟩
        [⟨.identifier, "a"⟩, ⟨.pipe, "|"⟩, ⟨.identifier, "b"⟩, ⟨.pipe, "|"⟩, ⟨.integer, "4"⟩,
          ⟨.semi, ";"⟩] =
      .ok () [⟨.semi, ";"⟩] [.write_byte sample.flags_value 0x07] :=
  (bitmask_writes_or_of_terms sample.decls sample.container sample.target ⟨.identifier, "flags"⟩
    ⟨some ("Bitmask", false), [sample.flags_value]⟩ sample.flags_value ⟨.pipe, "|"⟩ ⟨.semi, ";"⟩
    [⟨.identifier, "a"⟩, ⟨.identifier, "b"⟩, ⟨.integer, "4"⟩] [0x01, 0x02, 4] []
    rfl rfl rfl rfl rfl).1 rfl

end sema.new_resource

/-! ## C3: two terms without a separator -/

namespace sema.new_resource

/-- C3. In a `Bitmask` field, if before the first `;` two terms (integer literals or
identifiers) stand next to each other with no `|` between them, the field is rejected: the
run fails, with a failure of the source, and nothing is written. -/
theorem bitmask_adjacent_terms_rejected (D : Decls) (type_container : Container) (t : Target)
    (field_name : Lexeme) (field : Field) (pre : List Lexeme) (t1 t2 : Lexeme)
    (rest : List Lexeme)
    (htype : field.type = some ("Bitmask", false))
    (hpre : ∀ lx ∈ pre, lx.type ≠ .semi)
    (h1 : t1.type = .integer ∨ t1.type = .identifier)
    (h2 : t2.type = .integer ∨ t2.type = .identifier) :
    Rejected (parse_value D type_container t field_name field (pre ++ t1 :: t2 :: rest)) := by
  by_cases hc : field.values.length = 1
  · obtain ⟨value, hv⟩ := List.length_eq_one.1 hc
    by_cases hb : type_container.template_field_named value.name_lexeme ≠ D.HBYT ∧
        type_container.template_field_named value.name_lexeme ≠ D.HWRD ∧
        type_container.template_field_named value.name_lexeme ≠ D.HLNG ∧
        type_container.template_field_named value.name_lexeme ≠ D.HQAD
    · refine ⟨.fatal_error field_name 1 ("The field '" ++ field_name.text ++
        "' must be backed by either a HBYT, HWRD, HLNG or HQAD value."),
        pre ++ t1 :: t2 :: rest, ?_, by simp⟩
      simp [parse_value, htype, bitmask_field, Field.value_count, hv, hb]
    · obtain ⟨e, r1, he, hne⟩ := bitmask_loop_adjacent D value t1 t2 rest h1 h2
        (pre.length + (rest.length + 1 + 1) + 1) 0 pre hpre (by omega)
      refine ⟨e, r1, ?_, hne⟩
      simp [parse_value, htype, bitmask_field, Field.value_count, hv, hb, he]
  · refine ⟨.fatal_error field_name 1 ("The field '" ++ field_name.text ++
      "' should have only one value due to it being a 'Bitmask'."),
      pre ++ t1 :: t2 :: rest, ?_, by simp⟩
    simp [parse_value, htype, bitmask_field, Field.value_count, hc]

/-- C3 at `a | 1 2 ;`. -/
theorem bitmask_adjacent_terms_rejected_witness :
    Rejected (parse_value sample.decls sample.container sample.target ⟨.identifier, "flags"⟩
        ⟨some ("Bitmask", false), [sample.flags_value]⟩
        [⟨.identifier, "a"⟩, ⟨.pipe, "|"⟩, ⟨.integer, "1"⟩, ⟨.integer, "2"⟩, ⟨.semi, ";"⟩]) :=
  bitmask_adjacent_terms_rejected sample.decls sample.container sample.target
    ⟨.identifier, "flags"⟩ ⟨some ("Bitmask", false), [sample.flags_value]⟩
    [⟨.identifier, "a"⟩, ⟨.pipe, "|"⟩] ⟨.integer, "1"⟩ ⟨.integer, "2"⟩ [⟨.semi, ";"⟩]
    rfl (by decide) (Or.inl rfl) (Or.inl rfl)

end sema.new_resource

/-! ## C4: what may follow a term -/

namespace sema.new_resource

/-- C4 as stated fails: the expression `a | ;`, in which a `|` is directly followed by `;`,
is accepted, and the value of `a` is written. -/
theorem bitmask_trailing_pipe_accepted :
    parse_value sample.decls sample.container sample.target ⟨.identifier, "flags"⟩
        ⟨some ("Bitmask", false), [sample.flags_value]⟩
        [⟨.identifier, "a"⟩, ⟨.pipe, "|"⟩, ⟨.semi, ";"⟩] =
      .ok () [⟨.semi, ";"⟩] [.write_byte sample.flags_value 1] ∧
    ¬ Rejected (parse_value sample.decls sample.container sample.target ⟨.identifier, "flags"⟩
        ⟨some ("Bitmask", false), [sample.flags_value]⟩
        [⟨.identifier, "a"⟩, ⟨.pipe, "|"⟩, ⟨.semi, ";"⟩]) := by
  have h : parse_value sample.decls sample.container sample.target ⟨.identifier, "flags"⟩
        ⟨some ("Bitmask", false), [sample.flags_value]⟩
        [⟨.identifier, "a"⟩, ⟨.pipe, "|"⟩, ⟨.semi, ";"⟩] =
      .ok () [⟨.semi, ";"⟩] [.write_byte sample.flags_value 1] := by rfl
  refine ⟨h, ?_⟩
  rintro ⟨e, rest, he, _⟩
  rw [h] at he
  cases he

/-- A lexeme that is not a term makes the term step fail. -/
theorem bitmask_term_none (D : Decls) (value : FieldValue) (mask : Nat) (a : Lexeme)
    (r : List Lexeme) (h : term_value D value a = none) :
    ∃ lx msg rest, bitmask_term D value mask (a :: r) = .fail (.fatal_error lx 1 msg) rest [] := by
  rcases bitmask_term_cases D value mask a r with ⟨m, hm⟩ | hfail
  · exfalso
    unfold term_value at h
    unfold bitmask_term at hm
    by_cases h1 : a.type = .integer
    · simp [h1] at h
    · by_cases h2 : a.type = .identifier
      · cases hl : value.symbols.lookup a.text with
        | none =>
          simp [expect_from, peek_at, Expectation.test, expectation, Expectation.be_true,
            Lexeme.is, h1, h2, hl] at hm
        | some literal =>
          by_cases h3 : literal.type = .integer
          · simp [h1, h2, hl, h3] at h
          · simp [expect_from, peek_at, Expectation.test, expectation, Expectation.be_true,
              Lexeme.is, h1, h2, hl, h3] at hm
      · simp [expect_from, peek_at, Expectation.test, expectation, Expectation.be_true,
          Lexeme.is, h1, h2] at hm
  · exact hfail

/-- The term loop on a bitmask expression ends at its closing `;` with the OR of the values
of the terms. -/
theorem bitmask_loop_of_expression (D : Decls) (value : FieldValue) (ls : List Lexeme)
    (vals : List Nat) (rest : List Lexeme) (h : BitmaskExpression D value ls vals rest) :
    ∀ (mask fuel : Nat), ls.length < fuel →
      bitmask_loop D value fuel mask ls = .ok (vals.foldl (· ||| ·) mask) rest [] := by
  induction h with
  | done sc rest hsc =>
    intro mask fuel hf
    obtain ⟨k, rfl⟩ : ∃ k, fuel = k + 1 := ⟨fuel - 1, by omega⟩
    simpa using bitmask_loop_semi D value sc hsc rest k mask
  | last t v sc rest ht hsc =>
    intro mask fuel hf
    obtain ⟨k, rfl⟩ : ∃ k, fuel = k + 2 := ⟨fuel - 2, by simp at hf; omega⟩
    have hns : t.type ≠ .semi := by
      rcases term_value_type D value t v ht with h1 | h1 <;> simp [h1]
    simp [bitmask_loop, expect_from, peek_at, Expectation.test, expectation,
      Expectation.be_false, Expectation.be_true, Lexeme.is, hns, hsc,
      bitmask_term_ok D value mask t v _ ht]
  | more t v bar ls vals rest ht hbar _ ih =>
    intro mask fuel hf
    obtain ⟨k, rfl⟩ : ∃ k, fuel = k + 1 := ⟨fuel - 1, by omega⟩
    have hns : t.type ≠ .semi := by
      rcases term_value_type D value t v ht with h1 | h1 <;> simp [h1]
    have hrec := ih (mask ||| v) k (by simp at hf; omega)
    simp [bitmask_loop, expect_from, peek_at, Expectation.test, expectation,
      Expectation.be_false, Expectation.be_true, Lexeme.is, hns, hbar, ensure,
      bitmask_term_ok D value mask t v _ ht, hrec]

/-- The term loop on any lexemes: either they start with a bitmask expression, and the loop
ends at its closing `;` with the OR of the values of the terms, or the loop fails, with a
failure of the source and without a call. -/
theorem bitmask_loop_accepts_or_fails (D : Decls) (value : FieldValue) :
    ∀ (n : Nat) (ls : List Lexeme), ls.length ≤ n → ∀ (mask fuel : Nat), ls.length < fuel →
      (∃ vals rest, BitmaskExpression D value ls vals rest ∧
        bitmask_loop D value fuel mask ls = .ok (vals.foldl (· ||| ·) mask) rest []) ∨
      (∃ e r, bitmask_loop D value fuel mask ls = .fail e r [] ∧ e ≠ .out_of_fuel) := by
  intro n
  induction n with
  | zero =>
    intro ls hn mask fuel hf
    obtain rfl : ls = [] := List.eq_nil_of_length_eq_zero (by omega)
    obtain ⟨k, rfl⟩ : ∃ k, fuel = k + 1 := ⟨fuel - 1, by omega⟩
    right
    refine ⟨.fatal_error eof 1 ("Unexpected lexeme encountered in bitmask: '" ++ eof.text ++ "'"),
      [], ?_, by simp⟩
    simp [bitmask_loop, bitmask_term, expect_from, peek_at, eof, Expectation.test,
      expectation, Expectation.be_false, Expectation.be_true, Lexeme.is]
  | succ n ih =>
    intro ls hn mask fuel hf
    obtain ⟨k, rfl⟩ : ∃ k, fuel = k + 1 := ⟨fuel - 1, by omega⟩
    match ls, hn, hf with
    | [], _, _ =>
      right
      refine ⟨.fatal_error eof 1
        ("Unexpected lexeme encountered in bitmask: '" ++ eof.text ++ "'"), [], ?_, by simp⟩
      simp [bitmask_loop, bitmask_term, expect_from, peek_at, eof, Expectation.test,
        expectation, Expectation.be_false, Expectation.be_true, Lexeme.is]
    | a :: r, hn, hf =>
      by_cases ha : a.type = .semi
      · left
        exact ⟨[], a :: r, .done a r ha, by simpa using bitmask_loop_semi D value a ha r k mask⟩
      · cases hv : term_value D value a with
        | none =>
          obtain ⟨lx, msg, r1, hm⟩ := bitmask_term_none D value mask a r hv
          right
          refine ⟨.fatal_error lx 1 msg, r1, ?_, by simp⟩
          simp [bitmask_loop, expect_from, peek_at, Expectation.test, expectation,
            Expectation.be_false, Lexeme.is, ha, hm]
        | some v =>
          have hm := bitmask_term_ok D value mask a v r hv
          match r, hn, hf, hm with
          | [], _, _, hm =>
            right
            refine ⟨.ensure_failed eof, [], ?_, by simp⟩
            simp [bitmask_loop, expect_from, peek_at, eof, Expectation.test, expectation,
              Expectation.be_false, Expectation.be_true, Lexeme.is, ha, hm, ensure]
          | b :: r2, hn, hf, hm =>
            by_cases hb : b.type = .semi
            · left
              refine ⟨[v], b :: r2, .last a v b r2 hv hb, ?_⟩
              exact bitmask_loop_of_expression D value _ _ _ (.last a v b r2 hv hb) mask
                (k + 1) hf
            · by_cases hp : b.type = .pipe
              · have hlen : r2.length ≤ n := by simp at hn; omega
                have hfuel : r2.length < k := by simp at hf; omega
                rcases ih r2 hlen (mask ||| v) k hfuel with
                  ⟨vals, rest, hexpr, hrun⟩ | ⟨e, r3, hrun, hne⟩
                · left
                  refine ⟨v :: vals, rest, .more a v b r2 vals rest hv hp hexpr, ?_⟩
                  simp [bitmask_loop, expect_from, peek_at, Expectation.test, expectation,
                    Expectation.be_false, Expectation.be_true, Lexeme.is, ha, hb, hp, hm,
                    ensure, hrun]
                · right
                  refine ⟨e, r3, ?_, hne⟩
                  simp [bitmask_loop, expect_from, peek_at, Expectation.test, expectation,
                    Expectation.be_false, Expectation.be_true, Lexeme.is, ha, hb, hp, hm,
                    ensure, hrun]
              · right
                refine ⟨.ensure_failed b, r2, ?_, by simp⟩
                simp [bitmask_loop, expect_from, peek_at, Expectation.test, expectation,
                  Expectation.be_false, Expectation.be_true, Lexeme.is, ha, hb, hp, hm,
                  ensure]

/-- C4 as the source has it. In a `Bitmask` field the value expression is accepted only if
it is a sequence of terms delimited by single `|`, in which the last term is followed by
`;` or by one `|` and `;`: every lexeme sequence either starts with such an expression,
and then the field succeeds with the cursor on the closing `;` and the OR of the terms
written, or is rejected, with a failure of the source and nothing written. A `|` directly
followed by the closing `;` is accepted; a term followed by a lexeme that is neither `;`
nor `|` is rejected at that lexeme. -/
theorem bitmask_separator_rule (D : Decls) (type_container : Container) (t : Target)
    (field_name : Lexeme) (field : Field) (value : FieldValue)
    (hfield : BitmaskOver D type_container field value) :
    (∀ ls : List Lexeme,
      (∃ vals rest, BitmaskExpression D value ls vals rest ∧
        parse_value D type_container t field_name field ls =
          .ok () rest
            [mask_write D (type_container.template_field_named value.name_lexeme) value
              (vals.foldl (· ||| ·) 0)]) ∨
      Rejected (parse_value D type_container t field_name field ls)) ∧
    (∀ (ls rest : List Lexeme) (w : List WriteOp),
      parse_value D type_container t field_name field ls = .ok () rest w →
      ∃ vals, BitmaskExpression D value ls vals rest ∧
        w = [mask_write D (type_container.template_field_named value.name_lexeme) value
          (vals.foldl (· ||| ·) 0)]) ∧
    (∀ (ls : List Lexeme) (vals : List Nat) (rest : List Lexeme),
      BitmaskExpression D value ls vals rest →
      parse_value D type_container t field_name field ls =
        .ok () rest
          [mask_write D (type_container.template_field_named value.name_lexeme) value
            (vals.foldl (· ||| ·) 0)]) ∧
    (∀ (bar : Lexeme) (terms : List Lexeme) (vals : List Nat), bar.type = .pipe →
      terms.map (term_value D value) = vals.map some →
      (∀ (last x : Lexeme) (v : Nat) (rest : List Lexeme),
        term_value D value last = some v → x.type ≠ .semi → x.type ≠ .pipe →
        parse_value D type_container t field_name field
            (terms.flatMap (fun t => [t, bar]) ++ last :: x :: rest) =
          .fail (.ensure_failed x) rest []) ∧
      (∀ (sc : Lexeme) (rest : List Lexeme), sc.type = .semi →
        parse_value D type_container t field_name field
            (terms.flatMap (fun t => [t, bar]) ++ sc :: rest) =
          .ok () (sc :: rest)
            [mask_write D (type_container.template_field_named value.name_lexeme) value
              (vals.foldl (· ||| ·) 0)])) := by
  have hall : ∀ ls : List Lexeme,
      (∃ vals rest, BitmaskExpression D value ls vals rest ∧
        parse_value D type_container t field_name field ls =
          .ok () rest
            [mask_write D (type_container.template_field_named value.name_lexeme) value
              (vals.foldl (· ||| ·) 0)]) ∨
      Rejected (parse_value D type_container t field_name field ls) := by
    intro ls
    rcases bitmask_loop_accepts_or_fails D value ls.length ls (Nat.le_refl _) 0
        (ls.length + 1) (Nat.lt_succ_self _) with ⟨vals, rest, hexpr, hrun⟩ | ⟨e, r, hrun, hne⟩
    · exact Or.inl ⟨vals, rest, hexpr,
        bitmask_field_of_loop_ok D type_container t field_name field value hfield ls rest _ hrun⟩
    · exact Or.inr ⟨e, r,
        bitmask_field_of_loop_fail D type_container t field_name field value hfield ls r e hrun,
        hne⟩
  refine ⟨hall, ?_, ?_, ?_⟩
  · intro ls rest w hok
    rcases hall ls with ⟨vals, rest2, hexpr, hrun⟩ | ⟨e, r, hrun, _⟩
    · rw [hrun] at hok
      simp only [Res.ok.injEq, true_and] at hok
      obtain ⟨h1, h2⟩ := hok
      subst h1
      exact ⟨vals, hexpr, h2.symm⟩
    · rw [hrun] at hok
      cases hok
  · intro ls vals rest hexpr
    exact bitmask_field_of_loop_ok D type_container t field_name field value hfield ls rest _
      (bitmask_loop_of_expression D value ls vals rest hexpr 0 (ls.length + 1)
        (Nat.lt_succ_self _))
  · intro bar terms vals hbar hterms
    constructor
    · intro last x v rest hlast hx1 hx2
      apply bitmask_field_of_loop_fail D type_container t field_name field value hfield
      rw [bitmask_loop_pairs D value bar hbar _ terms vals _ 0 hterms (bitmask_fuel_le bar terms _)]
      obtain ⟨k, hk⟩ := bitmask_fuel bar terms (last :: x :: rest)
      rw [hk]
      exact bitmask_loop_stray D value last x v hlast hx1 hx2 rest k _
    · intro sc rest hsc
      apply bitmask_field_of_loop_ok D type_container t field_name field value hfield
      rw [bitmask_loop_pairs D value bar hbar _ terms vals _ 0 hterms (bitmask_fuel_le bar terms _)]
      obtain ⟨k, hk⟩ := bitmask_fuel bar terms (sc :: rest)
      rw [hk]
      exact bitmask_loop_semi D value sc hsc rest k _

/-- C4 as amended, over the slot `flags`: `a | | b ;` (two `|` in a row), `| a ;` (a
leading `|`) and `"s" ;` (a string in term position) are rejected, `a | 4 , ;` is rejected
at the comma, and `a | b ;` is accepted with 3 written. -/
theorem bitmask_separator_rule_witness :
    Rejected (parse_value sample.decls sample.container sample.target ⟨.identifier, "flags"⟩
        ⟨some ("Bitmask", false), [sample.flags_value]⟩
        [⟨.identifier, "a"⟩, ⟨.pipe, "|"⟩, ⟨.pipe, "|"⟩, ⟨.identifier, "b"⟩, ⟨.semi, ";"⟩]) ∧
    Rejected (parse_value sample.decls sample.container sample.target ⟨.identifier, "flags"⟩
        ⟨some ("Bitmask", false), [sample.flags_value]⟩
        [⟨.pipe, "|"⟩, ⟨.identifier, "a"⟩, ⟨.semi, ";"⟩]) ∧
    Rejected (parse_value sample.decls sample.container sample.target ⟨.identifier, "flags"⟩
        ⟨some ("Bitmask", false), [sample.flags_value]⟩
        [⟨.string, "s"⟩, ⟨.semi, ";"⟩]) ∧
    parse_value sample.decls sample.container sample.target ⟨.identifier, "flags"⟩
        ⟨some ("Bitmask", false), [sample.flags_value]⟩
        [⟨.identifier, "a"⟩, ⟨.pipe, "|"⟩, ⟨.integer, "4"⟩, ⟨.comma, ","⟩, ⟨.semi, ";"⟩] =
      .fail (.ensure_failed ⟨.comma, ","⟩) [⟨.semi, ";"⟩] [] ∧
    parse_value sample.decls sample.container sample.target ⟨.identifier, "flags"⟩
        ⟨some ("Bitmask", false), [sample.flags_value]⟩
        [⟨.identifier, "a"⟩, ⟨.pipe, "|"⟩, ⟨.identifier, "b"⟩, ⟨.semi, ";"⟩] =
      .ok () [⟨.semi, ";"⟩] [.write_byte sample.flags_value 3] :=
  ⟨((bitmask_separator_rule sample.decls sample.container sample.target
      ⟨.identifier, "flags"⟩ ⟨some ("Bitmask", false), [sample.flags_value]⟩
      sample.flags_value ⟨rfl, rfl, Or.inl rfl⟩).1 _).resolve_left
      (fun ⟨_, _, _, h⟩ => Res.noConfusion h),
   ((bitmask_separator_rule sample.decls sample.container sample.target
      ⟨.identifier, "flags"⟩ ⟨some ("Bitmask", false), [sample.flags_value]⟩
      sample.flags_value ⟨rfl, rfl, Or.inl rfl⟩).1 _).resolve_left
      (fun ⟨_, _, _, h⟩ => Res.noConfusion h),
   ((bitmask_separator_rule sample.decls sample.container sample.target
      ⟨.identifier, "flags"⟩ ⟨some ("Bitmask", false), [sample.flags_value]⟩
      sample.flags_value ⟨rfl, rfl, Or.inl rfl⟩).1 _).resolve_left
      (fun ⟨_, _, _, h⟩ => Res.noConfusion h),
   ((bitmask_separator_rule sample.decls sample.container sample.target
      ⟨.identifier, "flags"⟩ ⟨some ("Bitmask", false), [sample.flags_value]⟩
      sample.flags_value ⟨rfl, rfl, Or.inl rfl⟩).2.2.2 ⟨.pipe, "|"⟩ [⟨.identifier, "a"⟩] [1]
      rfl rfl).1 ⟨.integer, "4"⟩ ⟨.comma, ","⟩ 4 [⟨.semi, ";"⟩] rfl (by decide) (by decide),
   (bitmask_separator_rule sample.decls sample.container sample.target
      ⟨.identifier, "flags"⟩ ⟨some ("Bitmask", false), [sample.flags_value]⟩
      sample.flags_value ⟨rfl, rfl, Or.inl rfl⟩).2.2.1 _ [1, 2] _
      (.more ⟨.identifier, "a"⟩ 1 ⟨.pipe, "|"⟩ _ [2] _ rfl rfl
        (.last ⟨.identifier, "b"⟩ 2 ⟨.semi, ";"⟩ [] rfl rfl))⟩

end sema.new_resource

/-! ## C5: the template of a bitmask -/

namespace sema.new_resource

/-- C5. A field whose explicit type is `Bitmask` fails at once, with the cursor where it was
and nothing written, when it does not have exactly one slot, and when its slot is backed by
none of `HBYT`, `HWRD`, `HLNG`, `HQAD`; so whenever such a field is encoded, it has exactly
one slot, backed by one of the four types. -/
theorem bitmask_preconditions (D : Decls) (type_container : Container) (t : Target)
    (field_name : Lexeme) (field : Field) (ls : List Lexeme)
    (htype : field.type = some ("Bitmask", false)) :
    (field.values.length ≠ 1 →
      parse_value D type_container t field_name field ls =
        .fail (.fatal_error field_name 1 ("The field '" ++ field_name.text ++
          "' should have only one value due to it being a 'Bitmask'.")) ls []) ∧
    (∀ value, field.values = [value] →
      type_container.template_field_named value.name_lexeme ≠ D.HBYT →
      type_container.template_field_named value.name_lexeme ≠ D.HWRD →
      type_container.template_field_named value.name_lexeme ≠ D.HLNG →
      type_container.template_field_named value.name_lexeme ≠ D.HQAD →
      parse_value D type_container t field_name field ls =
        .fail (.fatal_error field_name 1 ("The field '" ++ field_name.text ++
          "' must be backed by either a HBYT, HWRD, HLNG or HQAD value.")) ls []) ∧
    (∀ rest writes, parse_value D type_container t field_name field ls = .ok () rest writes →
      ∃ value, BitmaskOver D type_container field value) := by
  have h1 : field.values.length ≠ 1 →
      parse_value D type_container t field_name field ls =
        .fail (.fatal_error field_name 1 ("The field '" ++ field_name.text ++
          "' should have only one value due to it being a 'Bitmask'.")) ls [] := by
    intro hc
    simp [parse_value, htype, bitmask_field, Field.value_count, hc]
  have h2 : ∀ value, field.values = [value] →
      type_container.template_field_named value.name_lexeme ≠ D.HBYT →
      type_container.template_field_named value.name_lexeme ≠ D.HWRD →
      type_container.template_field_named value.name_lexeme ≠ D.HLNG →
      type_container.template_field_named value.name_lexeme ≠ D.HQAD →
      parse_value D type_container t field_name field ls =
        .fail (.fatal_error field_name 1 ("The field '" ++ field_name.text ++
          "' must be backed by either a HBYT, HWRD, HLNG or HQAD value.")) ls [] := by
    intro value hv a b c d
    simp [parse_value, htype, bitmask_field, Field.value_count, hv, a, b, c, d]
  refine ⟨h1, h2, ?_⟩
  intro rest writes hok
  by_cases hc : field.values.length = 1
  · obtain ⟨value, hv⟩ := List.length_eq_one.1 hc
    refine ⟨value, htype, hv, ?_⟩
    by_contra hno
    simp only [not_or] at hno
    rw [h2 value hv hno.1 hno.2.1 hno.2.2.1 hno.2.2.2] at hok
    cases hok
  · rw [h1 hc] at hok
    cases hok

/-- C5 at a `Bitmask` with two slots, and at a `Bitmask` whose slot is backed by `DWRD`. -/
theorem bitmask_preconditions_witness :
    parse_value sample.decls sample.container sample.target ⟨.identifier, "flags"⟩
        ⟨some ("Bitmask", false), [sample.flags_value, sample.count_value]⟩
        [⟨.integer, "1"⟩, ⟨.semi, ";"⟩] =
      .fail (.fatal_error ⟨.identifier, "flags"⟩ 1
        "The field 'flags' should have only one value due to it being a 'Bitmask'.")
        [⟨.integer, "1"⟩, ⟨.semi, ";"⟩] [] ∧
    parse_value sample.decls sample.container sample.target ⟨.identifier, "flags"⟩
        ⟨some ("Bitmask", false), [sample.count_value]⟩
        [⟨.integer, "1"⟩, ⟨.semi, ";"⟩] =
      .fail (.fatal_error ⟨.identifier, "flags"⟩ 1
        "The field 'flags' must be backed by either a HBYT, HWRD, HLNG or HQAD value.")
        [⟨.integer, "1"⟩, ⟨.semi, ";"⟩] [] :=
  ⟨(bitmask_preconditions sample.decls sample.container sample.target ⟨.identifier, "flags"⟩
      ⟨some ("Bitmask", false), [sample.flags_value, sample.count_value]⟩
      [⟨.integer, "1"⟩, ⟨.semi, ";"⟩] rfl).1 (by decide),
   (bitmask_preconditions sample.decls sample.container sample.target ⟨.identifier, "flags"⟩
      ⟨some ("Bitmask", false), [sample.count_value]⟩
      [⟨.integer, "1"⟩, ⟨.semi, ";"⟩] rfl).2.1 sample.count_value rfl
      (by decide) (by decide) (by decide) (by decide)⟩

end sema.new_resource

/-! ## C6: symbols of a bitmask -/

namespace sema.new_resource

/-- C6. In a `Bitmask` field, after well-formed terms `t1 | ... | tk |`, an identifier that
is undefined in the symbol table of the slot, or that resolves to a literal that is not an
integer, makes the run fail with `fatal_error` at that identifier; the message contains the
text of the identifier, and nothing is written. -/
theorem bitmask_symbol_failure (D : Decls) (type_container : Container) (t : Target)
    (field_name : Lexeme) (field : Field) (value : FieldValue) (bar sym : Lexeme)
    (terms : List Lexeme) (vals : List Nat) (rest : List Lexeme)
    (hfield : BitmaskOver D type_container field value) (hbar : bar.type = .pipe)
    (hterms : terms.map (term_value D value) = vals.map some)
    (hsym : sym.type = .identifier) (hbad : term_value D value sym = none) :
    ∃ msg, parse_value D type_container t field_name field
          (terms.flatMap (fun t => [t, bar]) ++ sym :: rest) =
        .fail (.fatal_error sym 1 msg) rest [] ∧
      Mentions msg sym.text ∧
      ((value.symbols.lookup sym.text = none ∧
          msg = "Undefined symbol '" ++ sym.text ++ "'.") ∨
       ((∃ literal, value.symbols.lookup sym.text = some literal ∧ literal.type ≠ .integer) ∧
          msg = "Type mismatch for '" ++ sym.text ++ "' in bitmask.")) := by
  obtain ⟨k, hk⟩ := bitmask_fuel bar terms (sym :: rest)
  have hpairs := bitmask_loop_pairs D value bar hbar (sym :: rest) terms vals
    ((terms.flatMap (fun t => [t, bar]) ++ sym :: rest).length + 1) 0 hterms
    (bitmask_fuel_le bar terms (sym :: rest))
  rw [hk] at hpairs
  have hloop := bitmask_loop_bad_symbol D value sym hsym rest k (vals.foldl (· ||| ·) 0)
  cases hl : value.symbols.lookup sym.text with
  | none =>
    refine ⟨"Undefined symbol '" ++ sym.text ++ "'.", ?_, ⟨"Undefined symbol '", "'.", rfl⟩,
      Or.inl ⟨rfl, rfl⟩⟩
    apply bitmask_field_of_loop_fail D type_container t field_name field value hfield
    rw [hpairs]
    exact hloop.1 hl
  | some literal =>
    have hty : literal.type ≠ .integer := by
      intro h
      simp [term_value, hsym, hl, h] at hbad
    refine ⟨"Type mismatch for '" ++ sym.text ++ "' in bitmask.", ?_,
      ⟨"Type mismatch for '", "' in bitmask.", rfl⟩, Or.inr ⟨⟨literal, rfl, hty⟩, rfl⟩⟩
    apply bitmask_field_of_loop_fail D type_container t field_name field value hfield
    rw [hpairs]
    exact hloop.2 literal hl hty

/-- C6 at `a | zz ;`, where `zz` is undefined. -/
theorem bitmask_symbol_failure_witness :
    ∃ msg, parse_value sample.decls sample.container sample.target ⟨.identifier, "flags"⟩
          ⟨some ("Bitmask", false), [sample.flags_value]⟩
          [⟨.identifier, "a"⟩, ⟨.pipe, "|"⟩, ⟨.identifier, "zz"⟩, ⟨.semi, ";"⟩] =
        .fail (.fatal_error ⟨.identifier, "zz"⟩ 1 msg) [⟨.semi, ";"⟩] [] ∧
      Mentions msg "zz" ∧
      ((sample.flags_value.symbols.lookup "zz" = none ∧ msg = "Undefined symbol 'zz'.") ∨
       ((∃ literal, sample.flags_value.symbols.lookup "zz" = some literal ∧
          literal.type ≠ .integer) ∧ msg = "Type mismatch for 'zz' in bitmask.")) :=
  bitmask_symbol_failure sample.decls sample.container sample.target ⟨.identifier, "flags"⟩
    ⟨some ("Bitmask", false), [sample.flags_value]⟩ sample.flags_value ⟨.pipe, "|"⟩
    ⟨.identifier, "zz"⟩ [⟨.identifier, "a"⟩] [1] [⟨.semi, ";"⟩]
    ⟨rfl, rfl, Or.inl rfl⟩ rfl rfl rfl rfl

end sema.new_resource

/-! ## C7: references -/

namespace sema.new_resource

/-- C7. For a field whose explicit type is a reference and whose next lexeme is a resource
id: if slot 0 is backed by `DWRD` the field makes the one call `write_signed_short` with
the id as a signed 16-bit value, if it is backed by `DQAD` the one call `write_signed_quad`
with the id as a signed 64-bit value; in both cases exactly the resource id is
consumed. -/
theorem reference_writes_id (D : Decls) (type_container : Container) (t : Target)
    (field_name : Lexeme) (field : Field) (tag : String) (value : FieldValue)
    (more : List FieldValue) (id : Lexeme) (rest : List Lexeme)
    (htype : field.type = some (tag, true)) (hvalues : field.values = value :: more)
    (hid : id.type = .res_id) :
    (type_container.template_field_named value.name_lexeme = D.DWRD →
      parse_value D type_container t field_name field (id :: rest) =
        .ok () rest [.write_signed_short value (id.value D .int16)] ∧
      -(2 : Int) ^ 15 ≤ id.value D .int16 ∧ id.value D .int16 < (2 : Int) ^ 15) ∧
    (type_container.template_field_named value.name_lexeme = D.DQAD →
      parse_value D type_container t field_name field (id :: rest) =
        .ok () rest [.write_signed_quad value (id.value D .int64)] ∧
      -(2 : Int) ^ 63 ≤ id.value D .int64 ∧ id.value D .int64 < (2 : Int) ^ 63) := by
  have hQW : D.DQAD ≠ D.DWRD := code_ne D 4 2 (by decide)
  constructor
  · intro hvt
    refine ⟨?_, cast_int16_range _⟩
    simp [parse_value, htype, reference_field, expect_from, peek_at, Expectation.test,
      expectation, Expectation.be_true, Lexeme.is, hid, hvalues, hvt]
  · intro hvt
    refine ⟨?_, cast_int64_range _⟩
    simp [parse_value, htype, reference_field, expect_from, peek_at, Expectation.test,
      expectation, Expectation.be_true, Lexeme.is, hid, hvalues, hvt, hQW]

/-- C7 at the id `128`, over a `DWRD` slot and over a `DQAD` slot. -/
theorem reference_writes_id_witness :
    parse_value sample.decls sample.container sample.target ⟨.identifier, "owner"⟩
        ⟨some ("Owner", true), [sample.owner_value]⟩ [⟨.res_id, "128"⟩, ⟨.semi, ";"⟩] =
      .ok () [⟨.semi, ";"⟩] [.write_signed_short sample.owner_value 128] ∧
    parse_value sample.decls sample.container sample.target ⟨.identifier, "big_owner"⟩
        ⟨some ("Owner", true), [sample.big_owner_value]⟩ [⟨.res_id, "128"⟩, ⟨.semi, ";"⟩] =
      .ok () [⟨.semi, ";"⟩] [.write_signed_quad sample.big_owner_value 128] :=
  ⟨((reference_writes_id sample.decls sample.container sample.target ⟨.identifier, "owner"⟩
      ⟨some ("Owner", true), [sample.owner_value]⟩ "Owner" sample.owner_value []
      ⟨.res_id, "128"⟩ [⟨.semi, ";"⟩] rfl rfl rfl).1 rfl).1,
   ((reference_writes_id sample.decls sample.container sample.target ⟨.identifier, "big_owner"⟩
      ⟨some ("Owner", true), [sample.big_owner_value]⟩ "Owner" sample.big_owner_value []
      ⟨.res_id, "128"⟩ [⟨.semi, ";"⟩] rfl rfl rfl).2 rfl).1⟩

end sema.new_resource

/-! ## C8: a reference over a slot of another type -/

namespace sema.new_resource

/-- C8 as stated fails: a reference field over a `PSTR` slot, given an integer literal, fails
with "expects a resource id", not with the error about the backing type. -/
theorem reference_token_checked_first :
    parse_value sample.decls sample.container sample.target ⟨.identifier, "link"⟩
        ⟨some ("Owner", true), [sample.title_value]⟩ [⟨.integer, "5"⟩, ⟨.semi, ";"⟩] =
      .fail (.fatal_error ⟨.integer, "5"⟩ 1 "The field 'link' expects a resource id.")
        [⟨.integer, "5"⟩, ⟨.semi, ";"⟩] [] ∧
    (parse_value sample.decls sample.container sample.target ⟨.identifier, "link"⟩
        ⟨some ("Owner", true), [sample.title_value]⟩
        [⟨.integer, "5"⟩, ⟨.semi, ";"⟩]).message ≠
      "Resource Reference field should be backed by either a DWRD or DQAD value." := by
  constructor
  · rfl
  · decide

/-- C8 as the source has it. A reference field whose slot 0 is backed by neither `DWRD` nor
`DQAD` is rejected on every input and writes nothing: when the next lexeme is a resource
id, that lexeme is consumed and the failure is "Resource Reference field should be backed
by either a DWRD or DQAD value."; otherwise nothing is consumed and the failure is "The
field '...' expects a resource id.", raised at the next lexeme. -/
theorem reference_wrong_backing (D : Decls) (type_container : Container) (t : Target)
    (field_name : Lexeme) (field : Field) (tag : String) (value : FieldValue)
    (more : List FieldValue) (ls : List Lexeme)
    (htype : field.type = some (tag, true)) (hvalues : field.values = value :: more)
    (hW : type_container.template_field_named value.name_lexeme ≠ D.DWRD)
    (hQ : type_container.template_field_named value.name_lexeme ≠ D.DQAD) :
    ((peek_at ls 0).type = .res_id →
      parse_value D type_container t field_name field ls =
        .fail (.fatal_error field_name 1
          "Resource Reference field should be backed by either a DWRD or DQAD value.")
          ls.tail []) ∧
    ((peek_at ls 0).type ≠ .res_id →
      parse_value D type_container t field_name field ls =
        .fail (.fatal_error (peek_at ls 0) 1
          ("The field '" ++ field_name.text ++ "' expects a resource id.")) ls []) := by
  constructor
  · intro h
    simp [parse_value, htype, reference_field, expect_from, Expectation.test,
      expectation, Expectation.be_true, Lexeme.is, h, hvalues, hW, hQ]
  · intro h
    simp [parse_value, htype, reference_field, expect_from, Expectation.test,
      expectation, Expectation.be_true, Lexeme.is, h]

/-- C8 as amended, at a reference over a `PSTR` slot given the id `128`. -/
theorem reference_wrong_backing_witness :
    parse_value sample.decls sample.container sample.target ⟨.identifier, "link"⟩
        ⟨some ("Owner", true), [sample.title_value]⟩ [⟨.res_id, "128"⟩, ⟨.semi, ";"⟩] =
      .fail (.fatal_error ⟨.identifier, "link"⟩ 1
        "Resource Reference field should be backed by either a DWRD or DQAD value.")
        [⟨.semi, ";"⟩] [] :=
  (reference_wrong_backing sample.decls sample.container sample.target ⟨.identifier, "link"⟩
    ⟨some ("Owner", true), [sample.title_value]⟩ "Owner" sample.title_value []
    [⟨.res_id, "128"⟩, ⟨.semi, ";"⟩] rfl rfl (by decide) (by decide)).1 rfl

end sema.new_resource

/-! ## C9: the text of a `File` field -/

namespace sema.new_resource

end sema.new_resource

/-! ## C10: the length checks of a `File` field -/

namespace sema.new_resource

/-- The length checks in the encoding of a `File` field (lines 139-170): over a `PSTR` slot a text of at
most 255 bytes is written with `write_pstr`, and a text of 256 bytes or more fails with
"String too large for value type."; over a `Cxxx` slot of size `type_size(value_type)` a
text of at most that many bytes is written with `write_cstr` at that size, and a longer
text fails with the same message; the failures leave the cursor in place and write
nothing. -/
theorem file_write_length (D : Decls) (type_container : Container)
    (field_name : Lexeme) (field : Field) (value : FieldValue) (more : List FieldValue)
    (text : String) (ls : List Lexeme) (hvalues : field.values = value :: more) :
    ((type_container.template_field_named value.name_lexeme) &&& 0xF000 = D.PSTR →
      (text.utf8ByteSize ≤ 255 →
        file_write D type_container field_name field text ls =
          .ok () ls [.write_pstr value text]) ∧
      (256 ≤ text.utf8ByteSize →
        file_write D type_container field_name field text ls =
          .fail (.fatal_error field_name 1 "String too large for value type.") ls [])) ∧
    ((type_container.template_field_named value.name_lexeme) &&& 0xF000 = D.Cxxx →
      (text.utf8ByteSize ≤ D.type_size (type_container.template_field_named value.name_lexeme) →
        file_write D type_container field_name field text ls =
          .ok () ls [.write_cstr value text
            (some (D.type_size (type_container.template_field_named value.name_lexeme)))]) ∧
      (D.type_size (type_container.template_field_named value.name_lexeme) < text.utf8ByteSize →
        file_write D type_container field_name field text ls =
          .fail (.fatal_error field_name 1 "String too large for value type.") ls [])) := by
  have hCP : D.Cxxx ≠ D.PSTR := code_ne D 11 9 (by decide)
  have hCC : D.Cxxx ≠ D.CSTR := code_ne D 11 10 (by decide)
  have hCH : D.Cxxx ≠ D.HEXD := code_ne D 11 13 (by decide)
  refine ⟨fun hk => ⟨fun hlen => ?_, fun hlen => ?_⟩, fun hk => ⟨fun hlen => ?_, fun hlen => ?_⟩⟩
  · have : ¬ text.utf8ByteSize > 255 := by omega
    simp [file_write, hvalues, hk, this]
  · have : text.utf8ByteSize > 255 := by omega
    simp [file_write, hvalues, hk, this]
  · have : ¬ text.utf8ByteSize >
        D.type_size (type_container.template_field_named value.name_lexeme) := by omega
    simp [file_write, hvalues, hk, hCP, hCC, hCH, this]
  · simp [file_write, hvalues, hk, hCP, hCC, hCH, hlen]

/-- A `File` field given a string literal is the encoding of lines 139-170 on the text of
the literal, run with the cursor behind the literal. -/
theorem parse_value_file_literal (D : Decls) (type_container : Container) (t : Target)
    (field_name : Lexeme) (field : Field) (str : Lexeme) (rest : List Lexeme)
    (htype : field.type = some ("File", false)) (hstr : str.type = .string) :
    parse_value D type_container t field_name field (str :: rest) =
      file_write D type_container field_name field str.text rest := by
  simp [parse_value, htype, file_field, expect_from, peek_at, Expectation.test,
    expectation, Expectation.be_true, Lexeme.is, hstr]

/-- A `File` field given `import` and a string literal naming a readable file is the
encoding of lines 139-170 on the contents of the file, run with the cursor behind the
literal. -/
theorem parse_value_file_import (D : Decls) (type_container : Container) (t : Target)
    (field_name : Lexeme) (field : Field) (imp str : Lexeme) (rest : List Lexeme)
    (content : String)
    (htype : field.type = some ("File", false)) (hstr : str.type = .string)
    (himp1 : imp.type = .identifier) (himp2 : imp.text = "import")
    (hfile : t.contents (t.resolve_src_path str.text) = some content) :
    parse_value D type_container t field_name field (imp :: str :: rest) =
      file_write D type_container field_name field content rest := by
  simp [parse_value, htype, file_field, expect_from, peek_at, Expectation.test,
    expectation, Expectation.be_true, Lexeme.is, hstr, himp1, himp2, contents, hfile]

/-- C10. For every `File` field, given a string literal or `import` and a string literal
naming a readable file, the content being the text of the literal in the first case and
the contents of the file in the second: when the first slot is a `PSTR`, a content of at
most 255 bytes is written to it with `write_pstr` and a content of 256 bytes or more makes
the field fail with "String too large for value type."; when the first slot is a `Cxxx` of
size `type_size(value_type)`, a content of at most that many bytes is written with
`write_cstr` at that size and a longer content makes the field fail with the same message.
The failures write nothing. -/
theorem file_field_length_check (D : Decls) (type_container : Container) (t : Target)
    (field_name : Lexeme) (field : Field) (value : FieldValue) (more : List FieldValue)
    (str : Lexeme) (rest ls : List Lexeme) (content : String)
    (htype : field.type = some ("File", false)) (hvalues : field.values = value :: more)
    (hstr : str.type = .string)
    (hdirective : (ls = str :: rest ∧ content = str.text) ∨
      (∃ imp : Lexeme, imp.type = .identifier ∧ imp.text = "import" ∧
        ls = imp :: str :: rest ∧
        t.contents (t.resolve_src_path str.text) = some content)) :
    ((type_container.template_field_named value.name_lexeme) &&& 0xF000 = D.PSTR →
      (content.utf8ByteSize ≤ 255 →
        parse_value D type_container t field_name field ls =
          .ok () rest [.write_pstr value content]) ∧
      (256 ≤ content.utf8ByteSize →
        parse_value D type_container t field_name field ls =
          .fail (.fatal_error field_name 1 "String too large for value type.") rest [])) ∧
    ((type_container.template_field_named value.name_lexeme) &&& 0xF000 = D.Cxxx →
      (content.utf8ByteSize ≤
          D.type_size (type_container.template_field_named value.name_lexeme) →
        parse_value D type_container t field_name field ls =
          .ok () rest [.write_cstr value content
            (some (D.type_size (type_container.template_field_named value.name_lexeme)))]) ∧
      (D.type_size (type_container.template_field_named value.name_lexeme) <
          content.utf8ByteSize →
        parse_value D type_container t field_name field ls =
          .fail (.fatal_error field_name 1 "String too large for value type.") rest [])) := by
  have hrun : parse_value D type_container t field_name field ls =
      file_write D type_container field_name field content rest := by
    rcases hdirective with ⟨rfl, rfl⟩ | ⟨imp, h1, h2, rfl, hfile⟩
    · exact parse_value_file_literal D type_container t field_name field str rest htype hstr
    · exact parse_value_file_import D type_container t field_name field imp str rest content
        htype hstr h1 h2 hfile
  rw [hrun]
  exact file_write_length D type_container field_name field value more content rest
    hvalues

set_option maxRecDepth 100000 in
/-- C10 at `Cxxx` of size 8 with a literal of 8 and of 9 bytes, at `PSTR` with a literal of
255 and of 256 bytes, and at `Cxxx` of size 8 with `import` of a file of 5 and of 9
bytes. -/
theorem file_field_length_check_witness :
    parse_value sample.decls sample.container sample.target ⟨.identifier, "code"⟩
        ⟨some ("File", false), [sample.code_value]⟩ [⟨.string, "12345678"⟩, ⟨.semi, ";"⟩] =
      .ok () [⟨.semi, ";"⟩] [.write_cstr sample.code_value "12345678" (some 8)] ∧
    parse_value sample.decls sample.container sample.target ⟨.identifier, "code"⟩
        ⟨some ("File", false), [sample.code_value]⟩ [⟨.string, "123456789"⟩, ⟨.semi, ";"⟩] =
      .fail (.fatal_error ⟨.identifier, "code"⟩ 1 "String too large for value type.")
        [⟨.semi, ";"⟩] [] ∧
    parse_value sample.decls sample.container sample.target ⟨.identifier, "title"⟩
        ⟨some ("File", false), [sample.title_value]⟩
        [⟨.string, String.mk (List.replicate 255 'x')⟩, ⟨.semi, ";"⟩] =
      .ok () [⟨.semi, ";"⟩]
        [.write_pstr sample.title_value (String.mk (List.replicate 255 'x'))] ∧
    parse_value sample.decls sample.container sample.target ⟨.identifier, "title"⟩
        ⟨some ("File", false), [sample.title_value]⟩
        [⟨.string, String.mk (List.replicate 256 'x')⟩, ⟨.semi, ";"⟩] =
      .fail (.fatal_error ⟨.identifier, "title"⟩ 1 "String too large for value type.")
        [⟨.semi, ";"⟩] [] ∧
    parse_value sample.decls sample.container sample.target ⟨.identifier, "code"⟩
        ⟨some ("File", false), [sample.code_value]⟩
        [⟨.identifier, "import"⟩, ⟨.string, "a.txt"⟩, ⟨.semi, ";"⟩] =
      .ok () [⟨.semi, ";"⟩] [.write_cstr sample.code_value "hello" (some 8)] ∧
    parse_value sample.decls sample.container sample.long_target ⟨.identifier, "code"⟩
        ⟨some ("File", false), [sample.code_value]⟩
        [⟨.identifier, "import"⟩, ⟨.string, "long.txt"⟩, ⟨.semi, ";"⟩] =
      .fail (.fatal_error ⟨.identifier, "code"⟩ 1 "String too large for value type.")
        [⟨.semi, ";"⟩] [] :=
  ⟨((file_field_length_check sample.decls sample.container sample.target
      ⟨.identifier, "code"⟩ ⟨some ("File", false), [sample.code_value]⟩ sample.code_value []
      ⟨.string, "12345678"⟩ [⟨.semi, ";"⟩] _ "12345678" rfl rfl rfl
      (Or.inl ⟨rfl, rfl⟩)).2 rfl).1 (by decide),
   ((file_field_length_check sample.decls sample.container sample.target
      ⟨.identifier, "code"⟩ ⟨some ("File", false), [sample.code_value]⟩ sample.code_value []
      ⟨.string, "123456789"⟩ [⟨.semi, ";"⟩] _ "123456789" rfl rfl rfl
      (Or.inl ⟨rfl, rfl⟩)).2 rfl).2 (by decide),
   ((file_field_length_check sample.decls sample.container sample.target
      ⟨.identifier, "title"⟩ ⟨some ("File", false), [sample.title_value]⟩ sample.title_value []
      ⟨.string, String.mk (List.replicate 255 'x')⟩ [⟨.semi, ";"⟩] _
      (String.mk (List.replicate 255 'x')) rfl rfl rfl
      (Or.inl ⟨rfl, rfl⟩)).1 rfl).1 (by decide),
   ((file_field_length_check sample.decls sample.container sample.target
      ⟨.identifier, "title"⟩ ⟨some ("File", false), [sample.title_value]⟩ sample.title_value []
      ⟨.string, String.mk (List.replicate 256 'x')⟩ [⟨.semi, ";"⟩] _
      (String.mk (List.replicate 256 'x')) rfl rfl rfl
      (Or.inl ⟨rfl, rfl⟩)).1 rfl).2 (by decide),
   ((file_field_length_check sample.decls sample.container sample.target
      ⟨.identifier, "code"⟩ ⟨some ("File", false), [sample.code_value]⟩ sample.code_value []
      ⟨.string, "a.txt"⟩ [⟨.semi, ";"⟩] _ "hello" rfl rfl rfl
      (Or.inr ⟨⟨.identifier, "import"⟩, rfl, rfl, rfl, rfl⟩)).2 rfl).1 (by decide),
   ((file_field_length_check sample.decls sample.container sample.long_target
      ⟨.identifier, "code"⟩ ⟨some ("File", false), [sample.code_value]⟩ sample.code_value []
      ⟨.string, "long.txt"⟩ [⟨.semi, ";"⟩] _ "123456789" rfl rfl rfl
      (Or.inr ⟨⟨.identifier, "import"⟩, rfl, rfl, rfl, rfl⟩)).2 rfl).2 (by decide)⟩

end sema.new_resource

/-! ## The slots of a field without explicit type -/

namespace sema.new_resource

/-- The same outcome after two runs of calls. -/
theorem Res.after_after {α : Type} (a b : List WriteOp) (r : Res α) :
    (r.after b).after a = r.after (a ++ b) := by
  cases r <;> simp [Res.after]

end sema.new_resource

/-- A lexeme of a given kind under the cursor is a lexeme of the input. -/
theorem cons_of_peek_type (ls : List Lexeme) (ty : LexType) (hty : ty ≠ .eof)
    (h : (peek_at ls 0).type = ty) : ∃ lx rest, ls = lx :: rest ∧ lx.type = ty := by
  cases ls with
  | nil =>
    simp only [peek_at, List.getD_nil, eof] at h
    exact absurd h.symm hty
  | cons lx rest => exact ⟨lx, rest, rfl, by simpa [peek_at] using h⟩

/-- Four integer literals under the cursor are four lexemes of the input. -/
theorem four_integers_of_expect (ls : List Lexeme)
    (h : expect_from ls [(expectation .integer).be_true, (expectation .integer).be_true,
      (expectation .integer).be_true, (expectation .integer).be_true] = true) :
    ∃ i1 i2 i3 i4 rest, ls = i1 :: i2 :: i3 :: i4 :: rest ∧ i1.type = .integer ∧
      i2.type = .integer ∧ i3.type = .integer ∧ i4.type = .integer := by
  simp only [expect_from, Expectation.test, expectation, Expectation.be_true, Lexeme.is,
    Bool.and_true, beq_true, Bool.and_eq_true, decide_eq_true_eq] at h
  obtain ⟨h1, h2, h3, h4⟩ := h
  obtain ⟨i1, r1, e1, t1⟩ := cons_of_peek_type ls .integer (by decide) h1
  subst e1
  obtain ⟨i2, r2, e2, t2⟩ := cons_of_peek_type r1 .integer (by decide) h2
  subst e2
  obtain ⟨i3, r3, e3, t3⟩ := cons_of_peek_type r2 .integer (by decide) h3
  subst e3
  obtain ⟨i4, r4, e4, t4⟩ := cons_of_peek_type r3 .integer (by decide) h4
  subst e4
  exact ⟨i1, i2, i3, i4, r4, rfl, t1, t2, t3, t4⟩

namespace sema.new_resource

/-- One turn of the loop over the slots. -/
theorem infer_values_cons (D : Decls) (c : Container) (name : Lexeme) (v : FieldValue)
    (vs : List FieldValue) (ls : List Lexeme) :
    infer_values D c name (v :: vs) ls =
      match infer_value D c name v ls with
      | .ok _ mid w => (infer_values D c name vs mid).after w
      | .fail e rest w => .fail e rest w := by
  simp only [infer_values, M.bind_run]
  cases infer_value D c name v ls <;> rfl

/-- The loop over the slots, cut in two. -/
theorem infer_values_append (D : Decls) (c : Container) (name : Lexeme) :
    ∀ (before after : List FieldValue) (ls : List Lexeme),
      infer_values D c name (before ++ after) ls =
        match infer_values D c name before ls with
        | .ok _ mid w => (infer_values D c name after mid).after w
        | .fail e rest w => .fail e rest w := by
  intro before
  induction before with
  | nil => intro after ls; simp [infer_values]
  | cons v vs ih =>
    intro after ls
    rw [List.cons_append, infer_values_cons, infer_values_cons]
    cases h1 : infer_value D c name v ls with
    | fail e r w => rfl
    | ok a r w =>
      simp only [ih after r]
      cases h2 : infer_values D c name vs r with
      | fail e r2 w2 => rfl
      | ok a2 r2 w2 => simp only [Res.after_ok, Res.after_after]

/-- A field without explicit type over a single slot is that slot. -/
theorem parse_value_single_slot (D : Decls) (c : Container) (t : Target) (name : Lexeme)
    (field : Field) (value : FieldValue) (ls : List Lexeme)
    (htype : field.type = none) (hvalues : field.values = [value]) :
    parse_value D c t name field ls = infer_value D c name value ls := by
  simp only [parse_value, htype, hvalues, infer_values, M.bind_run]
  cases infer_value D c name value ls <;> simp

/-- The case `DBYT` of the `switch` at lines 271-388. -/
theorem infer_value_at_DBYT (D : Decls) (c : Container) (name : Lexeme) (value : FieldValue)
    (h : c.template_field_named value.name_lexeme = D.DBYT) :
    infer_value D c name value = (do
        expect_integer name
        emit (.write_signed_byte value ((← read).value D .int8))) := by
  unfold infer_value
  simp only [h, if_true, if_false]

/-- The case `DWRD` of the `switch` at lines 271-388. -/
theorem infer_value_at_DWRD (D : Decls) (c : Container) (name : Lexeme) (value : FieldValue)
    (h : c.template_field_named value.name_lexeme = D.DWRD) :
    infer_value D c name value = (do
        expect_integer name
        emit (.write_signed_short value ((← read).value D .int16))) := by
  unfold infer_value
  have n1 : D.DWRD ≠ D.DBYT := code_ne D 2 1 (by decide)
  simp only [h, n1, if_true, if_false]

/-- The case `DLNG` of the `switch` at lines 271-388. -/
theorem infer_value_at_DLNG (D : Decls) (c : Container) (name : Lexeme) (value : FieldValue)
    (h : c.template_field_named value.name_lexeme = D.DLNG) :
    infer_value D c name value = (do
        expect_integer name
        emit (.write_signed_long value ((← read).value D .int32))) := by
  unfold infer_value
  have n1 : D.DLNG ≠ D.DBYT := code_ne D 3 1 (by decide)
  have n2 : D.DLNG ≠ D.DWRD := code_ne D 3 2 (by decide)
  simp only [h, n1, n2, if_true, if_false]

/-- The case `DQAD` of the `switch` at lines 271-388. -/
theorem infer_value_at_DQAD (D : Decls) (c : Container) (name : Lexeme) (value : FieldValue)
    (h : c.template_field_named value.name_lexeme = D.DQAD) :
    infer_value D c name value = (do
        expect_integer name
        emit (.write_signed_quad value ((← read).value D .int64))) := by
  unfold infer_value
  have n1 : D.DQAD ≠ D.DBYT := code_ne D 4 1 (by decide)
  have n2 : D.DQAD ≠ D.DWRD := code_ne D 4 2 (by decide)
  have n3 : D.DQAD ≠ D.DLNG := code_ne D 4 3 (by decide)
  simp only [h, n1, n2, n3, if_true, if_false]

/-- The case `HBYT` of the `switch` at lines 271-388. -/
theorem infer_value_at_HBYT (D : Decls) (c : Container) (name : Lexeme) (value : FieldValue)
    (h : c.template_field_named value.name_lexeme = D.HBYT) :
    infer_value D c name value = (do
        expect_integer name
        emit (.write_byte value ((← read).value D .uint8).toNat)) := by
  unfold infer_value
  have n1 : D.HBYT ≠ D.DBYT := code_ne D 5 1 (by decide)
  have n2 : D.HBYT ≠ D.DWRD := code_ne D 5 2 (by decide)
  have n3 : D.HBYT ≠ D.DLNG := code_ne D 5 3 (by decide)
  have n4 : D.HBYT ≠ D.DQAD := code_ne D 5 4 (by decide)
  simp only [h, n1, n2, n3, n4, if_true, if_false]

/-- The case `HWRD` of the `switch` at lines 271-388. -/
theorem infer_value_at_HWRD (D : Decls) (c : Container) (name : Lexeme) (value : FieldValue)
    (h : c.template_field_named value.name_lexeme = D.HWRD) :
    infer_value D c name value = (do
        expect_integer name
        emit (.write_short value ((← read).value D .uint16).toNat)) := by
  unfold infer_value
  have n1 : D.HWRD ≠ D.DBYT := code_ne D 6 1 (by decide)
  have n2 : D.HWRD ≠ D.DWRD := code_ne D 6 2 (by decide)
  have n3 : D.HWRD ≠ D.DLNG := code_ne D 6 3 (by decide)
  have n4 : D.HWRD ≠ D.DQAD := code_ne D 6 4 (by decide)
  have n5 : D.HWRD ≠ D.HBYT := code_ne D 6 5 (by decide)
  simp only [h, n1, n2, n3, n4, n5, if_true, if_false]

/-- The case `HLNG` of the `switch` at lines 271-388. -/
theorem infer_value_at_HLNG (D : Decls) (c : Container) (name : Lexeme) (value : FieldValue)
    (h : c.template_field_named value.name_lexeme = D.HLNG) :
    infer_value D c name value = (do
        expect_integer name
        emit (.write_long value ((← read).value D .uint32).toNat)) := by
  unfold infer_value
  have n1 : D.HLNG ≠ D.DBYT := code_ne D 7 1 (by decide)
  have n2 : D.HLNG ≠ D.DWRD := code_ne D 7 2 (by decide)
  have n3 : D.HLNG ≠ D.DLNG := code_ne D 7 3 (by decide)
  have n4 : D.HLNG ≠ D.DQAD := code_ne D 7 4 (by decide)
  have n5 : D.HLNG ≠ D.HBYT := code_ne D 7 5 (by decide)
  have n6 : D.HLNG ≠ D.HWRD := code_ne D 7 6 (by decide)
  simp only [h, n1, n2, n3, n4, n5, n6, if_true, if_false]

/-- The case `HQAD` of the `switch` at lines 271-388. -/
theorem infer_value_at_HQAD (D : Decls) (c : Container) (name : Lexeme) (value : FieldValue)
    (h : c.template_field_named value.name_lexeme = D.HQAD) :
    infer_value D c name value = (do
        expect_integer name
        emit (.write_quad value ((← read).value D .uint64).toNat)) := by
  unfold infer_value
  have n1 : D.HQAD ≠ D.DBYT := code_ne D 8 1 (by decide)
  have n2 : D.HQAD ≠ D.DWRD := code_ne D 8 2 (by decide)
  have n3 : D.HQAD ≠ D.DLNG := code_ne D 8 3 (by decide)
  have n4 : D.HQAD ≠ D.DQAD := code_ne D 8 4 (by decide)
  have n5 : D.HQAD ≠ D.HBYT := code_ne D 8 5 (by decide)
  have n6 : D.HQAD ≠ D.HWRD := code_ne D 8 6 (by decide)
  have n7 : D.HQAD ≠ D.HLNG := code_ne D 8 7 (by decide)
  simp only [h, n1, n2, n3, n4, n5, n6, n7, if_true, if_false]

/-- The case `PSTR` of the `switch` at lines 271-388. -/
theorem infer_value_at_PSTR (D : Decls) (c : Container) (name : Lexeme) (value : FieldValue)
    (h : c.template_field_named value.name_lexeme = D.PSTR) :
    infer_value D c name value = (do
        expect_string name
        emit (.write_pstr value (← read).text)) := by
  unfold infer_value
  have n1 : D.PSTR ≠ D.DBYT := code_ne D 9 1 (by decide)
  have n2 : D.PSTR ≠ D.DWRD := code_ne D 9 2 (by decide)
  have n3 : D.PSTR ≠ D.DLNG := code_ne D 9 3 (by decide)
  have n4 : D.PSTR ≠ D.DQAD := code_ne D 9 4 (by decide)
  have n5 : D.PSTR ≠ D.HBYT := code_ne D 9 5 (by decide)
  have n6 : D.PSTR ≠ D.HWRD := code_ne D 9 6 (by decide)
  have n7 : D.PSTR ≠ D.HLNG := code_ne D 9 7 (by decide)
  have n8 : D.PSTR ≠ D.HQAD := code_ne D 9 8 (by decide)
  simp only [h, n1, n2, n3, n4, n5, n6, n7, n8, if_true, if_false]

/-- The case `CSTR` of the `switch` at lines 271-388. -/
theorem infer_value_at_CSTR (D : Decls) (c : Container) (name : Lexeme) (value : FieldValue)
    (h : c.template_field_named value.name_lexeme = D.CSTR) :
    infer_value D c name value = (do
        expect_string name
        emit (.write_cstr value (← read).text none)) := by
  unfold infer_value
  have n1 : D.CSTR ≠ D.DBYT := code_ne D 10 1 (by decide)
  have n2 : D.CSTR ≠ D.DWRD := code_ne D 10 2 (by decide)
  have n3 : D.CSTR ≠ D.DLNG := code_ne D 10 3 (by decide)
  have n4 : D.CSTR ≠ D.DQAD := code_ne D 10 4 (by decide)
  have n5 : D.CSTR ≠ D.HBYT := code_ne D 10 5 (by decide)
  have n6 : D.CSTR ≠ D.HWRD := code_ne D 10 6 (by decide)
  have n7 : D.CSTR ≠ D.HLNG := code_ne D 10 7 (by decide)
  have n8 : D.CSTR ≠ D.HQAD := code_ne D 10 8 (by decide)
  have n9 : D.CSTR ≠ D.PSTR := code_ne D 10 9 (by decide)
  simp only [h, n1, n2, n3, n4, n5, n6, n7, n8, n9, if_true, if_false]

/-- The case `Cxxx` of the `switch` at lines 271-388. -/
theorem infer_value_at_Cxxx (D : Decls) (c : Container) (name : Lexeme) (value : FieldValue)
    (h : c.template_field_named value.name_lexeme = D.Cxxx) :
    infer_value D c name value = (do
        expect_string name
        emit (.write_cstr value (← read).text (some (D.type_size D.Cxxx)))) := by
  unfold infer_value
  have n1 : D.Cxxx ≠ D.DBYT := code_ne D 11 1 (by decide)
  have n2 : D.Cxxx ≠ D.DWRD := code_ne D 11 2 (by decide)
  have n3 : D.Cxxx ≠ D.DLNG := code_ne D 11 3 (by decide)
  have n4 : D.Cxxx ≠ D.DQAD := code_ne D 11 4 (by decide)
  have n5 : D.Cxxx ≠ D.HBYT := code_ne D 11 5 (by decide)
  have n6 : D.Cxxx ≠ D.HWRD := code_ne D 11 6 (by decide)
  have n7 : D.Cxxx ≠ D.HLNG := code_ne D 11 7 (by decide)
  have n8 : D.Cxxx ≠ D.HQAD := code_ne D 11 8 (by decide)
  have n9 : D.Cxxx ≠ D.PSTR := code_ne D 11 9 (by decide)
  have n10 : D.Cxxx ≠ D.CSTR := code_ne D 11 10 (by decide)
  simp only [h, n1, n2, n3, n4, n5, n6, n7, n8, n9, n10, if_true, if_false]

/-- An integer slot, when the next lexeme is an integer literal: the literal is consumed and
its value at the type of the slot is written; no range is checked. -/
theorem integer_slot_run (D : Decls) (c : Container) (name : Lexeme) (value : FieldValue)
    (T : CType) (lx : Lexeme) (rest : List Lexeme)
    (hcode : c.template_field_named value.name_lexeme = D.int_code T)
    (hlx : lx.type = .integer) :
    infer_value D c name value (lx :: rest) =
      .ok () rest [int_write T value (lx.value D T)] := by
  cases T
  · rw [infer_value_at_DBYT D c name value hcode]
    simp [expect_integer, expect_from, peek_at, Expectation.test, expectation,
      Expectation.be_true, Lexeme.is, hlx, int_write]
  · rw [infer_value_at_DWRD D c name value hcode]
    simp [expect_integer, expect_from, peek_at, Expectation.test, expectation,
      Expectation.be_true, Lexeme.is, hlx, int_write]
  · rw [infer_value_at_DLNG D c name value hcode]
    simp [expect_integer, expect_from, peek_at, Expectation.test, expectation,
      Expectation.be_true, Lexeme.is, hlx, int_write]
  · rw [infer_value_at_DQAD D c name value hcode]
    simp [expect_integer, expect_from, peek_at, Expectation.test, expectation,
      Expectation.be_true, Lexeme.is, hlx, int_write]
  · rw [infer_value_at_HBYT D c name value hcode]
    simp [expect_integer, expect_from, peek_at, Expectation.test, expectation,
      Expectation.be_true, Lexeme.is, hlx, int_write]
  · rw [infer_value_at_HWRD D c name value hcode]
    simp [expect_integer, expect_from, peek_at, Expectation.test, expectation,
      Expectation.be_true, Lexeme.is, hlx, int_write]
  · rw [infer_value_at_HLNG D c name value hcode]
    simp [expect_integer, expect_from, peek_at, Expectation.test, expectation,
      Expectation.be_true, Lexeme.is, hlx, int_write]
  · rw [infer_value_at_HQAD D c name value hcode]
    simp [expect_integer, expect_from, peek_at, Expectation.test, expectation,
      Expectation.be_true, Lexeme.is, hlx, int_write]

/-- An integer slot, when the next lexeme is not an integer literal: the field fails there,
with a message naming the field. -/
theorem integer_slot_mismatch (D : Decls) (c : Container) (name : Lexeme) (value : FieldValue)
    (T : CType) (ls : List Lexeme)
    (hcode : c.template_field_named value.name_lexeme = D.int_code T)
    (hlx : (peek_at ls 0).type ≠ .integer) :
    infer_value D c name value ls =
      .fail (.fatal_error (peek_at ls 0) 1
        ("Expected an integer literal for field '" ++ name.text ++ "'.")) ls [] := by
  cases T
  · rw [infer_value_at_DBYT D c name value hcode]
    simp [expect_integer, expect_from, Expectation.test, expectation,
      Expectation.be_true, Lexeme.is, hlx]
  · rw [infer_value_at_DWRD D c name value hcode]
    simp [expect_integer, expect_from, Expectation.test, expectation,
      Expectation.be_true, Lexeme.is, hlx]
  · rw [infer_value_at_DLNG D c name value hcode]
    simp [expect_integer, expect_from, Expectation.test, expectation,
      Expectation.be_true, Lexeme.is, hlx]
  · rw [infer_value_at_DQAD D c name value hcode]
    simp [expect_integer, expect_from, Expectation.test, expectation,
      Expectation.be_true, Lexeme.is, hlx]
  · rw [infer_value_at_HBYT D c name value hcode]
    simp [expect_integer, expect_from, Expectation.test, expectation,
      Expectation.be_true, Lexeme.is, hlx]
  · rw [infer_value_at_HWRD D c name value hcode]
    simp [expect_integer, expect_from, Expectation.test, expectation,
      Expectation.be_true, Lexeme.is, hlx]
  · rw [infer_value_at_HLNG D c name value hcode]
    simp [expect_integer, expect_from, Expectation.test, expectation,
      Expectation.be_true, Lexeme.is, hlx]
  · rw [infer_value_at_HQAD D c name value hcode]
    simp [expect_integer, expect_from, Expectation.test, expectation,
      Expectation.be_true, Lexeme.is, hlx]

/-- A `PSTR` slot under positional inference: a string literal is consumed and written as it
is, whatever its length. -/
theorem pstr_slot_run (D : Decls) (c : Container) (name : Lexeme) (value : FieldValue)
    (lx : Lexeme) (rest : List Lexeme)
    (hcode : c.template_field_named value.name_lexeme = D.PSTR) (hlx : lx.type = .string) :
    infer_value D c name value (lx :: rest) = .ok () rest [.write_pstr value lx.text] := by
  rw [infer_value_at_PSTR D c name value hcode]
  simp [expect_string, expect_from, peek_at, Expectation.test, expectation,
    Expectation.be_true, Lexeme.is, hlx]

/-- A `CSTR` slot under positional inference. -/
theorem cstr_slot_run (D : Decls) (c : Container) (name : Lexeme) (value : FieldValue)
    (lx : Lexeme) (rest : List Lexeme)
    (hcode : c.template_field_named value.name_lexeme = D.CSTR) (hlx : lx.type = .string) :
    infer_value D c name value (lx :: rest) = .ok () rest [.write_cstr value lx.text none] := by
  rw [infer_value_at_CSTR D c name value hcode]
  simp [expect_string, expect_from, peek_at, Expectation.test, expectation,
    Expectation.be_true, Lexeme.is, hlx]

/-- A slot whose type code is the constant `Cxxx` itself, under positional inference: a
string literal is consumed and written at the size `type_size(Cxxx)`, whatever its
length. -/
theorem cxxx_slot_run (D : Decls) (c : Container) (name : Lexeme) (value : FieldValue)
    (lx : Lexeme) (rest : List Lexeme)
    (hcode : c.template_field_named value.name_lexeme = D.Cxxx) (hlx : lx.type = .string) :
    infer_value D c name value (lx :: rest) =
      .ok () rest [.write_cstr value lx.text (some (D.type_size D.Cxxx))] := by
  rw [infer_value_at_Cxxx D c name value hcode]
  simp [expect_string, expect_from, peek_at, Expectation.test, expectation,
    Expectation.be_true, Lexeme.is, hlx]

/-- A string slot, when the next lexeme is not a string literal. -/
theorem string_slot_mismatch (D : Decls) (c : Container) (name : Lexeme) (value : FieldValue)
    (ls : List Lexeme)
    (hcode : c.template_field_named value.name_lexeme = D.PSTR ∨
      c.template_field_named value.name_lexeme = D.CSTR ∨
      c.template_field_named value.name_lexeme = D.Cxxx)
    (hlx : (peek_at ls 0).type ≠ .string) :
    infer_value D c name value ls =
      .fail (.fatal_error (peek_at ls 0) 1
        ("Expected an string literal for field '" ++ name.text ++ "'.")) ls [] := by
  rcases hcode with h | h | h
  · rw [infer_value_at_PSTR D c name value h]
    simp [expect_string, expect_from, Expectation.test, expectation,
      Expectation.be_true, Lexeme.is, hlx]
  · rw [infer_value_at_CSTR D c name value h]
    simp [expect_string, expect_from, Expectation.test, expectation,
      Expectation.be_true, Lexeme.is, hlx]
  · rw [infer_value_at_Cxxx D c name value h]
    simp [expect_string, expect_from, Expectation.test, expectation,
      Expectation.be_true, Lexeme.is, hlx]

/-- A `RECT` slot: four integer literals in a row are consumed and handed to `write_rect`
in the order in which the compiler evaluates the four arguments; anything else fails
without consuming a lexeme. -/
theorem rect_slot_run (D : Decls) (c : Container) (name : Lexeme) (value : FieldValue)
    (hcode : c.template_field_named value.name_lexeme = D.RECT) :
    (∀ (i1 i2 i3 i4 : Lexeme) (rest : List Lexeme),
      i1.type = .integer → i2.type = .integer → i3.type = .integer → i4.type = .integer →
      infer_value D c name value (i1 :: i2 :: i3 :: i4 :: rest) =
        .ok () rest
          [if D.args_left_to_right then
            .write_rect value (i1.value D .int16) (i2.value D .int16) (i3.value D .int16)
              (i4.value D .int16)
          else
            .write_rect value (i4.value D .int16) (i3.value D .int16) (i2.value D .int16)
              (i1.value D .int16)]) ∧
    (∀ ls : List Lexeme,
      expect_from ls [(expectation .integer).be_true, (expectation .integer).be_true,
        (expectation .integer).be_true, (expectation .integer).be_true] = false →
      infer_value D c name value ls =
        .fail (.fatal_error (peek_at ls 0) 1
          ("Expected 4 integer literals for field '" ++ name.text ++ "'.")) ls []) := by
  have n1 : D.RECT ≠ D.DBYT := code_ne D 12 1 (by decide)
  have n2 : D.RECT ≠ D.DWRD := code_ne D 12 2 (by decide)
  have n3 : D.RECT ≠ D.DLNG := code_ne D 12 3 (by decide)
  have n4 : D.RECT ≠ D.DQAD := code_ne D 12 4 (by decide)
  have n5 : D.RECT ≠ D.HBYT := code_ne D 12 5 (by decide)
  have n6 : D.RECT ≠ D.HWRD := code_ne D 12 6 (by decide)
  have n7 : D.RECT ≠ D.HLNG := code_ne D 12 7 (by decide)
  have n8 : D.RECT ≠ D.HQAD := code_ne D 12 8 (by decide)
  have n9 : D.RECT ≠ D.PSTR := code_ne D 12 9 (by decide)
  have n10 : D.RECT ≠ D.CSTR := code_ne D 12 10 (by decide)
  have n11 : D.RECT ≠ D.Cxxx := code_ne D 12 11 (by decide)
  constructor
  · intro i1 i2 i3 i4 rest h1 h2 h3 h4
    cases hl : D.args_left_to_right <;>
      simp [infer_value, hcode, n1, n2, n3, n4, n5, n6, n7, n8, n9, n10, n11, expect_from,
        peek_at, Expectation.test, expectation, Expectation.be_true, Lexeme.is, h1, h2, h3, h4,
        hl]
  · intro ls h
    simp [infer_value, hcode, n1, n2, n3, n4, n5, n6, n7, n8, n9, n10, n11, h]

/-- A slot backed by `HEXD` fails where it stands. -/
theorem infer_value_hexd (D : Decls) (c : Container) (name : Lexeme) (value : FieldValue)
    (ls : List Lexeme) (h : c.template_field_named value.name_lexeme = D.HEXD) :
    infer_value D c name value ls =
      .fail (.fatal_error (peek_at ls 0) 1
        ("The 'HEXD' type is not directly supported '" ++ name.text ++ "'.")) ls [] := by
  have n1 : D.HEXD ≠ D.DBYT := code_ne D 13 1 (by decide)
  have n2 : D.HEXD ≠ D.DWRD := code_ne D 13 2 (by decide)
  have n3 : D.HEXD ≠ D.DLNG := code_ne D 13 3 (by decide)
  have n4 : D.HEXD ≠ D.DQAD := code_ne D 13 4 (by decide)
  have n5 : D.HEXD ≠ D.HBYT := code_ne D 13 5 (by decide)
  have n6 : D.HEXD ≠ D.HWRD := code_ne D 13 6 (by decide)
  have n7 : D.HEXD ≠ D.HLNG := code_ne D 13 7 (by decide)
  have n8 : D.HEXD ≠ D.HQAD := code_ne D 13 8 (by decide)
  have n9 : D.HEXD ≠ D.PSTR := code_ne D 13 9 (by decide)
  have n10 : D.HEXD ≠ D.CSTR := code_ne D 13 10 (by decide)
  have n11 : D.HEXD ≠ D.Cxxx := code_ne D 13 11 (by decide)
  have n12 : D.HEXD ≠ D.RECT := code_ne D 13 12 (by decide)
  simp [infer_value, h, n1, n2, n3, n4, n5, n6, n7, n8, n9, n10, n11, n12]

/-- A slot whose type code is none of the fourteen case labels: the `switch` does nothing,
so no lexeme is consumed and nothing is written. -/
theorem unlabelled_slot_run (D : Decls) (c : Container) (name : Lexeme) (value : FieldValue)
    (ls : List Lexeme)
    (hcode : c.template_field_named value.name_lexeme ∉
      [D.NONE, D.DBYT, D.DWRD, D.DLNG, D.DQAD, D.HBYT, D.HWRD, D.HLNG, D.HQAD,
        D.PSTR, D.CSTR, D.Cxxx, D.RECT, D.HEXD]) :
    infer_value D c name value ls = .ok () ls [] := by
  simp only [List.mem_cons, List.mem_singleton, not_or, List.not_mem_nil, not_false_eq_true,
    and_true] at hcode
  obtain ⟨h0, h1, h2, h3, h4, h5, h6, h7, h8, h9, h10, h11, h12, h13⟩ := hcode
  simp [infer_value, h0, h1, h2, h3, h4, h5, h6, h7, h8, h9, h10, h11, h12, h13]

end sema.new_resource

/-- The slot of `int_write`. -/
theorem int_write_slot (T : CType) (value : FieldValue) (v : Int) :
    (int_write T value v).slot = value := by
  cases T <;> rfl

namespace sema.new_resource

/-- A slot of a written type that is read successfully is written by exactly one call. -/
theorem infer_value_writes_slot (D : Decls) (c : Container) (name : Lexeme)
    (value : FieldValue) (ls rest : List Lexeme) (w : List WriteOp)
    (hcode : c.template_field_named value.name_lexeme ∈ D.written_types)
    (h : infer_value D c name value ls = .ok () rest w) :
    ∃ op, w = [op] ∧ op.slot = value := by
  have hint : ∀ T : CType, c.template_field_named value.name_lexeme = D.int_code T →
      ∃ op, w = [op] ∧ op.slot = value := by
    intro T hT
    by_cases hp : (peek_at ls 0).type = .integer
    · obtain ⟨lx, tl, e, hlx⟩ := cons_of_peek_type ls .integer (by decide) hp
      subst e
      rw [integer_slot_run D c name value T lx tl hT hlx] at h
      simp only [Res.ok.injEq, true_and] at h
      exact ⟨_, h.2.symm, int_write_slot T value _⟩
    · rw [integer_slot_mismatch D c name value T ls hT hp] at h
      cases h
  have hstr : (c.template_field_named value.name_lexeme = D.PSTR ∨
      c.template_field_named value.name_lexeme = D.CSTR ∨
      c.template_field_named value.name_lexeme = D.Cxxx) →
      ∃ op, w = [op] ∧ op.slot = value := by
    intro hS
    by_cases hp : (peek_at ls 0).type = .string
    · obtain ⟨lx, tl, e, hlx⟩ := cons_of_peek_type ls .string (by decide) hp
      subst e
      rcases hS with hS | hS | hS
      · rw [pstr_slot_run D c name value lx tl hS hlx] at h
        simp only [Res.ok.injEq, true_and] at h
        exact ⟨_, h.2.symm, rfl⟩
      · rw [cstr_slot_run D c name value lx tl hS hlx] at h
        simp only [Res.ok.injEq, true_and] at h
        exact ⟨_, h.2.symm, rfl⟩
      · rw [cxxx_slot_run D c name value lx tl hS hlx] at h
        simp only [Res.ok.injEq, true_and] at h
        exact ⟨_, h.2.symm, rfl⟩
    · rw [string_slot_mismatch D c name value ls hS hp] at h
      cases h
  simp only [Decls.written_types, List.mem_cons, List.mem_singleton, List.not_mem_nil,
    or_false] at hcode
  rcases hcode with h1 | h1 | h1 | h1 | h1 | h1 | h1 | h1 | h1 | h1 | h1 | h1
  · exact hint .int8 h1
  · exact hint .int16 h1
  · exact hint .int32 h1
  · exact hint .int64 h1
  · exact hint .uint8 h1
  · exact hint .uint16 h1
  · exact hint .uint32 h1
  · exact hint .uint64 h1
  · exact hstr (Or.inl h1)
  · exact hstr (Or.inr (Or.inl h1))
  · exact hstr (Or.inr (Or.inr h1))
  · by_cases he : expect_from ls [(expectation .integer).be_true,
        (expectation .integer).be_true, (expectation .integer).be_true,
        (expectation .integer).be_true] = true
    · obtain ⟨i1, i2, i3, i4, tl, e, t1, t2, t3, t4⟩ := four_integers_of_expect ls he
      subst e
      rw [(rect_slot_run D c name value h1).1 i1 i2 i3 i4 tl t1 t2 t3 t4] at h
      simp only [Res.ok.injEq, true_and] at h
      refine ⟨_, h.2.symm, ?_⟩
      split_ifs <;> rfl
    · simp only [Bool.not_eq_true] at he
      rw [(rect_slot_run D c name value h1).2 ls he] at h
      cases h

/-- When every slot of a field without explicit type has a written type, a successful run
over the slots makes exactly one call per slot, in the order of the slots. -/
theorem infer_values_writes_each_slot (D : Decls) (c : Container) (name : Lexeme) :
    ∀ (values : List FieldValue) (ls rest : List Lexeme) (w : List WriteOp),
      (∀ value ∈ values, c.template_field_named value.name_lexeme ∈ D.written_types) →
      infer_values D c name values ls = .ok () rest w →
      w.map WriteOp.slot = values := by
  intro values
  induction values with
  | nil =>
    intro ls rest w _ h
    simp only [infer_values, M.pure_run, Res.ok.injEq, true_and] at h
    simp [← h.2]
  | cons v vs ih =>
    intro ls rest w hall h
    rw [infer_values_cons] at h
    cases h1 : infer_value D c name v ls with
    | fail e r1 w1 => simp [h1] at h
    | ok a mid w1 =>
      simp only [h1] at h
      cases h2 : infer_values D c name vs mid with
      | fail e r2 w2 => simp [h2] at h
      | ok a2 r2 w2 =>
        simp only [h2, Res.after_ok, Res.ok.injEq, true_and] at h
        obtain ⟨op, hop, hslot⟩ := infer_value_writes_slot D c name v ls mid w1
          (hall v (by simp)) h1
        have hrest := ih mid r2 w2 (fun x hx => hall x (by simp [hx])) h2
        rw [← h.2, hop]
        simp [hslot, hrest]

end sema.new_resource

/-! ## C11: string lengths under positional inference -/

namespace sema.new_resource

set_option maxRecDepth 100000 in
/-- C11, at the input on which the source breaks it. A field without explicit type over one
`PSTR` slot, given a string literal of 256 bytes: the field is read successfully and the
call `write_pstr` is made with the whole 256-byte text (lines 337-343 have no length
check), where C11 wants the parse to fail. On the same slot and the same lexemes the `File`
directive (lines 143-147) does check, and fails with "String too large for value
type.". -/
theorem positional_pstr_unchecked :
    (String.mk (List.replicate 256 'x')).utf8ByteSize = 256 ∧
    parse_value sample.decls sample.slots sample.target ⟨.identifier, "title"⟩
        ⟨none, [sample.title_value]⟩
        [⟨.string, String.mk (List.replicate 256 'x')⟩, ⟨.semi, ";"⟩] =
      .ok () [⟨.semi, ";"⟩]
        [.write_pstr sample.title_value (String.mk (List.replicate 256 'x'))] ∧
    parse_value sample.decls sample.slots sample.target ⟨.identifier, "title"⟩
        ⟨some ("File", false), [sample.title_value]⟩
        [⟨.string, String.mk (List.replicate 256 'x')⟩, ⟨.semi, ";"⟩] =
      .fail (.fatal_error ⟨.identifier, "title"⟩ 1 "String too large for value type.")
        [⟨.semi, ";"⟩] [] := by
  refine ⟨by decide, ?_, ?_⟩
  · rfl
  · rfl

end sema.new_resource

/-! ## C12: `Cxxx` with a size under positional inference -/

namespace sema.new_resource

/-- C12, at the input on which the source breaks it. The slot `code` has a type code with
`value_type & 0xF000 = Cxxx` and `type_size(value_type) = 8`. Under positional inference
the `switch` of lines 271-388 compares the whole code with the constant `Cxxx`, no case
matches, and the slot is passed over: the string literal is not consumed and nothing is
written, where C12 wants one literal consumed and a field of 8 bytes written. On the same
slot and the same lexemes the `File` directive, which dispatches on `value_type & 0xF000`,
consumes the literal and calls `write_cstr` with the size 8. -/
theorem positional_sized_cxxx_skipped :
    sample.slots.template_field_named sample.code_value.name_lexeme &&& 0xF000 =
      sample.decls.Cxxx ∧
    sample.decls.type_size (sample.slots.template_field_named sample.code_value.name_lexeme)
      = 8 ∧
    parse_value sample.decls sample.slots sample.target ⟨.identifier, "code"⟩
        ⟨none, [sample.code_value]⟩ [⟨.string, "abc"⟩, ⟨.semi, ";"⟩] =
      .ok () [⟨.string, "abc"⟩, ⟨.semi, ";"⟩] [] ∧
    parse_value sample.decls sample.slots sample.target ⟨.identifier, "code"⟩
        ⟨some ("File", false), [sample.code_value]⟩ [⟨.string, "abc"⟩, ⟨.semi, ";"⟩] =
      .ok () [⟨.semi, ";"⟩] [.write_cstr sample.code_value "abc" (some 8)] := by
  refine ⟨by decide, by decide, rfl, rfl⟩

end sema.new_resource

/-! ## C13: one write per slot -/

namespace sema.new_resource

/-- C13, at the input on which the source breaks it. A field without explicit type over the
slots `count` (`DWRD`) and `code` (`Cxxx` of size 8), given `3 ;`: the value of the field
is read successfully up to the `;` with one call only, on `count`; the slot `code` is
never written, where C13 wants every slot written exactly once. The cause is the one of
C12: no case of the `switch` matches a `Cxxx` with a size. -/
theorem positional_slot_left_unwritten :
    parse_value sample.decls sample.slots sample.target ⟨.identifier, "entry"⟩
        ⟨none, [sample.count_value, sample.code_value]⟩ [⟨.integer, "3"⟩, ⟨.semi, ";"⟩] =
      .ok () [⟨.semi, ";"⟩] [.write_signed_short sample.count_value 3] :=
  rfl

end sema.new_resource

/-! ## C14: the four integers of a `RECT` -/

namespace sema.new_resource

/-- C14, at the input on which the source breaks it. A `RECT` slot given `1 2 3 4 ;`: the four
reads are the four arguments of one call (lines 373-377), and C++ leaves the order in which
arguments are evaluated unspecified. Built by a compiler that evaluates them from right to
left, the source calls `write_rect(value, 4, 3, 2, 1)`, where C14 wants the first argument
to be the first literal; built by one that evaluates them from left to right it calls
`write_rect(value, 1, 2, 3, 4)`. -/
theorem rect_written_in_argument_order :
    parse_value sample.decls_right_to_left sample.slots sample.target ⟨.identifier, "bounds"⟩
        ⟨none, [sample.bounds_value]⟩
        [⟨.integer, "1"⟩, ⟨.integer, "2"⟩, ⟨.integer, "3"⟩, ⟨.integer, "4"⟩, ⟨.semi, ";"⟩] =
      .ok () [⟨.semi, ";"⟩] [.write_rect sample.bounds_value 4 3 2 1] ∧
    parse_value sample.decls sample.slots sample.target ⟨.identifier, "bounds"⟩
        ⟨none, [sample.bounds_value]⟩
        [⟨.integer, "1"⟩, ⟨.integer, "2"⟩, ⟨.integer, "3"⟩, ⟨.integer, "4"⟩, ⟨.semi, ";"⟩] =
      .ok () [⟨.semi, ";"⟩] [.write_rect sample.bounds_value 1 2 3 4] :=
  ⟨rfl, rfl⟩

end sema.new_resource

/-! ## C15: `Picture`, `Sprite` and `ColorIcon` -/

namespace sema.new_resource

/-- The `Picture` branch: a string is required and consumed, then the field fails. -/
theorem picture_field_run (D : Decls) (type_container : Container) (t : Target)
    (field_name : Lexeme) (field : Field) (ls : List Lexeme)
    (htype : field.type = some ("Picture", false)) :
    ((peek_at ls 0).type = .string →
      parse_value D type_container t field_name field ls =
        .fail (.fatal_error (peek_at ls 0) 1 "Picture types are not currently supported.")
          ls.tail []) ∧
    ((peek_at ls 0).type ≠ .string →
      parse_value D type_container t field_name field ls =
        .fail (.fatal_error (peek_at ls 0) 1
          "Fields with the 'Picture' type expect a string value.") ls []) := by
  constructor <;> intro h <;>
    simp [parse_value, htype, picture_field, expect_from, Expectation.test, expectation,
      Expectation.be_true, Lexeme.is, h]

/-- The `ColorIcon` branch: a string is required and consumed, then the field fails. -/
theorem coloricon_field_run (D : Decls) (type_container : Container) (t : Target)
    (field_name : Lexeme) (field : Field) (ls : List Lexeme)
    (htype : field.type = some ("ColorIcon", false)) :
    ((peek_at ls 0).type = .string →
      parse_value D type_container t field_name field ls =
        .fail (.fatal_error (peek_at ls 0) 1 "ColorIcon types are not currently supported.")
          ls.tail []) ∧
    ((peek_at ls 0).type ≠ .string →
      parse_value D type_container t field_name field ls =
        .fail (.fatal_error (peek_at ls 0) 1
          "Fields with the 'ColorIcon' type expect a string value.") ls []) := by
  constructor <;> intro h <;>
    simp [parse_value, htype, coloricon_field, expect_from, Expectation.test, expectation,
      Expectation.be_true, Lexeme.is, h]

/-- The `Sprite` branch: the field fails at once, whatever the next lexeme is, and consumes
nothing. -/
theorem sprite_field_run (D : Decls) (type_container : Container) (t : Target)
    (field_name : Lexeme) (field : Field) (ls : List Lexeme)
    (htype : field.type = some ("Sprite", false)) :
    parse_value D type_container t field_name field ls =
      .fail (.fatal_error (peek_at ls 0) 1 "Sprite types are not currently supported.") ls [] := by
  simp [parse_value, htype, sprite_field]

/-- C15, at the input on which the source breaks it. Given the string literal `"s.png"`, a
`Sprite` field fails with "Sprite types are not currently supported." at the literal and
with the literal still under the cursor (line 185 neither requires nor reads a string),
where C15 wants the string consumed first; the `Picture` and `ColorIcon` fields on the
same lexemes do consume the string before they fail. -/
theorem sprite_fails_before_its_string :
    parse_value sample.decls sample.slots sample.target ⟨.identifier, "icon"⟩
        ⟨some ("Sprite", false), [sample.title_value]⟩ [⟨.string, "s.png"⟩, ⟨.semi, ";"⟩] =
      .fail (.fatal_error ⟨.string, "s.png"⟩ 1 "Sprite types are not currently supported.")
        [⟨.string, "s.png"⟩, ⟨.semi, ";"⟩] [] ∧
    parse_value sample.decls sample.slots sample.target ⟨.identifier, "icon"⟩
        ⟨some ("Picture", false), [sample.title_value]⟩ [⟨.string, "s.png"⟩, ⟨.semi, ";"⟩] =
      .fail (.fatal_error ⟨.string, "s.png"⟩ 1 "Picture types are not currently supported.")
        [⟨.semi, ";"⟩] [] ∧
    parse_value sample.decls sample.slots sample.target ⟨.identifier, "icon"⟩
        ⟨some ("ColorIcon", false), [sample.title_value]⟩ [⟨.string, "s.png"⟩, ⟨.semi, ";"⟩] =
      .fail (.fatal_error ⟨.string, "s.png"⟩ 1 "ColorIcon types are not currently supported.")
        [⟨.semi, ";"⟩] [] :=
  ⟨rfl, rfl, rfl⟩

end sema.new_resource

/-! ## Integer literals under positional inference -/

/-- A value in the range of `T` is its own reduction into the range of `T`. -/
theorem cast_of_in_range (T : CType) (x : Int) (h1 : T.least ≤ x) (h2 : x ≤ T.greatest) :
    T.cast x = x := by
  cases T <;>
    simp only [CType.least, CType.greatest, CType.cast, CType.signed, CType.bits] at * <;>
    norm_num at * <;> omega

/-- A value of the machine type `T` lies between its least and its greatest value. -/
theorem cast_range (T : CType) (x : Int) : T.least ≤ T.cast x ∧ T.cast x ≤ T.greatest := by
  cases T <;>
    simp only [CType.least, CType.greatest, CType.cast, CType.signed, CType.bits] <;>
    norm_num <;> omega

/-- The digits of `n` in base 256, lowest first, put together again. -/
theorem foldr_digits (w : Nat) : ∀ n : Nat,
    ((List.range w).map (fun i => n / 256 ^ i % 256)).foldr (fun b acc => b + 256 * acc) 0 =
      n % 256 ^ w := by
  induction w with
  | zero => intro n; simp [Nat.mod_one]
  | succ w ih =>
    intro n
    rw [List.range_succ_eq_map, List.map_cons, List.map_map, List.foldr_cons]
    have hmap : (fun i => n / 256 ^ i % 256) ∘ Nat.succ = fun i => n / 256 / 256 ^ i % 256 := by
      funext i
      simp [pow_succ, Nat.div_div_eq_div_mul, Nat.mul_comm]
    rw [hmap, ih (n / 256), pow_succ', Nat.mod_mul]
    simp

/-- Decoding undoes the integer codec, up to the width. -/
theorem decode_unsigned_int_bytes (order : ByteOrder) (w : Nat) (v : Int) :
    decode_unsigned order (int_bytes order w v) = (v % 2 ^ (8 * w)).toNat % 256 ^ w := by
  cases order with
  | little => simp only [decode_unsigned, int_bytes, foldr_digits]
  | big =>
    simp only [decode_unsigned, int_bytes, List.foldl_reverse]
    have h := foldr_digits w (v % 2 ^ (8 * w)).toNat
    rw [← h]
    congr 1
    funext b acc
    omega

/-- An integer of the machine type `T` decodes back from the bytes written for it. -/
theorem decode_int_bytes (order : ByteOrder) (T : CType) (value : FieldValue) (x : Int)
    (h1 : T.least ≤ x) (h2 : x ≤ T.greatest) :
    decode order T ((int_write T value x).bytes order) = x := by
  cases T <;>
    simp only [CType.least, CType.greatest, CType.signed, CType.bits, decode,
      int_write, WriteOp.bytes, decode_unsigned_int_bytes] at * <;>
    norm_num at * <;> omega

namespace sema.new_resource

/-- Lines 272-335 check no range themselves. With the conversion of the sample registry,
which returns the number a literal denotes reduced to the machine type, a `DBYT` slot given
the literal `300`, which is above the greatest `int8_t`, 127, is read successfully and the
call `write_signed_byte` is made with 44. What the conversion of the source does with such
a literal is outside `new_resource.cpp`. -/
theorem integer_out_of_range_accepted :
    sample.decls.value .int8 ⟨.integer, "300"⟩ = 300 ∧
    CType.greatest .int8 = 127 ∧
    parse_value sample.decls sample.slots sample.target ⟨.identifier, "small"⟩
        ⟨none, [sample.small_value]⟩ [⟨.integer, "300"⟩, ⟨.semi, ";"⟩] =
      .ok () [⟨.semi, ";"⟩] [.write_signed_byte sample.small_value 44] ∧
    ¬ Rejected (parse_value sample.decls sample.slots sample.target ⟨.identifier, "small"⟩
        ⟨none, [sample.small_value]⟩ [⟨.integer, "300"⟩, ⟨.semi, ";"⟩]) := by
  have h : parse_value sample.decls sample.slots sample.target ⟨.identifier, "small"⟩
        ⟨none, [sample.small_value]⟩ [⟨.integer, "300"⟩, ⟨.semi, ";"⟩] =
      .ok () [⟨.semi, ";"⟩] [.write_signed_byte sample.small_value 44] := rfl
  refine ⟨rfl, rfl, h, ?_⟩
  rintro ⟨e, rest, he, _⟩
  rw [h] at he
  cases he

/-- For each of the eight integer types, a field without explicit type over one slot of
that type, given an integer literal for which `lx.value<T>()` returns: the literal is
consumed and the slot is written with the value returned, a value of the machine type `T`
of the slot, which decodes back from its bytes to itself in either byte order; lines
272-335 check no range themselves. When the number the conversion computes lies in the
range of `T`, the value written is exactly that number. -/
theorem integer_slot_value (D : Decls) (type_container : Container) (t : Target)
    (field_name : Lexeme) (field : Field) (value : FieldValue) (T : CType) (lx : Lexeme)
    (rest : List Lexeme) (order : ByteOrder)
    (htype : field.type = none) (hvalues : field.values = [value])
    (hcode : type_container.template_field_named value.name_lexeme = D.int_code T)
    (hlx : lx.type = .integer) :
    parse_value D type_container t field_name field (lx :: rest) =
      .ok () rest [int_write T value (lx.value D T)] ∧
    T.least ≤ lx.value D T ∧ lx.value D T ≤ T.greatest ∧
    decode order T ((int_write T value (lx.value D T)).bytes order) = lx.value D T ∧
    (T.least ≤ D.value T lx → D.value T lx ≤ T.greatest → lx.value D T = D.value T lx) := by
  have hr := cast_range T (D.value T lx)
  refine ⟨?_, hr.1, hr.2, decode_int_bytes order T value _ hr.1 hr.2, ?_⟩
  · rw [parse_value_single_slot D type_container t field_name field value _ htype hvalues]
    exact integer_slot_run D type_container field_name value T lx rest hcode hlx
  · intro h1 h2
    exact cast_of_in_range T _ h1 h2

/-- A `DBYT` slot given `-5`. -/
theorem integer_slot_value_witness :
    parse_value sample.decls sample.slots sample.target ⟨.identifier, "small"⟩
        ⟨none, [sample.small_value]⟩ [⟨.integer, "-5"⟩, ⟨.semi, ";"⟩] =
      .ok () [⟨.semi, ";"⟩] [.write_signed_byte sample.small_value (-5)] ∧
    decode .big .int8 ((WriteOp.write_signed_byte sample.small_value (-5)).bytes .big) = -5 :=
  ⟨(integer_slot_value sample.decls sample.slots sample.target ⟨.identifier, "small"⟩
      ⟨none, [sample.small_value]⟩ sample.small_value .int8 ⟨.integer, "-5"⟩ [⟨.semi, ";"⟩]
      .big rfl rfl rfl rfl).1,
   (integer_slot_value sample.decls sample.slots sample.target ⟨.identifier, "small"⟩
      ⟨none, [sample.small_value]⟩ sample.small_value .int8 ⟨.integer, "-5"⟩ [⟨.semi, ";"⟩]
      .big rfl rfl rfl rfl).2.2.2.1⟩

end sema.new_resource

/-! ## C17: a `HEXD` slot under positional inference -/

namespace sema.new_resource

/-- C17 as stated fails: a field over the slots `count` (`DWRD`) and `blob` (`HEXD`), given a
string literal, fails at the first slot with "Expected an integer literal for field 'f'.",
not with the error about `HEXD`. -/
theorem hexd_field_fails_at_earlier_slot :
    parse_value sample.decls sample.slots sample.target ⟨.identifier, "f"⟩
        ⟨none, [sample.count_value, sample.blob_value]⟩ [⟨.string, "x"⟩, ⟨.semi, ";"⟩] =
      .fail (.fatal_error ⟨.string, "x"⟩ 1 "Expected an integer literal for field 'f'.")
        [⟨.string, "x"⟩, ⟨.semi, ";"⟩] [] ∧
    (parse_value sample.decls sample.slots sample.target ⟨.identifier, "f"⟩
        ⟨none, [sample.count_value, sample.blob_value]⟩
        [⟨.string, "x"⟩, ⟨.semi, ";"⟩]).message ≠
      "The 'HEXD' type is not directly supported 'f'." := by
  constructor
  · rfl
  · decide

/-- C17 as the source has it. A field without explicit type that has a slot backed by `HEXD`
fails on every input. The slots before it are read first: when they are read successfully,
the field fails at the `HEXD` slot with "The 'HEXD' type is not directly supported
'<field>'.", raised at the lexeme under the cursor, which is not consumed, and the calls
made are those of the earlier slots; when they fail, the field fails as they do. -/
theorem hexd_slot_always_fails (D : Decls) (type_container : Container) (t : Target)
    (field_name : Lexeme) (field : Field) (before after : List FieldValue) (hexd : FieldValue)
    (htype : field.type = none) (hvalues : field.values = before ++ hexd :: after)
    (hhexd : type_container.template_field_named hexd.name_lexeme = D.HEXD) :
    (∀ ls, ∃ e rest w, parse_value D type_container t field_name field ls = .fail e rest w) ∧
    (∀ ls mid w, infer_values D type_container field_name before ls = .ok () mid w →
      parse_value D type_container t field_name field ls =
        .fail (.fatal_error (peek_at mid 0) 1
          ("The 'HEXD' type is not directly supported '" ++ field_name.text ++ "'.")) mid w) ∧
    (∀ ls e rest w, infer_values D type_container field_name before ls = .fail e rest w →
      parse_value D type_container t field_name field ls = .fail e rest w) := by
  have hrun : ∀ ls, parse_value D type_container t field_name field ls =
      match infer_values D type_container field_name before ls with
      | .ok _ mid w => .fail (.fatal_error (peek_at mid 0) 1
          ("The 'HEXD' type is not directly supported '" ++ field_name.text ++ "'.")) mid w
      | .fail e rest w => .fail e rest w := by
    intro ls
    simp only [parse_value, htype, hvalues, infer_values_append]
    cases h1 : infer_values D type_container field_name before ls with
    | fail e r w => rfl
    | ok a mid w =>
      simp [infer_values, infer_value_hexd D type_container field_name hexd mid hhexd]
  refine ⟨?_, ?_, ?_⟩
  · intro ls
    rw [hrun ls]
    cases infer_values D type_container field_name before ls with
    | fail e r w => exact ⟨e, r, w, rfl⟩
    | ok a mid w => exact ⟨_, mid, w, rfl⟩
  · intro ls mid w h
    rw [hrun ls, h]
  · intro ls e rest w h
    rw [hrun ls, h]

/-- C17 as amended, at the slots `count`, `blob` given `3 "x" ;`. -/
theorem hexd_slot_always_fails_witness :
    parse_value sample.decls sample.slots sample.target ⟨.identifier, "f"⟩
        ⟨none, [sample.count_value, sample.blob_value]⟩
        [⟨.integer, "3"⟩, ⟨.string, "x"⟩, ⟨.semi, ";"⟩] =
      .fail (.fatal_error ⟨.string, "x"⟩ 1 "The 'HEXD' type is not directly supported 'f'.")
        [⟨.string, "x"⟩, ⟨.semi, ";"⟩] [.write_signed_short sample.count_value 3] :=
  (hexd_slot_always_fails sample.decls sample.slots sample.target ⟨.identifier, "f"⟩
    ⟨none, [sample.count_value, sample.blob_value]⟩ [sample.count_value] [] sample.blob_value
    rfl rfl rfl).2.1 [⟨.integer, "3"⟩, ⟨.string, "x"⟩, ⟨.semi, ";"⟩]
    [⟨.string, "x"⟩, ⟨.semi, ";"⟩] [.write_signed_short sample.count_value 3] rfl

end sema.new_resource

/-! ## C18: an explicit type that is not known -/

namespace sema.new_resource

/-- C18. A field whose explicit type is not a reference and whose type name is none of
`File`, `Picture`, `Sprite`, `ColorIcon`, `Bitmask` fails with "Unknown field type:
'<name>'", a message that contains the type name, raised at the lexeme after `=`; no
lexeme is consumed and nothing is written. -/
theorem unknown_field_type (D : Decls) (type_container : Container) (t : Target)
    (field_name : Lexeme) (field : Field) (tag : String) (ls : List Lexeme)
    (htype : field.type = some (tag, false))
    (hFile : tag ≠ "File") (hPicture : tag ≠ "Picture") (hSprite : tag ≠ "Sprite")
    (hColorIcon : tag ≠ "ColorIcon") (hBitmask : tag ≠ "Bitmask") :
    parse_value D type_container t field_name field ls =
      .fail (.fatal_error (peek_at ls 0) 1 ("Unknown field type: '" ++ tag ++ "'")) ls [] ∧
    Mentions ("Unknown field type: '" ++ tag ++ "'") tag := by
  refine ⟨?_, ⟨"Unknown field type: '", "'", rfl⟩⟩
  simp [parse_value, htype, hFile, hPicture, hSprite, hColorIcon, hBitmask]

/-- C18 at the type name `Polygon`. -/
theorem unknown_field_type_witness :
    parse_value sample.decls sample.container sample.target ⟨.identifier, "shape"⟩
        ⟨some ("Polygon", false), [sample.title_value]⟩ [⟨.integer, "1"⟩, ⟨.semi, ";"⟩] =
      .fail (.fatal_error ⟨.integer, "1"⟩ 1 "Unknown field type: 'Polygon'")
        [⟨.integer, "1"⟩, ⟨.semi, ";"⟩] [] :=
  (unknown_field_type sample.decls sample.container sample.target ⟨.identifier, "shape"⟩
    ⟨some ("Polygon", false), [sample.title_value]⟩ "Polygon" [⟨.integer, "1"⟩, ⟨.semi, ";"⟩]
    rfl (by decide) (by decide) (by decide) (by decide) (by decide)).1

end sema.new_resource

/-! ## C19: a field that the registry does not know -/

namespace sema.new_resource

/-- With iterations to spare, the field loop follows the fields read so far and goes on
from where they end. -/
theorem parse_fields_so_far (D : Decls) (c : Container) (t : Target) (ls mid : List Lexeme)
    (chunks : List (List WriteOp)) (h : FieldsSoFar D c t ls chunks mid) :
    ∀ fuel, parse_fields D c t (fuel + chunks.length) ls =
      (parse_fields D c t fuel mid).after chunks.flatten := by
  induction h with
  | start ls => intro fuel; simp
  | field ls mid1 rest w chunks hb hp _ ih =>
    intro fuel
    have h1 : fuel + (w :: chunks).length = (fuel + chunks.length) + 1 := by
      simp only [List.length_cons]; omega
    rw [h1]
    simp only [parse_fields, M.bind_run, expect_run, hb, Res.after_nil, if_true, hp, ih fuel,
      List.flatten_cons, Res.after_after, List.nil_append]

/-- Every field read consumes a lexeme: there are no more fields than lexemes consumed. -/
theorem fieldsSoFar_length (D : Decls) (c : Container) (t : Target) (ls mid : List Lexeme)
    (chunks : List (List WriteOp)) (h : FieldsSoFar D c t ls chunks mid) :
    chunks.length + mid.length ≤ ls.length := by
  induction h with
  | start ls => simp
  | field ls mid1 rest w chunks _ hp _ ih =>
    have := consumes_parse_field D c t ls () mid1 w hp
    simp only [List.length_cons]
    omega

/-- A field whose name the registry does not know fails right after its name. -/
theorem parse_field_unknown (D : Decls) (c : Container) (t : Target) (name : Lexeme)
    (rest : List Lexeme) (hname : name.type = .identifier) (hunknown : c.field_named name = none) :
    parse_field D c t (name :: rest) = .fail (.unknown_field name) rest [] := by
  simp [parse_field, expect_from, peek_at, Expectation.test, expectation, Expectation.be_true,
    Lexeme.is, hname, field_named, hunknown]

/-- C19. In a declaration whose head and `{` have been read, after fields that were read
successfully with the calls `chunks`, a field whose name the registry does not know makes
`parse` fail; the cursor is then right after the name, so that the `=` has not been
consumed, the field itself has made no call, and the calls made are exactly those of the
earlier fields. -/
theorem unknown_field_fails_before_equals (D : Decls) (type_container : Container)
    (t : Target) (order : ByteOrder) (ls body : List Lexeme) (header : Int × String)
    (chunks : List (List WriteOp)) (name : Lexeme) (rest : List Lexeme)
    (hopen : open_declaration D ls = .ok header body [])
    (hrun : FieldsSoFar D type_container t body chunks (name :: rest))
    (hname : name.type = .identifier) (hunknown : type_container.field_named name = none) :
    parse_field D type_container t (name :: rest) = .fail (.unknown_field name) rest [] ∧
    parse D type_container (some t) order ls =
      .fail (.unknown_field name) rest chunks.flatten := by
  have hfield := parse_field_unknown D type_container t name rest hname hunknown
  refine ⟨hfield, ?_⟩
  have hlen := fieldsSoFar_length D type_container t body (name :: rest) chunks hrun
  simp only [List.length_cons] at hlen
  obtain ⟨k, hk⟩ : ∃ k, body.length + 1 = (k + 1) + chunks.length :=
    ⟨body.length - chunks.length, by omega⟩
  have hloop := parse_fields_so_far D type_container t body (name :: rest) chunks hrun (k + 1)
  rw [← hk] at hloop
  have hstop : parse_fields D type_container t (k + 1) (name :: rest) =
      .fail (.unknown_field name) rest [] := by
    simp [parse_fields, expect_from, peek_at, Expectation.test, expectation,
      Expectation.be_false, Lexeme.is, hname, hfield]
  rw [hstop] at hloop
  simp [parse, parse_declaration, hopen, hloop]

/-- C19 at `new(128, "Test") { count = 3; bogus = 1; }`. -/
theorem unknown_field_fails_before_equals_witness :
    parse sample.decls sample.container (some sample.target) .big sample.bogus_declaration =
      .fail (.unknown_field ⟨.identifier, "bogus"⟩)
        [⟨.equals, "="⟩, ⟨.integer, "1"⟩, ⟨.semi, ";"⟩, ⟨.r_brace, "\x7d"⟩]
        [.write_signed_short sample.count_value 3] :=
  (unknown_field_fails_before_equals sample.decls sample.container sample.target .big
    sample.bogus_declaration (sample.bogus_declaration.drop 7) (128, "Test")
    [[.write_signed_short sample.count_value 3]] ⟨.identifier, "bogus"⟩
    [⟨.equals, "="⟩, ⟨.integer, "1"⟩, ⟨.semi, ";"⟩, ⟨.r_brace, "\x7d"⟩] rfl
    (FieldsSoFar.field _ (sample.bogus_declaration.drop 11) _ _ _ rfl rfl (FieldsSoFar.start _))
    rfl rfl).2

end sema.new_resource

/-! ## C20: a bitmask without terms -/

namespace sema.new_resource

/-- C20. A `Bitmask` field over one slot, when the lexeme right after `=` is `;`: the term
loop ends at its first test, with the mask unchanged; the field is accepted, zero is
written at the width of the slot (`write_byte`, `write_short`, `write_long` or
`write_quad`), and the cursor is still on the `;`. -/
theorem bitmask_empty_expression (D : Decls) (type_container : Container) (t : Target)
    (field_name : Lexeme) (field : Field) (value : FieldValue) (sc : Lexeme)
    (rest : List Lexeme)
    (htype : field.type = some ("Bitmask", false)) (hvalues : field.values = [value])
    (hsc : sc.type = .semi) :
    (∀ fuel mask, bitmask_loop D value (fuel + 1) mask (sc :: rest) = .ok mask (sc :: rest) []) ∧
    (type_container.template_field_named value.name_lexeme = D.HBYT →
      parse_value D type_container t field_name field (sc :: rest) =
        .ok () (sc :: rest) [.write_byte value 0]) ∧
    (type_container.template_field_named value.name_lexeme = D.HWRD →
      parse_value D type_container t field_name field (sc :: rest) =
        .ok () (sc :: rest) [.write_short value 0]) ∧
    (type_container.template_field_named value.name_lexeme = D.HLNG →
      parse_value D type_container t field_name field (sc :: rest) =
        .ok () (sc :: rest) [.write_long value 0]) ∧
    (type_container.template_field_named value.name_lexeme = D.HQAD →
      parse_value D type_container t field_name field (sc :: rest) =
        .ok () (sc :: rest) [.write_quad value 0]) := by
  have hloop := bitmask_loop_semi D value sc hsc rest (sc :: rest).length 0
  have hWB : D.HWRD ≠ D.HBYT := code_ne D 6 5 (by decide)
  have hLB : D.HLNG ≠ D.HBYT := code_ne D 7 5 (by decide)
  have hLW : D.HLNG ≠ D.HWRD := code_ne D 7 6 (by decide)
  refine ⟨fun fuel mask => bitmask_loop_semi D value sc hsc rest fuel mask, ?_, ?_, ?_, ?_⟩
    <;> intro hvt
  · rw [bitmask_field_of_loop_ok D type_container t field_name field value
      ⟨htype, hvalues, Or.inl hvt⟩ (sc :: rest) (sc :: rest) 0 hloop]
    simp [mask_write, hvt]
  · rw [bitmask_field_of_loop_ok D type_container t field_name field value
      ⟨htype, hvalues, Or.inr (Or.inl hvt)⟩ (sc :: rest) (sc :: rest) 0 hloop]
    simp [mask_write, hvt, hWB]
  · rw [bitmask_field_of_loop_ok D type_container t field_name field value
      ⟨htype, hvalues, Or.inr (Or.inr (Or.inl hvt))⟩ (sc :: rest) (sc :: rest) 0 hloop]
    simp [mask_write, hvt, hLB, hLW]
  · have hQB : D.HQAD ≠ D.HBYT := code_ne D 8 5 (by decide)
    have hQW : D.HQAD ≠ D.HWRD := code_ne D 8 6 (by decide)
    have hQL : D.HQAD ≠ D.HLNG := code_ne D 8 7 (by decide)
    rw [bitmask_field_of_loop_ok D type_container t field_name field value
      ⟨htype, hvalues, Or.inr (Or.inr (Or.inr hvt))⟩ (sc :: rest) (sc :: rest) 0 hloop]
    simp [mask_write, hvt, hQB, hQW, hQL]

/-- C20 at a `Bitmask` over `HBYT`. -/
theorem bitmask_empty_expression_witness :
    parse_value sample.decls sample.container sample.target ⟨.identifier, "flags"⟩
        ⟨some ("Bitmask", false), [sample.flags_value]⟩ [⟨.semi, ";"⟩, ⟨.r_brace, "\x7d"⟩] =
      .ok () [⟨.semi, ";"⟩, ⟨.r_brace, "\x7d"⟩] [.write_byte sample.flags_value 0] :=
  (bitmask_empty_expression sample.decls sample.container sample.target ⟨.identifier, "flags"⟩
    ⟨some ("Bitmask", false), [sample.flags_value]⟩ sample.flags_value ⟨.semi, ";"⟩
    [⟨.r_brace, "\x7d"⟩] rfl rfl rfl).2.1 rfl

end sema.new_resource

/-! ## C21: termination -/

@[simp]
theorem timed_out_after {α : Type} (b : List WriteOp) (r : Res α) :
    (r.after b).timed_out = r.timed_out := by
  cases r with
  | ok a ls w => rfl
  | fail e ls w => cases e <;> rfl

theorem terminates_pure {α : Type} (a : α) : Terminates (pure a : M α) := ⟨fun _ => rfl⟩

theorem terminates_fail {α : Type} (e : Failure) (h : e ≠ .out_of_fuel) :
    Terminates (M.fail e : M α) := by
  constructor
  intro ls
  cases e <;> first | rfl | exact absurd rfl h

theorem terminates_fatal_error {α : Type} (lx : Lexeme) (c : Nat) (msg : String) :
    Terminates (fatal_error lx c msg : M α) := ⟨fun _ => rfl⟩

theorem terminates_expect (es : List Expectation) : Terminates (expect es) := ⟨fun _ => rfl⟩

theorem terminates_peek : Terminates peek := ⟨fun _ => rfl⟩

theorem terminates_read : Terminates read := ⟨fun _ => rfl⟩

theorem terminates_advance : Terminates advance := ⟨fun _ => rfl⟩

theorem terminates_emit (x : WriteOp) : Terminates (emit x) := ⟨fun _ => rfl⟩

/-- A step ends on the given lexemes when its first part ends there and what follows always
ends. -/
theorem timed_out_bind {α β : Type} {m : M α} {f : α → M β} {ls : List Lexeme}
    (hm : (m ls).timed_out = false) (hf : ∀ a, Terminates (f a)) :
    ((m >>= f) ls).timed_out = false := by
  simp only [M.bind_run]
  cases hr : m ls with
  | fail e r1 w1 =>
    rw [hr] at hm
    cases e <;> first | rfl | exact hm
  | ok a r1 w1 => simpa using (hf a).ends r1

theorem terminates_bind {α β : Type} {m : M α} {f : α → M β} (hm : Terminates m)
    (hf : ∀ a, Terminates (f a)) : Terminates (m >>= f) :=
  ⟨fun ls => timed_out_bind (hm.ends ls) hf⟩

theorem terminates_ite {α : Type} {c : Prop} [Decidable c] {m1 m2 : M α}
    (h1 : Terminates m1) (h2 : Terminates m2) : Terminates (if c then m1 else m2) := by
  split_ifs
  · exact h1
  · exact h2

theorem terminates_value_at (field : Field) (i : Nat) : Terminates (value_at field i) := by
  unfold value_at
  split
  · exact terminates_pure _
  · exact terminates_fail _ (by simp)

theorem terminates_value_for (value : FieldValue) (symbol : Lexeme) :
    Terminates (value_for value symbol) := by
  unfold value_for
  split
  · exact terminates_pure _
  · exact terminates_fatal_error _ _ _

theorem terminates_field_named (c : Container) (name : Lexeme) :
    Terminates (field_named c name) := by
  unfold field_named
  split
  · exact terminates_pure _
  · exact terminates_fail _ (by simp)

theorem terminates_contents (t : Target) (path : String) : Terminates (contents t path) := by
  unfold contents
  split
  · exact terminates_pure _
  · exact terminates_fail _ (by simp)

theorem terminates_std_stoll (text : String) : Terminates (std_stoll text) := by
  unfold std_stoll
  split
  · exact terminates_pure _
  · exact terminates_fail _ (by simp)

theorem terminates_ensure : ∀ es : List Expectation, Terminates (ensure es)
  | [] => terminates_pure _
  | e :: es => by
    unfold kdl.ensure
    exact terminates_bind terminates_read
      (fun lx => terminates_ite (terminates_ensure es) (terminates_fail _ (by simp)))

theorem ne_out_of_fuel_of_timed_out {α : Type} {e : Failure} {rest : List Lexeme}
    {w : List WriteOp} (h : (Res.fail e rest w : Res α).timed_out = false) :
    e ≠ .out_of_fuel := by
  rintro rfl
  cases h

/-- A loop whose every round ends, fails or consumes needs no more rounds than there are
lexemes: with a budget above the number of lexemes it does not run out of budget, and its
outcome is the one of the budget `ls.length + 1`. -/
theorem loop_within_budget {σ α : Type} (loop : Nat → σ → M α)
    (hround : ∀ s ls, LoopRound loop s ls) :
    ∀ (n : Nat) (ls : List Lexeme), ls.length ≤ n → ∀ (s : σ) (fuel : Nat), ls.length < fuel →
      (loop fuel s ls).timed_out = false ∧ loop fuel s ls = loop (ls.length + 1) s ls := by
  intro n
  induction n with
  | zero =>
    intro ls hn s fuel h
    obtain ⟨f, rfl⟩ : ∃ f, fuel = f + 1 := ⟨fuel - 1, by omega⟩
    rcases hround s ls with ⟨a, ha⟩ | ⟨e, rest, w, he, hf⟩ | ⟨s2, rest, w, hlt, _⟩
    · rw [ha f, ha ls.length]
      exact ⟨rfl, rfl⟩
    · rw [hf f, hf ls.length]
      refine ⟨?_, rfl⟩
      cases e <;> first | rfl | exact absurd rfl he
    · omega
  | succ n ih =>
    intro ls hn s fuel h
    obtain ⟨f, rfl⟩ : ∃ f, fuel = f + 1 := ⟨fuel - 1, by omega⟩
    rcases hround s ls with ⟨a, ha⟩ | ⟨e, rest, w, he, hf⟩ | ⟨s2, rest, w, hlt, hs⟩
    · rw [ha f, ha ls.length]
      exact ⟨rfl, rfl⟩
    · rw [hf f, hf ls.length]
      refine ⟨?_, rfl⟩
      cases e <;> first | rfl | exact absurd rfl he
    · have h1 := ih rest (by omega) s2 f (by omega)
      have h2 := ih rest (by omega) s2 ls.length hlt
      rw [hs f, hs ls.length, h1.2, h2.2]
      refine ⟨?_, rfl⟩
      rw [← h1.2]
      simpa using h1.1

namespace sema.new_resource

/-- A term of a bitmask that is merged consumes its lexeme. -/
theorem consumes_bitmask_term (D : Decls) (value : FieldValue) (mask : Nat) :
    Consumes (bitmask_term D value mask) := by
  intro ls m rest w h
  cases ls with
  | nil =>
    simp [bitmask_term, expect_from, peek_at, eof, Expectation.test, expectation,
      Expectation.be_true, Lexeme.is] at h
  | cons a r =>
    rcases bitmask_term_cases D value mask a r with ⟨m2, hm⟩ | ⟨lx, msg, r1, hm⟩
    · rw [hm] at h
      simp only [Res.ok.injEq] at h
      rw [← h.2.1]
      simp
    · rw [hm] at h
      cases h

/-- A step that starts by counting the lexemes left ends when what follows ends for that
count. -/
theorem terminates_with_remaining {α : Type} {f : Nat → M α}
    (h : ∀ ls, (f ls.length ls).timed_out = false) : Terminates (remaining >>= f) := by
  constructor
  intro ls
  simpa using h ls

theorem terminates_bitmask_term (D : Decls) (value : FieldValue) (mask : Nat) :
    Terminates (bitmask_term D value mask) := by
  unfold bitmask_term
  repeat' first
    | exact terminates_pure _
    | exact terminates_fail _ (by simp)
    | exact terminates_fatal_error _ _ _
    | exact terminates_expect _
    | exact terminates_peek
    | exact terminates_read
    | exact terminates_advance
    | exact terminates_emit _
    | exact terminates_value_at _ _
    | exact terminates_value_for _ _
    | exact terminates_field_named _ _
    | exact terminates_contents _ _
    | exact terminates_std_stoll _
    | exact terminates_ensure _
    | apply terminates_bind
    | apply terminates_ite
    | intro _

/-- Every round of the term loop of a `Bitmask` field ends the loop, fails, or consumes. -/
theorem bitmask_loop_round (D : Decls) (value : FieldValue) (mask : Nat) (ls : List Lexeme) :
    LoopRound (bitmask_loop D value) mask ls := by
  by_cases hc : expect_from ls [(expectation .semi).be_false] = true
  · cases hr : bitmask_term D value mask ls with
    | fail e rest w =>
      refine Or.inr (Or.inl ⟨e, rest, w, ?_, fun k => ?_⟩)
      · have h := (terminates_bitmask_term D value mask).ends ls
        rw [hr] at h
        exact ne_out_of_fuel_of_timed_out h
      · simp only [bitmask_loop, M.bind_run, expect_run, hc, if_true, hr, Res.after_nil]
    | ok m rest w =>
      have hlt := consumes_bitmask_term D value mask ls m rest w hr
      by_cases hs : expect_from rest [(expectation .semi).be_true] = true
      · refine Or.inr (Or.inr ⟨m, rest, w, hlt, fun k => ?_⟩)
        simp [bitmask_loop, hc, hr, hs]
      · cases he : ensure [(expectation .pipe).be_true] rest with
        | fail e r2 w2 =>
          refine Or.inr (Or.inl ⟨e, r2, w ++ w2, ?_, fun k => ?_⟩)
          · have h := (terminates_ensure [(expectation .pipe).be_true]).ends rest
            rw [he] at h
            exact ne_out_of_fuel_of_timed_out h
          · simp [bitmask_loop, hc, hr, hs, he]
        | ok u r2 w2 =>
          have hle := noGrowth_ensure [(expectation .pipe).be_true] rest u r2 w2 he
          refine Or.inr (Or.inr ⟨m, r2, w ++ w2, by omega, fun k => ?_⟩)
          simp [bitmask_loop, hc, hr, hs, he, Res.after_after]
  · refine Or.inl ⟨mask, fun k => ?_⟩
    simp [bitmask_loop, hc]

theorem bitmask_loop_within_budget (D : Decls) (value : FieldValue) (mask : Nat)
    (ls : List Lexeme) (fuel : Nat) (h : ls.length < fuel) :
    (bitmask_loop D value fuel mask ls).timed_out = false ∧
    bitmask_loop D value fuel mask ls = bitmask_loop D value (ls.length + 1) mask ls :=
  loop_within_budget (bitmask_loop D value) (bitmask_loop_round D value) ls.length ls
    (Nat.le_refl _) mask fuel h

theorem terminates_reference_field (D : Decls) (c : Container) (name : Lexeme) (field : Field) :
    Terminates (reference_field D c name field) := by
  unfold reference_field
  repeat' first
    | exact terminates_pure _
    | exact terminates_fail _ (by simp)
    | exact terminates_fatal_error _ _ _
    | exact terminates_expect _
    | exact terminates_peek
    | exact terminates_read
    | exact terminates_advance
    | exact terminates_emit _
    | exact terminates_value_at _ _
    | exact terminates_value_for _ _
    | exact terminates_field_named _ _
    | exact terminates_contents _ _
    | exact terminates_std_stoll _
    | exact terminates_ensure _
    | apply terminates_bind
    | apply terminates_ite
    | intro _

theorem terminates_file_write (D : Decls) (c : Container) (name : Lexeme) (field : Field) (text : String) :
    Terminates (file_write D c name field text) := by
  unfold file_write
  repeat' first
    | exact terminates_pure _
    | exact terminates_fail _ (by simp)
    | exact terminates_fatal_error _ _ _
    | exact terminates_expect _
    | exact terminates_peek
    | exact terminates_read
    | exact terminates_advance
    | exact terminates_emit _
    | exact terminates_value_at _ _
    | exact terminates_value_for _ _
    | exact terminates_field_named _ _
    | exact terminates_contents _ _
    | exact terminates_std_stoll _
    | exact terminates_ensure _
    | apply terminates_bind
    | apply terminates_ite
    | intro _

theorem terminates_file_field (D : Decls) (c : Container) (t : Target) (name : Lexeme) (field : Field) :
    Terminates (file_field D c t name field) := by
  unfold file_field
  repeat' first
    | exact terminates_file_write _ _ _ _ _
    | exact terminates_pure _
    | exact terminates_fail _ (by simp)
    | exact terminates_fatal_error _ _ _
    | exact terminates_expect _
    | exact terminates_peek
    | exact terminates_read
    | exact terminates_advance
    | exact terminates_emit _
    | exact terminates_value_at _ _
    | exact terminates_value_for _ _
    | exact terminates_field_named _ _
    | exact terminates_contents _ _
    | exact terminates_std_stoll _
    | exact terminates_ensure _
    | apply terminates_bind
    | apply terminates_ite
    | intro _

theorem terminates_picture_field :
    Terminates (picture_field) := by
  unfold picture_field
  repeat' first
    | exact terminates_pure _
    | exact terminates_fail _ (by simp)
    | exact terminates_fatal_error _ _ _
    | exact terminates_expect _
    | exact terminates_peek
    | exact terminates_read
    | exact terminates_advance
    | exact terminates_emit _
    | exact terminates_value_at _ _
    | exact terminates_value_for _ _
    | exact terminates_field_named _ _
    | exact terminates_contents _ _
    | exact terminates_std_stoll _
    | exact terminates_ensure _
    | apply terminates_bind
    | apply terminates_ite
    | intro _

theorem terminates_sprite_field :
    Terminates (sprite_field) := by
  unfold sprite_field
  repeat' first
    | exact terminates_pure _
    | exact terminates_fail _ (by simp)
    | exact terminates_fatal_error _ _ _
    | exact terminates_expect _
    | exact terminates_peek
    | exact terminates_read
    | exact terminates_advance
    | exact terminates_emit _
    | exact terminates_value_at _ _
    | exact terminates_value_for _ _
    | exact terminates_field_named _ _
    | exact terminates_contents _ _
    | exact terminates_std_stoll _
    | exact terminates_ensure _
    | apply terminates_bind
    | apply terminates_ite
    | intro _

theorem terminates_coloricon_field :
    Terminates (coloricon_field) := by
  unfold coloricon_field
  repeat' first
    | exact terminates_pure _
    | exact terminates_fail _ (by simp)
    | exact terminates_fatal_error _ _ _
    | exact terminates_expect _
    | exact terminates_peek
    | exact terminates_read
    | exact terminates_advance
    | exact terminates_emit _
    | exact terminates_value_at _ _
    | exact terminates_value_for _ _
    | exact terminates_field_named _ _
    | exact terminates_contents _ _
    | exact terminates_std_stoll _
    | exact terminates_ensure _
    | apply terminates_bind
    | apply terminates_ite
    | intro _

theorem terminates_bitmask_field (D : Decls) (c : Container) (name : Lexeme) (field : Field) :
    Terminates (bitmask_field D c name field) := by
  unfold bitmask_field
  repeat' first
    | exact (bitmask_loop_within_budget _ _ _ _ _ (Nat.lt_succ_self _)).1
    | apply terminates_with_remaining
    | apply timed_out_bind
    | exact terminates_pure _
    | exact terminates_fail _ (by simp)
    | exact terminates_fatal_error _ _ _
    | exact terminates_expect _
    | exact terminates_peek
    | exact terminates_read
    | exact terminates_advance
    | exact terminates_emit _
    | exact terminates_value_at _ _
    | exact terminates_value_for _ _
    | exact terminates_field_named _ _
    | exact terminates_contents _ _
    | exact terminates_std_stoll _
    | exact terminates_ensure _
    | apply terminates_bind
    | apply terminates_ite
    | intro _

theorem terminates_expect_integer (name : Lexeme) :
    Terminates (expect_integer name) := by
  unfold expect_integer
  repeat' first
    | exact terminates_pure _
    | exact terminates_fail _ (by simp)
    | exact terminates_fatal_error _ _ _
    | exact terminates_expect _
    | exact terminates_peek
    | exact terminates_read
    | exact terminates_advance
    | exact terminates_emit _
    | exact terminates_value_at _ _
    | exact terminates_value_for _ _
    | exact terminates_field_named _ _
    | exact terminates_contents _ _
    | exact terminates_std_stoll _
    | exact terminates_ensure _
    | apply terminates_bind
    | apply terminates_ite
    | intro _

theorem terminates_expect_string (name : Lexeme) :
    Terminates (expect_string name) := by
  unfold expect_string
  repeat' first
    | exact terminates_pure _
    | exact terminates_fail _ (by simp)
    | exact terminates_fatal_error _ _ _
    | exact terminates_expect _
    | exact terminates_peek
    | exact terminates_read
    | exact terminates_advance
    | exact terminates_emit _
    | exact terminates_value_at _ _
    | exact terminates_value_for _ _
    | exact terminates_field_named _ _
    | exact terminates_contents _ _
    | exact terminates_std_stoll _
    | exact terminates_ensure _
    | apply terminates_bind
    | apply terminates_ite
    | intro _

theorem terminates_infer_value (D : Decls) (c : Container) (name : Lexeme) (value : FieldValue) :
    Terminates (infer_value D c name value) := by
  unfold infer_value
  repeat' first
    | exact terminates_expect_integer _
    | exact terminates_expect_string _
    | exact terminates_pure _
    | exact terminates_fail _ (by simp)
    | exact terminates_fatal_error _ _ _
    | exact terminates_expect _
    | exact terminates_peek
    | exact terminates_read
    | exact terminates_advance
    | exact terminates_emit _
    | exact terminates_value_at _ _
    | exact terminates_value_for _ _
    | exact terminates_field_named _ _
    | exact terminates_contents _ _
    | exact terminates_std_stoll _
    | exact terminates_ensure _
    | apply terminates_bind
    | apply terminates_ite
    | intro _

theorem terminates_infer_values (D : Decls) (c : Container) (name : Lexeme) :
    ∀ values : List FieldValue, Terminates (infer_values D c name values)
  | [] => terminates_pure _
  | v :: vs => by
    unfold infer_values
    exact terminates_bind (terminates_infer_value D c name v)
      (fun _ => terminates_infer_values D c name vs)

theorem terminates_parse_value (D : Decls) (c : Container) (t : Target) (name : Lexeme)
    (field : Field) : Terminates (parse_value D c t name field) := by
  unfold parse_value
  split
  · repeat' first
      | exact terminates_reference_field _ _ _ _
      | exact terminates_file_field _ _ _ _ _
      | exact terminates_picture_field
      | exact terminates_sprite_field
      | exact terminates_coloricon_field
      | exact terminates_bitmask_field _ _ _ _
      | exact terminates_pure _
      | exact terminates_fail _ (by simp)
      | exact terminates_fatal_error _ _ _
      | exact terminates_expect _
      | exact terminates_peek
      | exact terminates_read
      | exact terminates_advance
      | exact terminates_emit _
      | exact terminates_value_at _ _
      | exact terminates_value_for _ _
      | exact terminates_field_named _ _
      | exact terminates_contents _ _
      | exact terminates_std_stoll _
      | exact terminates_ensure _
      | apply terminates_bind
      | apply terminates_ite
      | intro _
  · exact terminates_infer_values _ _ _ _

theorem terminates_parse_field (D : Decls) (c : Container) (t : Target) :
    Terminates (parse_field D c t) := by
  unfold parse_field
  repeat' first
    | exact terminates_parse_value _ _ _ _ _
    | exact terminates_pure _
    | exact terminates_fail _ (by simp)
    | exact terminates_fatal_error _ _ _
    | exact terminates_expect _
    | exact terminates_peek
    | exact terminates_read
    | exact terminates_advance
    | exact terminates_emit _
    | exact terminates_value_at _ _
    | exact terminates_value_for _ _
    | exact terminates_field_named _ _
    | exact terminates_contents _ _
    | exact terminates_std_stoll _
    | exact terminates_ensure _
    | apply terminates_bind
    | apply terminates_ite
    | intro _

theorem terminates_parse_header (D : Decls) : Terminates (parse_header D) := by
  unfold parse_header
  repeat' first
    | exact terminates_pure _
    | exact terminates_fail _ (by simp)
    | exact terminates_fatal_error _ _ _
    | exact terminates_expect _
    | exact terminates_peek
    | exact terminates_read
    | exact terminates_advance
    | exact terminates_emit _
    | exact terminates_value_at _ _
    | exact terminates_value_for _ _
    | exact terminates_field_named _ _
    | exact terminates_contents _ _
    | exact terminates_std_stoll _
    | exact terminates_ensure _
    | apply terminates_bind
    | apply terminates_ite
    | intro _

theorem terminates_open_declaration (D : Decls) : Terminates (open_declaration D) := by
  unfold open_declaration
  repeat' first
    | exact terminates_parse_header _
    | exact terminates_pure _
    | exact terminates_fail _ (by simp)
    | exact terminates_fatal_error _ _ _
    | exact terminates_expect _
    | exact terminates_peek
    | exact terminates_read
    | exact terminates_advance
    | exact terminates_emit _
    | exact terminates_value_at _ _
    | exact terminates_value_for _ _
    | exact terminates_field_named _ _
    | exact terminates_contents _ _
    | exact terminates_std_stoll _
    | exact terminates_ensure _
    | apply terminates_bind
    | apply terminates_ite
    | intro _

/-- Every round of the field loop ends the loop, fails, or consumes. -/
theorem parse_fields_round (D : Decls) (c : Container) (t : Target) (ls : List Lexeme) :
    LoopRound (fun fuel (_ : Unit) => parse_fields D c t fuel) () ls := by
  by_cases hc : expect_from ls [(expectation .r_brace).be_false] = true
  · cases hr : parse_field D c t ls with
    | fail e rest w =>
      refine Or.inr (Or.inl ⟨e, rest, w, ?_, fun k => ?_⟩)
      · have h := (terminates_parse_field D c t).ends ls
        rw [hr] at h
        exact ne_out_of_fuel_of_timed_out h
      · simp [parse_fields, hc, hr]
    | ok u rest w =>
      have hlt := consumes_parse_field D c t ls u rest w hr
      refine Or.inr (Or.inr ⟨(), rest, w, hlt, fun k => ?_⟩)
      simp [parse_fields, hc, hr]
  · refine Or.inl ⟨(), fun k => ?_⟩
    simp [parse_fields, hc]

theorem parse_fields_within_budget (D : Decls) (c : Container) (t : Target)
    (ls : List Lexeme) (fuel : Nat) (h : ls.length < fuel) :
    (parse_fields D c t fuel ls).timed_out = false ∧
    parse_fields D c t fuel ls = parse_fields D c t (ls.length + 1) ls :=
  loop_within_budget (fun fuel (_ : Unit) => parse_fields D c t fuel)
    (fun _ ls => parse_fields_round D c t ls) ls.length ls (Nat.le_refl _) () fuel h

theorem terminates_parse_declaration (D : Decls) (c : Container) (t : Target) :
    Terminates (parse_declaration D c t) := by
  unfold parse_declaration
  repeat' first
    | exact terminates_open_declaration _
    | exact (parse_fields_within_budget _ _ _ _ _ (Nat.lt_succ_self _)).1
    | apply terminates_with_remaining
    | apply timed_out_bind
    | exact terminates_pure _
    | exact terminates_fail _ (by simp)
    | exact terminates_fatal_error _ _ _
    | exact terminates_expect _
    | exact terminates_peek
    | exact terminates_read
    | exact terminates_advance
    | exact terminates_emit _
    | exact terminates_value_at _ _
    | exact terminates_value_for _ _
    | exact terminates_field_named _ _
    | exact terminates_contents _ _
    | exact terminates_std_stoll _
    | exact terminates_ensure _
    | apply terminates_bind
    | apply terminates_ite
    | intro _

theorem parse_timed_out (D : Decls) (c : Container) (target : Option Target)
    (order : ByteOrder) (ls : List Lexeme) :
    (parse D c target order ls).timed_out = false := by
  cases target with
  | none => rfl
  | some t =>
    have h := (terminates_parse_declaration D c t).ends ls
    simp only [parse]
    cases hr : parse_declaration D c t ls with
    | ok u rest w => rfl
    | fail e rest w =>
      rw [hr] at h
      cases e <;> first | rfl | exact h

/-- C21. `parse` terminates on every finite sequence of lexemes, the cursor yielding the
end-of-input lexeme once they run out: it never exhausts the iteration budget it runs its
loops with, one more than the number of lexemes left. Every round of the field loop and
every round of the term loop of a `Bitmask` field ends the loop, fails with a failure of
the source, or consumes at least one lexeme, whatever budget is left; so with any budget
above the number of lexemes left neither loop runs out of budget, and its outcome is the
one of the budget `length + 1`: the number of rounds is bounded by the number of lexemes
left. -/
theorem parse_terminates (D : Decls) (type_container : Container) (target : Option Target)
    (t : Target) (order : ByteOrder) (value : FieldValue) (mask : Nat)
    (ls fields terms : List Lexeme) (fuel : Nat)
    (hfields : fields.length < fuel) (hterms : terms.length < fuel) :
    (parse D type_container target order ls).timed_out = false ∧
    LoopRound (fun fuel (_ : Unit) => parse_fields D type_container t fuel) () fields ∧
    LoopRound (bitmask_loop D value) mask terms ∧
    (parse_fields D type_container t fuel fields).timed_out = false ∧
    parse_fields D type_container t fuel fields =
      parse_fields D type_container t (fields.length + 1) fields ∧
    (bitmask_loop D value fuel mask terms).timed_out = false ∧
    bitmask_loop D value fuel mask terms = bitmask_loop D value (terms.length + 1) mask terms :=
  ⟨parse_timed_out D type_container target order ls,
    parse_fields_round D type_container t fields,
    bitmask_loop_round D value mask terms,
    (parse_fields_within_budget D type_container t fields fuel hfields).1,
    (parse_fields_within_budget D type_container t fields fuel hfields).2,
    (bitmask_loop_within_budget D value mask terms fuel hterms).1,
    (bitmask_loop_within_budget D value mask terms fuel hterms).2⟩

/-- C21 at `new(128, "Test") { count = 3; flags = a |`, where the lexemes run out in the
middle of a `Bitmask` expression, with a budget of 100 rounds for the field loop (started
after the opening brace) and the term loop (started after `flags =`): `parse` ends, with
the failure the term loop raises at the end of the input, after the one call for `count`. -/
theorem parse_terminates_witness :
    ((sample.unfinished_declaration.drop 7).length < 100 ∧
      (sample.unfinished_declaration.drop 13).length < 100) ∧
    ((parse sample.decls sample.container (some sample.target) .big
        sample.unfinished_declaration).timed_out = false ∧
      LoopRound (fun fuel (_ : Unit) =>
        parse_fields sample.decls sample.container sample.target fuel) ()
        (sample.unfinished_declaration.drop 7) ∧
      LoopRound (bitmask_loop sample.decls sample.flags_value) 0
        (sample.unfinished_declaration.drop 13) ∧
      (parse_fields sample.decls sample.container sample.target 100
        (sample.unfinished_declaration.drop 7)).timed_out = false ∧
      parse_fields sample.decls sample.container sample.target 100
          (sample.unfinished_declaration.drop 7) =
        parse_fields sample.decls sample.container sample.target
          ((sample.unfinished_declaration.drop 7).length + 1)
          (sample.unfinished_declaration.drop 7) ∧
      (bitmask_loop sample.decls sample.flags_value 100 0
        (sample.unfinished_declaration.drop 13)).timed_out = false ∧
      bitmask_loop sample.decls sample.flags_value 100 0
          (sample.unfinished_declaration.drop 13) =
        bitmask_loop sample.decls sample.flags_value
          ((sample.unfinished_declaration.drop 13).length + 1) 0
          (sample.unfinished_declaration.drop 13)) ∧
    parse sample.decls sample.container (some sample.target) .big
        sample.unfinished_declaration =
      .fail (.fatal_error eof 1 "Unexpected lexeme encountered in bitmask: ''") []
        [.write_signed_short sample.count_value 3] :=
  ⟨⟨by decide, by decide⟩,
    parse_terminates sample.decls sample.container (some sample.target) sample.target .big
      sample.flags_value 0 sample.unfinished_declaration
      (sample.unfinished_declaration.drop 7) (sample.unfinished_declaration.drop 13) 100
      (by decide) (by decide),
    rfl⟩

end sema.new_resource

end kdl
